import Mathlib

/-!
EMP node: wire codec, object store and protocol engine.

A shallow embedding of the Go sources of the EMP node
(objects/message.go, db/objects.go, api/aux.go, local/localapi/rpcmsg.go)
together with machine-checked statements about them.

Conventions.
* A byte is a Fin 256; a Go byte slice is a List Byte (a nil slice is the empty list).
* A Go pointer that may be nil is an Option.
* Go machine integers are Nat or Int with explicit reduction modulo a power of two.
* Package-level variables (the store of package db, the channels of ApiConfig)
  are fields of explicit state records that every operation takes and returns.
* Channel sends append to a list, oldest first.
-/

namespace EMP

/-- A Go byte. -/
abbrev Byte := Fin 256

/-- Conversion uint64 to byte: the low eight bits. -/
def byte (x : Nat) : Byte := ⟨x % 256, Nat.mod_lt _ (by decide)⟩

/-! ## crypto/sha512.Sum384 (Go standard library), after FIPS 180-4 -/

namespace SHA512

/-- Round constants of SHA-512 (FIPS 180-4, section 4.2.3). -/
def K : List Nat := [
  0x428a2f98d728ae22, 0x7137449123ef65cd, 0xb5c0fbcfec4d3b2f, 0xe9b5dba58189dbbc,
  0x3956c25bf348b538, 0x59f111f1b605d019, 0x923f82a4af194f9b, 0xab1c5ed5da6d8118,
  0xd807aa98a3030242, 0x12835b0145706fbe, 0x243185be4ee4b28c, 0x550c7dc3d5ffb4e2,
  0x72be5d74f27b896f, 0x80deb1fe3b1696b1, 0x9bdc06a725c71235, 0xc19bf174cf692694,
  0xe49b69c19ef14ad2, 0xefbe4786384f25e3, 0x0fc19dc68b8cd5b5, 0x240ca1cc77ac9c65,
  0x2de92c6f592b0275, 0x4a7484aa6ea6e483, 0x5cb0a9dcbd41fbd4, 0x76f988da831153b5,
  0x983e5152ee66dfab, 0xa831c66d2db43210, 0xb00327c898fb213f, 0xbf597fc7beef0ee4,
  0xc6e00bf33da88fc2, 0xd5a79147930aa725, 0x06ca6351e003826f, 0x142929670a0e6e70,
  0x27b70a8546d22ffc, 0x2e1b21385c26c926, 0x4d2c6dfc5ac42aed, 0x53380d139d95b3df,
  0x650a73548baf63de, 0x766a0abb3c77b2a8, 0x81c2c92e47edaee6, 0x92722c851482353b,
  0xa2bfe8a14cf10364, 0xa81a664bbc423001, 0xc24b8b70d0f89791, 0xc76c51a30654be30,
  0xd192e819d6ef5218, 0xd69906245565a910, 0xf40e35855771202a, 0x106aa07032bbd1b8,
  0x19a4c116b8d2d0c8, 0x1e376c085141ab53, 0x2748774cdf8eeb99, 0x34b0bcb5e19b48a8,
  0x391c0cb3c5c95a63, 0x4ed8aa4ae3418acb, 0x5b9cca4f7763e373, 0x682e6ff3d6b2b8a3,
  0x748f82ee5defb2fc, 0x78a5636f43172f60, 0x84c87814a1f0ab72, 0x8cc702081a6439ec,
  0x90befffa23631e28, 0xa4506cebde82bde9, 0xbef9a3f7b2c67915, 0xc67178f2e372532b,
  0xca273eceea26619c, 0xd186b8c721c0c207, 0xeada7dd6cde0eb1e, 0xf57d4f7fee6ed178,
  0x06f067aa72176fba, 0x0a637dc5a2c898a6, 0x113f9804bef90dae, 0x1b710b35131c471b,
  0x28db77f523047d84, 0x32caab7b40c72493, 0x3c9ebe0a15c9bebc, 0x431d67c49c100d4c,
  0x4cc5d4becb3e42b6, 0x597f299cfc657e2a, 0x5fcb6fab3ad6faec, 0x6c44198c4a475817]

/-- The eight working variables / the intermediate hash value. -/
structure State where
  a : Nat
  b : Nat
  c : Nat
  d : Nat
  e : Nat
  f : Nat
  g : Nat
  h : Nat

/-- Initial hash value of SHA-384 (FIPS 180-4, section 5.3.4). -/
def init384 : State :=
  ⟨0xcbbb9d5dc1059ed8, 0x629a292a367cd507, 0x9159015a3070dd17, 0x152fecd8f70e5939,
   0x67332667ffc00b31, 0x8eb44a8768581511, 0xdb0c2e0d64f98fa7, 0x47b5481dbefa4fa4⟩

/-- Truncation to a 64-bit word. -/
def w64 (x : Nat) : Nat := x % 18446744073709551616

/-- Rotate a 64-bit word right by n bits. -/
def rotr (x n : Nat) : Nat := w64 ((x >>> n) ||| (x <<< (64 - n)))

def bigSigma0 (x : Nat) : Nat := rotr x 28 ^^^ rotr x 34 ^^^ rotr x 39

def bigSigma1 (x : Nat) : Nat := rotr x 14 ^^^ rotr x 18 ^^^ rotr x 41

def smallSigma0 (x : Nat) : Nat := rotr x 1 ^^^ rotr x 8 ^^^ (x >>> 7)

def smallSigma1 (x : Nat) : Nat := rotr x 19 ^^^ rotr x 61 ^^^ (x >>> 6)

def ch (x y z : Nat) : Nat := (x &&& y) ^^^ ((18446744073709551615 ^^^ x) &&& z)

def maj (x y z : Nat) : Nat := (x &&& y) ^^^ (x &&& z) ^^^ (y &&& z)

/-- One of the eighty rounds, on the pair (round constant, schedule word). -/
def round (s : State) (kw : Nat × Nat) : State :=
  let t1 := w64 (s.h + bigSigma1 s.e + ch s.e s.f s.g + kw.1 + kw.2)
  let t2 := w64 (bigSigma0 s.a + maj s.a s.b s.c)
  ⟨w64 (t1 + t2), s.a, s.b, s.c, w64 (s.d + t1), s.e, s.f, s.g⟩

/-- Message schedule words 16..79, from the sliding window of the last sixteen words. -/
def schedule : Nat → List Nat → List Nat
  | 0, _ => []
  | n + 1, win =>
    let x := w64 (smallSigma1 (win.getD 14 0) + win.getD 9 0
                  + smallSigma0 (win.getD 1 0) + win.getD 0 0)
    x :: schedule n (win.drop 1 ++ [x])

/-- Big-endian value of a run of bytes. -/
def beWord (bs : List Nat) : Nat := bs.foldl (fun acc b => acc * 256 + b) 0

/-- The first n 64-bit words of a block. -/
def words : Nat → List Nat → List Nat
  | 0, _ => []
  | n + 1, bs => beWord (bs.take 8) :: words n (bs.drop 8)

/-- Compression of one 128-byte block. -/
def compress (s : State) (block : List Nat) : State :=
  let w := words 16 block
  let r := (K.zip (w ++ schedule 64 w)).foldl round s
  ⟨w64 (s.a + r.a), w64 (s.b + r.b), w64 (s.c + r.c), w64 (s.d + r.d),
   w64 (s.e + r.e), w64 (s.f + r.f), w64 (s.g + r.g), w64 (s.h + r.h)⟩

/-- Compression of the first n blocks of a padded message. -/
def blocks : Nat → State → List Nat → State
  | 0, s, _ => s
  | n + 1, s, bs => blocks n (compress s (bs.take 128)) (bs.drop 128)

/-- Big-endian n-byte representation of a number. -/
def beBytes : Nat → Nat → List Nat
  | 0, _ => []
  | n + 1, x => beBytes n (x / 256) ++ [x % 256]

/-- Padding: a one bit, zero bits up to 112 modulo 128 bytes, the bit length on 16 bytes. -/
def pad (msg : List Nat) : List Nat :=
  let n := msg.length
  msg ++ [128] ++ List.replicate ((239 - n % 128) % 128) 0 ++ beBytes 16 (8 * n)

/-- The eight bytes of a 64-bit word, most significant first. -/
def word8 (x : Nat) : List Byte :=
  [byte (x >>> 56), byte (x >>> 48), byte (x >>> 40), byte (x >>> 32),
   byte (x >>> 24), byte (x >>> 16), byte (x >>> 8), byte x]

/-- The SHA-384 digest: the first six words of the final SHA-512 state with the
SHA-384 initial value. -/
def Sum384 (msg : List Byte) : List Byte :=
  let p := pad (msg.map Fin.val)
  let s := blocks (p.length / 128) init384 p
  word8 s.a ++ word8 s.b ++ word8 s.c ++ word8 s.d ++ word8 s.e ++ word8 s.f

end SHA512

/-! ## Package objects: hashes, time stamps, messages -/

/-- Modelled from the spec: the constant hashLen is declared outside the given
sources; the spec has "Hash fields are fixed 48 bytes". -/
abbrev hashLen : Nat := 48

/-- Modelled from the spec: the type objects.Hash, declared outside the given
sources: "A 48-byte digest"; "Equality is byte equality". -/
structure Hash where
  bytes : List Byte
  len : bytes.length = hashLen
deriving DecidableEq

/-- Modelled from the spec: Hash.GetBytes, the 48 bytes of the hash
(payload layout "Hash: 48 bytes"). -/
def Hash.GetBytes (h : Hash) : List Byte := h.bytes

/-- The zero value of a Go Hash variable: 48 zero bytes. -/
def Hash.zero : Hash := ⟨List.replicate hashLen 0, by simp⟩

/-- Modelled from the spec: Hash.FromBytes, declared outside the given sources.
The first 48 bytes of the input fill the receiver; "DecodeError fires when the
input is shorter than the type's minimum length", and the receiver is then left
as it was.  The callers in the given sources ignore the returned error, so only
the receiver after the call is modelled. -/
def Hash.FromBytes (h : Hash) (data : List Byte) : Hash :=
  if hlen : hashLen ≤ data.length then
    ⟨data.take hashLen, by rw [List.length_take]; exact Nat.min_eq_left hlen⟩
  else h

/-- Modelled from the spec: objects.MakeHash, declared outside the given sources:
"A 48-byte digest (SHA-384 of a canonical byte serialization)". -/
def MakeHash (data : List Byte) : Hash := ⟨SHA512.Sum384 data, rfl⟩

/-- The constant msgLen of objects/message.go. -/
abbrev msgLen : Nat := 2 * hashLen + 8

/-! Message command types (objects/message.go, an iota block). -/

abbrev VERSION : Nat := 0

abbrev PEER : Nat := 1

abbrev OBJ : Nat := 2

abbrev GETOBJ : Nat := 3

abbrev PUBKEY_REQUEST : Nat := 4

abbrev PUBKEY : Nat := 5

abbrev MSG : Nat := 6

abbrev PURGE : Nat := 7

abbrev CHECKTXID : Nat := 8

abbrev PUB : Nat := 9

/-! Quibit frame types (objects/message.go, an iota block). -/

abbrev BROADCAST : Nat := 0

abbrev REQUEST : Nat := 1

abbrev REPLY : Nat := 2

/-- A Go time.Time, as an instant: whole seconds since the Unix epoch and the
nanoseconds within that second.  Location and monotonic reading are not modelled. -/
structure Time where
  sec : Int
  nsec : Nat
deriving DecidableEq

/-- The method Time.Unix: seconds since the epoch (an int64 in Go). -/
def Time.Unix (t : Time) : Int := t.sec

/-- The function time.Unix(sec, 0). -/
def timeUnix (sec : Int) : Time := ⟨sec, 0⟩

/-- The seconds of the instant fit Go's int64, which is the result type of Time.Unix. -/
def Time.IsInt64 (t : Time) : Prop := -(2 : Int) ^ 63 ≤ t.sec ∧ t.sec < (2 : Int) ^ 63

instance (t : Time) : Decidable t.IsInt64 := by
  unfold Time.IsInt64
  infer_instance

/-- The instant is a whole number of seconds. -/
def Time.IsWholeSeconds (t : Time) : Prop := t.nsec = 0

/-- The Go conversion uint64(x) of an int64: the residue modulo 2^64. -/
def uint64 (x : Int) : Nat := (x % (2 : Int) ^ 64).toNat

/-- The Go conversion int64(u) of a uint64: values from 2^63 on are negative. -/
def int64 (u : Nat) : Int := if u < 2 ^ 63 then (u : Int) else (u : Int) - (2 : Int) ^ 64

/-- The function binary.BigEndian.PutUint64 on a fresh 8-byte slice. -/
def putUint64 (v : Nat) : List Byte :=
  [byte (v >>> 56), byte (v >>> 48), byte (v >>> 40), byte (v >>> 32),
   byte (v >>> 24), byte (v >>> 16), byte (v >>> 8), byte v]

/-- The function binary.BigEndian.Uint64 (the slice has at least 8 bytes at
every call in the sources). -/
def getUint64 (b : List Byte) : Nat :=
  (b.getD 7 0).val ||| (b.getD 6 0).val <<< 8 ||| (b.getD 5 0).val <<< 16
    ||| (b.getD 4 0).val <<< 24 ||| (b.getD 3 0).val <<< 32 ||| (b.getD 2 0).val <<< 40
    ||| (b.getD 1 0).val <<< 48 ||| (b.getD 0 0).val <<< 56

/-- The type encryption.EncryptedMessage is declared outside the given sources and
the spec does not give its layout, so it is a parameter: a type with the two
methods the sources call on it, and the zero value of a fresh variable.
FromBytes takes the receiver before the call and returns the receiver after it. -/
class ContentCodec (C : Type) where
  GetBytes : C → List Byte
  FromBytes : C → List Byte → C
  zero : C

/-- The struct Message of objects/message.go. -/
structure Message (C : Type) where
  AddrHash : Hash
  TxidHash : Hash
  Timestamp : Time
  Content : C

/-- The zero value of a Message (new(objects.Message)). -/
def Message.zero {C : Type} [ContentCodec C] : Message C :=
  ⟨Hash.zero, Hash.zero, ⟨0, 0⟩, ContentCodec.zero⟩

/-- Method Message.FromBytes of objects/message.go.  The receiver is a pointer
(none is nil); the result is the receiver after the call and the returned error. -/
def Message.FromBytes {C : Type} [ContentCodec C] (m : Option (Message C))
    (data : List Byte) : Option (Message C) × Option String :=
  if data.length < msgLen then
    (m, some "Data too short to create message!")
  else
    match m with
    | none => (none, some "Can't fill nil Message object!")
    | some r =>
      let addr := data.take hashLen
      let buf1 := data.drop hashLen
      let txid := buf1.take hashLen
      let buf2 := buf1.drop hashLen
      let stamp := buf2.take 8
      let buf3 := buf2.drop 8
      (some { AddrHash := r.AddrHash.FromBytes addr
              TxidHash := r.TxidHash.FromBytes txid
              Timestamp := timeUnix (int64 (getUint64 stamp))
              Content := ContentCodec.FromBytes r.Content buf3 }, none)

/-- Method Message.GetBytes of objects/message.go (none is the nil receiver). -/
def Message.GetBytes {C : Type} [ContentCodec C] : Option (Message C) → List Byte
  | none => []
  | some m =>
    let ret := m.AddrHash.GetBytes ++ m.TxidHash.GetBytes
    let time := putUint64 (uint64 m.Timestamp.Unix)
    let ret := ret ++ time
    ret ++ ContentCodec.GetBytes m.Content

/-- What the spec calls the 8-byte big-endian representation: the n base-256
digits of a number, most significant first (written from the spec's words). -/
def bigEndianDigits : Nat → Nat → List Byte
  | 0, _ => []
  | n + 1, v => bigEndianDigits n (v / 256) ++ [byte v]

/-- The 64-bit two's-complement code of an integer: itself when non-negative,
2^64 minus its magnitude when negative (written from the spec's words). -/
def twosComplement64 (x : Int) : Nat := if 0 ≤ x then x.toNat else 2 ^ 64 - (-x).toNat

/-- A sample content codec: the content is its own byte string. -/
structure RawContent where
  raw : List Byte
deriving DecidableEq

instance : ContentCodec RawContent where
  GetBytes c := c.raw
  FromBytes _ data := ⟨data⟩
  zero := ⟨[]⟩

/-! ## Payload types declared outside the given sources -/

/-- A Go [16]byte array (the IV of a pubkey, the Txid of a purge). -/
structure Bytes16 where
  bytes : List Byte
  len : bytes.length = 16
deriving DecidableEq

/-- The zero value of a [16]byte array. -/
def Bytes16.zero : Bytes16 := ⟨List.replicate 16 0, by simp⟩

/-- The Go statement copy(dst[:], src) on a [16]byte array: the first bytes of dst
are overwritten by at most 16 bytes of src. -/
def Bytes16.copyFrom (dst : Bytes16) (src : List Byte) : Bytes16 :=
  ⟨(src ++ dst.bytes.drop src.length).take 16, by
    have h := dst.len
    rw [List.length_take, List.length_append, List.length_drop]
    omega⟩

/-- Modelled from the spec: the type objects.EncryptedPubkey, declared outside the
given sources: "{AddrHash: Hash, IV: 16 bytes, Payload: variable bytes}". -/
structure EncryptedPubkey where
  AddrHash : Hash
  IV : Bytes16
  Payload : List Byte
deriving DecidableEq

/-- Modelled from the spec: EncryptedPubkey.GetBytes, declared outside the given
sources: "48-byte AddrHash ∥ 16-byte IV ∥ remainder payload"; a nil pointer gives
no bytes, as Message.GetBytes does in the given sources. -/
def EncryptedPubkey.GetBytes : Option EncryptedPubkey → List Byte
  | none => []
  | some p => p.AddrHash.GetBytes ++ p.IV.bytes ++ p.Payload

/-- Modelled from the spec: the type objects.Purge, declared outside the given
sources: "{Txid: 16 bytes, Signature: bytes}".  The given sources read and write
only the field Txid. -/
structure Purge where
  Txid : Bytes16
  Signature : List Byte
deriving DecidableEq

/-- The zero value of a Purge (new(objects.Purge)). -/
def Purge.zero : Purge := ⟨Bytes16.zero, []⟩

/-- Modelled from the spec: Purge.GetBytes, declared outside the given sources:
"16-byte Txid ∥ remainder signature"; a nil pointer gives no bytes. -/
def Purge.GetBytes : Option Purge → List Byte
  | none => []
  | some p => p.Txid.bytes ++ p.Signature

/-- Modelled from the spec: Purge.FromBytes, declared outside the given sources:
the first 16 bytes are the Txid and the remainder is the signature; "DecodeError
fires when the input is shorter than the type's minimum length", the receiver being
left as it was.  Only the receiver after the call is modelled. -/
def Purge.FromBytes (p : Purge) (data : List Byte) : Purge :=
  if h : 16 ≤ data.length then
    ⟨⟨data.take 16, by rw [List.length_take]; exact Nat.min_eq_left h⟩, data.drop 16⟩
  else p

/-! ## Package db: the hash list and the backend -/

/-- Modelled from the spec: the hash-list constants of package db, declared
outside the given sources: "Kind ∈ {PUBKEY, PUBKEYRQ, MSG, PUB, PURGE, NOTFOUND}".
Their numeric values are not given. -/
inductive Kind where
  | PUBKEY
  | PUBKEYRQ
  | MSG
  | PUB
  | PURGE
  | NOTFOUND
deriving DecidableEq

/-- A row of the tables msg and pub: "msg(hash BLOB PRIMARY KEY, addrhash BLOB,
timestamp INTEGER, content BLOB)". -/
structure MsgRow where
  hash : List Byte
  addrhash : List Byte
  timestamp : Int
  content : List Byte
deriving DecidableEq

/-- A row of the tables pubkey and purge: "pubkey(hash BLOB PRIMARY KEY, payload
BLOB)", "purge(hash BLOB PRIMARY KEY, txid BLOB)". -/
structure KeyRow where
  hash : List Byte
  payload : List Byte
deriving DecidableEq

/-- Modelled from the spec: the SQL backend behind dbConn, an external collaborator
with four tables whose column hash is the primary key.  The flag failing stands for
a backend that answers every statement with an error (StoreError BackendFailure). -/
structure Backend where
  pubkey : List KeyRow
  purge : List KeyRow
  msg : List MsgRow
  pub : List MsgRow
  failing : Bool
deriving DecidableEq

/-- Errors returned by the operations of package db. -/
inductive DBError where
  | EUNINIT
  | constraint
  | failure
deriving DecidableEq

/-- The SQL statements that db/objects.go passes to dbConn.Exec, one constructor
per statement text, with the bound values. -/
inductive Stmt where
  /-- INSERT INTO pubkey VALUES (?, ?) -/
  | insertPubkey (hash payload : List Byte)
  /-- INSERT INTO purge VALUES (?, ?) -/
  | insertPurge (hash txid : List Byte)
  /-- INSERT INTO pub VALUES (?, ?, ?, ?) -/
  | insertPub (row : MsgRow)
  /-- INSERT INTO msg VALUES (?, ?, ?, ?) -/
  | insertMsg (row : MsgRow)
  /-- DELETE FROM pubkey WHERE hash=? -/
  | deletePubkey (hash : List Byte)
  /-- DELETE FROM msg WHERE hash=? -/
  | deleteMsg (hash : List Byte)
  /-- DELETE FROM purge WHERE hash=? -/
  | deletePurge (hash : List Byte)
  /-- DELETE FROM msg WHERE timestamp <= ? -/
  | sweepMsg (deadline : Int)

/-- Modelled from the spec: dbConn.Exec.  A failing backend returns an error and
changes nothing; an INSERT whose hash is already in the table violates the primary
key, returns an error and changes nothing; otherwise the row is appended, or the
matching rows are deleted. -/
def Backend.Exec (db : Backend) (st : Stmt) : Backend × Option DBError :=
  if db.failing then (db, some DBError.failure)
  else
    match st with
    | Stmt.insertPubkey hash payload =>
      if db.pubkey.any (fun r => r.hash = hash) then (db, some DBError.constraint)
      else ({ db with pubkey := db.pubkey ++ [⟨hash, payload⟩] }, none)
    | Stmt.insertPurge hash txid =>
      if db.purge.any (fun r => r.hash = hash) then (db, some DBError.constraint)
      else ({ db with purge := db.purge ++ [⟨hash, txid⟩] }, none)
    | Stmt.insertPub row =>
      if db.pub.any (fun r => r.hash = row.hash) then (db, some DBError.constraint)
      else ({ db with pub := db.pub ++ [row] }, none)
    | Stmt.insertMsg row =>
      if db.msg.any (fun r => r.hash = row.hash) then (db, some DBError.constraint)
      else ({ db with msg := db.msg ++ [row] }, none)
    | Stmt.deletePubkey hash =>
      ({ db with pubkey := db.pubkey.filter (fun r => r.hash ≠ hash) }, none)
    | Stmt.deleteMsg hash =>
      ({ db with msg := db.msg.filter (fun r => r.hash ≠ hash) }, none)
    | Stmt.deletePurge hash =>
      ({ db with purge := db.purge.filter (fun r => r.hash ≠ hash) }, none)
    | Stmt.sweepMsg deadline =>
      ({ db with msg := db.msg.filter (fun r => ¬ r.timestamp ≤ deadline) }, none)

/-- Modelled from the spec: dbConn.Query for "SELECT payload FROM pubkey WHERE
hash=?": the first matching row, or an error (here none) when the backend fails or
no row matches, which ends the loop of the caller at once. -/
def Backend.queryPubkey (db : Backend) (hash : List Byte) : Option (List Byte) :=
  if db.failing then none
  else (db.pubkey.find? (fun r => r.hash = hash)).map KeyRow.payload

/-- Modelled from the spec: dbConn.Query for "SELECT txid FROM purge WHERE hash=?". -/
def Backend.queryPurge (db : Backend) (hash : List Byte) : Option (List Byte) :=
  if db.failing then none
  else (db.purge.find? (fun r => r.hash = hash)).map KeyRow.payload

/-- Modelled from the spec: dbConn.Query for "SELECT * FROM msg WHERE hash=?". -/
def Backend.queryMsg (db : Backend) (hash : List Byte) : Option MsgRow :=
  if db.failing then none
  else db.msg.find? (fun r => r.hash = hash)

/-- The package-level variables hashList and dbConn of package db (none is nil).
The map is keyed by the bytes of a hash, which here is the hash itself. -/
structure Store where
  hashList : Option (List (Hash × Kind))
  dbConn : Option Backend
deriving DecidableEq

/-- Lookup in a Go map held as an association list. -/
def mapGet {K V : Type} [DecidableEq K] (m : List (K × V)) (key : K) : Option V :=
  (m.find? (fun e => e.1 = key)).map Prod.snd

/-- Assignment m[key] = v in a Go map held as an association list. -/
def mapSet {K V : Type} [DecidableEq K] (m : List (K × V)) (key : K) (v : V) : List (K × V) :=
  m.filter (fun e => e.1 ≠ key) ++ [(key, v)]

/-- The Go built-in delete(m, key). -/
def mapDelete {K V : Type} [DecidableEq K] (m : List (K × V)) (key : K) : List (K × V) :=
  m.filter (fun e => e.1 ≠ key)

/-- Modelled from the spec: db.Contains, declared outside the given sources:
"contains(h) → Kind: O(1) index lookup", NOTFOUND for a hash that is not held. -/
def Contains (s : Store) (h : Hash) : Kind :=
  match s.hashList with
  | none => Kind.NOTFOUND
  | some idx => (mapGet idx h).getD Kind.NOTFOUND

/-- Modelled from the spec: db.Add, declared outside the given sources: the index
entry of the hash is set to the kind.  On a nil hash list nothing can be recorded. -/
def Add (s : Store) (h : Hash) (k : Kind) : Store :=
  match s.hashList with
  | none => s
  | some idx => { s with hashList := some (mapSet idx h k) }

/-- Modelled from the spec: db.Delete, declared outside the given sources: the
index entry of the hash is removed. -/
def Delete (s : Store) (h : Hash) : Store :=
  match s.hashList with
  | none => s
  | some idx => { s with hashList := some (mapDelete idx h) }

/-- Modelled from the spec: db.ObjList, declared outside the given sources:
"returns the list of all currently held hashes, excluding PUBKEYRQ". -/
def ObjList (s : Store) : List Hash :=
  match s.hashList with
  | none => []
  | some idx => (idx.filter (fun e => e.2 ≠ Kind.PUBKEYRQ)).map Prod.fst

/-- What the sources do not decide and the environment supplies. -/
structure Env where
  /-- The reading of time.Now() while the call runs. -/
  now : Time
  /-- The kind whose constant has the Go value 0, if any: the value that a map
  index expression hashList[key] yields for an absent key.  The numbering of the
  constants is declared outside the given sources. -/
  zeroKind : Option Kind
  /-- The constant objects.LOCAL_VERSION, declared outside the given sources. -/
  LOCAL_VERSION : Nat
  /-- The transport's view quibit.GetPeer(peer).IP of a connected peer. -/
  peerIP : String → List Byte
  /-- The method net.IP.String of the Go standard library. -/
  ipString : List Byte → String

/-- The Go map index expression hashList[string(hash)] compared with a kind
constant: an absent key yields the zero int. -/
def hashListIs (env : Env) (idx : List (Hash × Kind)) (h : Hash) (k : Kind) : Bool :=
  match mapGet idx h with
  | some v => v = k
  | none => env.zeroKind = some k

/-! ## Package db: the operations of db/objects.go

Every operation takes the store and the log channel (a list of lines) and returns
them with its result.  The mutex is not modelled: calls do not overlap.  The text
that fmt.Sprintf derives from an error value is left out of the log lines. -/

/-- Nanoseconds of an instant since the epoch. -/
def Time.nanos (t : Time) : Int := t.sec * 1000000000 + (t.nsec : Int)

/-- The Go expression -d on an int64: the negation wraps at the bounds of int64. -/
def negInt64 (d : Int) : Int := int64 (uint64 (-d))

/-- Function SweepMessages: the deadline is time.Now().Add(-duration).Unix(), the
duration being an int64 of nanoseconds and Unix() the whole seconds, rounded down.
The source does not test dbConn for nil; a nil dbConn is reported here as EUNINIT. -/
def SweepMessages (env : Env) (s : Store) (duration : Int) : Store × Option DBError :=
  let deadline := (env.now.nanos + negInt64 duration) / 1000000000
  match s.dbConn with
  | none => (s, some DBError.EUNINIT)
  | some db =>
    let r := db.Exec (Stmt.sweepMsg deadline)
    ({ s with dbConn := some r.1 }, r.2)

/-- Function AddPubkey. -/
def AddPubkey (s : Store) (log : List String) (pubkey : EncryptedPubkey) :
    Store × List String × Option DBError :=
  let hash := pubkey.AddrHash.GetBytes
  let payload := pubkey.IV.bytes ++ pubkey.Payload
  match s.hashList, s.dbConn with
  | some _, some db =>
    if Contains s pubkey.AddrHash = Kind.PUBKEY then (s, log, none)
    else
      match db.Exec (Stmt.insertPubkey hash payload) with
      | (db1, some err) =>
        ({ s with dbConn := some db1 }, log ++ ["Error inserting pubkey into db..."], some err)
      | (db1, none) => (Add { s with dbConn := some db1 } pubkey.AddrHash Kind.PUBKEY, log, none)
  | _, _ => (s, log, some DBError.EUNINIT)

/-- Function GetPubkey (none is the nil pointer).  The source slices payload[:16],
which needs a row of at least 16 bytes, as every row written by AddPubkey is. -/
def GetPubkey (env : Env) (s : Store) (addrHash : Hash) : Option EncryptedPubkey :=
  let hash := addrHash.GetBytes
  match s.hashList, s.dbConn with
  | some idx, some db =>
    if hashListIs env idx addrHash Kind.PUBKEY = false then none
    else
      match db.queryPubkey hash with
      | some payload =>
        some { AddrHash := addrHash
               IV := Bytes16.zero.copyFrom (payload.take 16)
               Payload := payload.drop 16 }
      | none => none
  | _, _ => none

/-- Function AddPurge. -/
def AddPurge (s : Store) (log : List String) (p : Purge) :
    Store × List String × Option DBError :=
  let txid := Purge.GetBytes (some p)
  let hash := SHA512.Sum384 txid
  match s.hashList, s.dbConn with
  | some _, some db =>
    let hashObj := Hash.zero.FromBytes hash
    if Contains s hashObj = Kind.PURGE then (s, log, none)
    else
      match db.Exec (Stmt.insertPurge hash txid) with
      | (db1, some err) =>
        ({ s with dbConn := some db1 }, log ++ ["Error inserting purge into db..."], some err)
      | (db1, none) => (Add { s with dbConn := some db1 } hashObj Kind.PURGE, log, none)
  | _, _ => (s, log, some DBError.EUNINIT)

/-- Function GetPurge (none is the nil pointer). -/
def GetPurge (env : Env) (s : Store) (txidHash : Hash) : Option Purge :=
  let hash := txidHash.GetBytes
  match s.hashList, s.dbConn with
  | some idx, some db =>
    if hashListIs env idx txidHash Kind.PURGE = false then none
    else
      match db.queryPurge hash with
      | some txid => some (Purge.zero.FromBytes txid)
      | none => none
  | _, _ => none

/-- Function AddPub.  The test before the INSERT compares with MSG, as in the source. -/
def AddPub {C : Type} [ContentCodec C] (s : Store) (log : List String) (msg : Message C) :
    Store × List String × Option DBError :=
  match s.hashList, s.dbConn with
  | some _, some db =>
    if Contains s msg.TxidHash = Kind.MSG then (s, log, none)
    else
      match db.Exec (Stmt.insertPub ⟨msg.TxidHash.GetBytes, msg.AddrHash.GetBytes,
          msg.Timestamp.Unix, ContentCodec.GetBytes msg.Content⟩) with
      | (db1, some err) =>
        ({ s with dbConn := some db1 }, log ++ ["Error inserting message into db..."], some err)
      | (db1, none) => (Add { s with dbConn := some db1 } msg.TxidHash Kind.PUB, log, none)
  | _, _ => (s, log, some DBError.EUNINIT)

/-- Function AddMessage. -/
def AddMessage {C : Type} [ContentCodec C] (s : Store) (log : List String) (msg : Message C) :
    Store × List String × Option DBError :=
  match s.hashList, s.dbConn with
  | some _, some db =>
    if Contains s msg.TxidHash = Kind.MSG then (s, log, none)
    else
      match db.Exec (Stmt.insertMsg ⟨msg.TxidHash.GetBytes, msg.AddrHash.GetBytes,
          msg.Timestamp.Unix, ContentCodec.GetBytes msg.Content⟩) with
      | (db1, some err) =>
        ({ s with dbConn := some db1 }, log ++ ["Error inserting message into db..."], some err)
      | (db1, none) => (Add { s with dbConn := some db1 } msg.TxidHash Kind.MSG, log, none)
  | _, _ => (s, log, some DBError.EUNINIT)

/-- Function GetMessage (none is the nil pointer).  The query reads the table msg
whatever the kind, as in the source. -/
def GetMessage {C : Type} [ContentCodec C] (env : Env) (s : Store) (txidHash : Hash) :
    Option (Message C) :=
  let hash := txidHash.GetBytes
  match s.hashList, s.dbConn with
  | some idx, some db =>
    if hashListIs env idx txidHash Kind.MSG = false
        ∧ hashListIs env idx txidHash Kind.PUB = false then none
    else
      let msg : Message C := Message.zero
      match db.queryMsg hash with
      | some row =>
        some { TxidHash := msg.TxidHash.FromBytes row.hash
               AddrHash := msg.AddrHash.FromBytes row.addrhash
               Timestamp := timeUnix row.timestamp
               Content := ContentCodec.FromBytes msg.Content row.content }
      | none => none
  | _, _ => none

/-- Function RemoveHash.  A failed DELETE is logged and nil is returned, as in the
source; kinds other than PUBKEY, MSG and PURGE fall to the default case. -/
def RemoveHash (s : Store) (log : List String) (hashObj : Hash) :
    Store × List String × Option DBError :=
  let hash := hashObj.GetBytes
  match s.hashList, s.dbConn with
  | some _, some db =>
    let sql : Option Stmt :=
      match Contains s hashObj with
      | Kind.PUBKEY => some (Stmt.deletePubkey hash)
      | Kind.MSG => some (Stmt.deleteMsg hash)
      | Kind.PURGE => some (Stmt.deletePurge hash)
      | _ => none
    match sql with
    | none => (s, log, none)
    | some st =>
      match db.Exec st with
      | (db1, some _) =>
        ({ s with dbConn := some db1 }, log ++ ["Error deleting hash from db..."], none)
      | (db1, none) => (Delete { s with dbConn := some db1 } hashObj, log, none)
  | _, _ => (s, log, some DBError.EUNINIT)

/-! ## Package api: frames, configuration and the handlers of api/aux.go -/

/-- Modelled from the spec: the type objects.Node, declared outside the given
sources: "{IP: network address, Port: 16-bit, LastSeen: timestamp}". -/
structure Node where
  IP : List Byte
  Port : Nat
  LastSeen : Time
deriving DecidableEq

/-- Modelled from the spec: the type objects.Version, declared outside the given
sources: "{Version: u32, Timestamp, IpAddress, Port}". -/
structure Version where
  Version : Nat
  Timestamp : Time
  IpAddress : List Byte
  Port : Nat
deriving DecidableEq

/-- The header of a quibit frame.  The field Typ is Header.Type of the sources (Type is
reserved in Lean): the frame type BROADCAST, REQUEST or REPLY; Command holds the
message command. -/
structure Header where
  Command : Nat
  Typ : Nat
  Length : Nat
deriving DecidableEq

/-- Modelled from the spec: the type quibit.Frame: "{Header, Payload: bytes,
Peer: "IP:Port"}". -/
structure Frame where
  Header : Header
  Payload : List Byte
  Peer : String
deriving DecidableEq

/-- The type quibit.Peer, as far as the sources fill it. -/
structure Peer where
  IP : List Byte
  Port : Nat
deriving DecidableEq

/-- Modelled from the spec: the canonical string form "IP:Port" (Node.String and
Peer.String, declared outside the given sources). -/
def hostPort (env : Env) (ip : List Byte) (port : Nat) : String :=
  env.ipString ip ++ ":" ++ Nat.repr port

/-- The 16-byte form of an address in a payload: its bytes, cut or zero-filled. -/
def ip16 (ip : List Byte) : List Byte := (ip ++ List.replicate 16 0).take 16

/-- Modelled from the spec: Version.GetBytes: "u32 version ∥ i64 timestamp ∥
16-byte IP ∥ u16 port", integers big-endian. -/
def VersionGetBytes (v : Version) : List Byte :=
  bigEndianDigits 4 v.Version ++ putUint64 (uint64 v.Timestamp.Unix) ++ ip16 v.IpAddress
    ++ bigEndianDigits 2 v.Port

/-- Modelled from the spec: NodeList.GetBytes: "u32 count ∥ count × (16-byte IP ∥
u16 port ∥ i64 last_seen)". -/
def NodeListGetBytes (nodes : List (String × Node)) : List Byte :=
  bigEndianDigits 4 nodes.length ++
    (nodes.map (fun e => ip16 e.2.IP ++ bigEndianDigits 2 e.2.Port
      ++ putUint64 (uint64 e.2.LastSeen.Unix))).flatten

/-- Modelled from the spec: Obj.GetBytes: "u32 count ∥ count × 48-byte hash". -/
def ObjGetBytes (hashes : List Hash) : List Byte :=
  bigEndianDigits 4 hashes.length ++ (hashes.map Hash.GetBytes).flatten

/-- Modelled from the spec: objects.MakeFrame, declared outside the given sources:
a frame with the command, the type, the serialised payload and its length; the
peer is filled in by the caller. -/
def MakeFrame (command type : Nat) (payload : List Byte) : Frame :=
  ⟨⟨command, type, payload.length⟩, payload, ""⟩

/-- The struct ApiConfig, as far as the handlers use it.  A channel is the list of
the values sent on it, oldest first. -/
structure ApiConfig (C : Type) where
  NodeList : List (String × Node)
  LocalVersion : Version
  SendQueue : List Frame
  PeerQueue : List Peer
  PubkeyRegister : List Hash
  MessageRegister : List (Message C)
  PubRegister : List (Message C)
  PurgeRegister : List Bytes16
  Log : List String

/-- Everything a handler can read or change: the configuration with its channels,
the store of package db, and the peers handed to quibit.KillPeer. -/
structure World (C : Type) where
  config : ApiConfig C
  db : Store
  killed : List String

/-- The statement config.Log <- line. -/
def World.log {C : Type} (w : World C) (line : String) : World C :=
  { w with config := { w.config with Log := w.config.Log ++ [line] } }

/-- The call quibit.KillPeer(peer). -/
def World.KillPeer {C : Type} (w : World C) (peer : String) : World C :=
  { w with killed := w.killed ++ [peer] }

/-- The statements sending.Peer = peer; config.SendQueue <- sending. -/
def World.send {C : Type} (w : World C) (sending : Frame) (peer : String) : World C :=
  { w with config := { w.config with SendQueue := w.config.SendQueue ++ [{ sending with Peer := peer }] } }

/-- The call time.Since(t): a Duration in nanoseconds, saturating at the bounds of int64. -/
def timeSince (env : Env) (t : Time) : Int :=
  let d := env.now.nanos - t.nanos
  if d < -(2 : Int) ^ 63 then -(2 : Int) ^ 63
  else if (2 : Int) ^ 63 - 1 < d then (2 : Int) ^ 63 - 1
  else d

/-- The method Duration.Minutes of package time,
float64(d / Minute) + float64(d % Minute) / (60 * 1e9), with the float64 operations
taken as exact rational ones; the division and remainder of Go truncate toward zero. -/
def durationMinutes (d : Int) : ℚ :=
  ((d.tdiv 60000000000 : Int) : ℚ) + ((d.tmod 60000000000 : Int) : ℚ) / 60000000000

/-- The test dur.Minutes()+5 > 10 of fVERSION.  Minutes() is the float64
float64(d / Minute) + float64(d % Minute) / 6e10; it exceeds 5 exactly when the
duration exceeds 300 * 10^9 nanoseconds, and float64 addition of 5 keeps the order
around 10, so the test is stated on the integer duration; tooFarOff_minutes relates
it to the expression of the source. -/
def tooFarOff (dur : Int) : Bool := decide (300000000000 < dur)

/-- The call time.Now().Round(time.Second): halves round up. -/
def nowRounded (env : Env) : Time :=
  if env.now.nsec < 500000000 then ⟨env.now.sec, 0⟩ else ⟨env.now.sec + 1, 0⟩

/-- Handler fVERSION. -/
def fVERSION {C : Type} (env : Env) (w : World C) (frame : Frame) (version : Version) :
    World C :=
  if frame.Header.Typ = BROADCAST then
    (w.log "Node sent a version message as a broadcast. Disconnecting...").KillPeer frame.Peer
  else if version.Version ≠ env.LOCAL_VERSION then
    (w.log "Peer protocol version does not match local version").KillPeer frame.Peer
  else
    let dur := timeSince env version.Timestamp
    if tooFarOff dur then
      (w.log "Peer timestamp too far off local time").KillPeer frame.Peer
    else
      let backbone := version.IpAddress.any (fun b => b ≠ 0)
      if backbone ∧ env.ipString version.IpAddress ≠ env.ipString (env.peerIP frame.Peer) then
        (w.log "Backbone node broadcast incorrect IP").KillPeer frame.Peer
      else
        let w1 : World C :=
          if backbone then
            let node : Node := ⟨version.IpAddress, version.Port, nowRounded env⟩
            { w with config := { w.config with
                NodeList := mapSet w.config.NodeList (hostPort env node.IP node.Port) node } }
          else w
        if frame.Header.Typ = REQUEST then
          let w2 : World C := { w1 with config := { w1.config with
              LocalVersion := { w1.config.LocalVersion with Timestamp := nowRounded env } } }
          w2.send (MakeFrame VERSION REPLY (VersionGetBytes w2.config.LocalVersion)) frame.Peer
        else
          w1.send (MakeFrame PEER REQUEST (NodeListGetBytes w1.config.NodeList)) frame.Peer

/-- One turn of the merge loop of fPEER. -/
def mergeNode {C : Type} (env : Env) (w : World C) (entry : String × Node) : World C :=
  let key := entry.1
  let node := entry.2
  if env.ipString node.IP = env.ipString w.config.LocalVersion.IpAddress then w
  else
    match mapGet w.config.NodeList key with
    | some _ => w
    | none =>
      let p : Peer := ⟨node.IP, node.Port⟩
      let w1 : World C := { w with config := { w.config with
          NodeList := mapSet w.config.NodeList key node
          PeerQueue := w.config.PeerQueue ++ [p] } }
      w1.send (MakeFrame VERSION REQUEST (VersionGetBytes w1.config.LocalVersion)) (hostPort env p.IP p.Port)

/-- Handler fPEER (none is a nil node list). -/
def fPEER {C : Type} (env : Env) (w : World C) (frame : Frame)
    (nodeList : Option (List (String × Node))) : World C :=
  if frame.Header.Typ = BROADCAST then
    (w.log "Node sent a peer frame as a broadcast. Disconnecting...").KillPeer frame.Peer
  else
    let sending :=
      if frame.Header.Typ = REQUEST then
        MakeFrame PEER REPLY (NodeListGetBytes w.config.NodeList)
      else
        MakeFrame OBJ REQUEST (ObjGetBytes (ObjList w.db))
    let w1 := w.send sending frame.Peer
    match nodeList with
    | none => w1
    | some nodes => nodes.foldl (mergeNode env) w1

/-- One turn of the loop of fOBJ. -/
def askObject {C : Type} (frame : Frame) (w : World C) (hash : Hash) : World C :=
  if Contains w.db hash = Kind.NOTFOUND then
    w.send (MakeFrame GETOBJ REQUEST hash.GetBytes) frame.Peer
  else if Contains w.db hash = Kind.MSG then
    w.send (MakeFrame CHECKTXID REQUEST hash.GetBytes) frame.Peer
  else w

/-- Handler fOBJ; the argument is the HashList of the decoded Obj. -/
def fOBJ {C : Type} (w : World C) (frame : Frame) (obj : List Hash) : World C :=
  if frame.Header.Typ = BROADCAST then
    (w.log "Node sent an obj frame as a broadcast. Disconnecting...").KillPeer frame.Peer
  else
    let w1 :=
      if frame.Header.Typ = REQUEST then
        w.send (MakeFrame OBJ REPLY (ObjGetBytes (ObjList w.db))) frame.Peer
      else w
    obj.foldl (askObject frame) w1

/-- Handler fGETOBJ. -/
def fGETOBJ {C : Type} [ContentCodec C] (env : Env) (w : World C) (frame : Frame)
    (hash : Hash) : World C :=
  if frame.Header.Typ = BROADCAST then
    (w.log "Node sent a getobj message as a broadcast. Disconnecting...").KillPeer frame.Peer
  else if frame.Header.Typ = REQUEST then
    match Contains w.db hash with
    | Kind.PUBKEY =>
      w.send (MakeFrame PUBKEY REPLY (EncryptedPubkey.GetBytes (GetPubkey env w.db hash))) frame.Peer
    | Kind.PURGE =>
      w.send (MakeFrame PURGE REPLY (Purge.GetBytes (GetPurge env w.db hash))) frame.Peer
    | Kind.MSG =>
      match (GetMessage env w.db hash : Option (Message C)) with
      | some message => w.send (MakeFrame MSG REPLY (Message.GetBytes (some message))) frame.Peer
      | none => w.log "Error pulling message from database!"
    | Kind.PUB =>
      match (GetMessage env w.db hash : Option (Message C)) with
      | some message => w.send (MakeFrame PUB REPLY (Message.GetBytes (some message))) frame.Peer
      | none => w.log "Error pulling publication from database!"
    | Kind.PUBKEYRQ =>
      w.send (MakeFrame PUBKEY_REQUEST REPLY hash.GetBytes) frame.Peer
    | Kind.NOTFOUND =>
      w.send (MakeFrame GETOBJ REPLY []) frame.Peer
  else w

/-- Handler fPUBKEY_REQUEST. -/
def fPUBKEY_REQUEST {C : Type} (env : Env) (w : World C) (frame : Frame) (pubHash : Hash) :
    World C :=
  match Contains w.db pubHash with
  | Kind.NOTFOUND =>
    let w1 : World C := { w with db := Add w.db pubHash Kind.PUBKEYRQ }
    if frame.Header.Typ = BROADCAST then
      w1.send (MakeFrame PUBKEY_REQUEST BROADCAST pubHash.GetBytes) frame.Peer
    else w1
  | Kind.PUBKEY =>
    w.send (MakeFrame PUBKEY BROADCAST (EncryptedPubkey.GetBytes (GetPubkey env w.db pubHash)))
      frame.Peer
  | _ => w

/-- The case NOTFOUND of fPUBKEY, which the case PUBKEYRQ falls through to. -/
def storePubkey {C : Type} (w : World C) (frame : Frame) (pubkey : EncryptedPubkey) : World C :=
  match AddPubkey w.db w.config.Log pubkey with
  | (db1, log1, some _) =>
    ({ w with db := db1, config := { w.config with Log := log1 } } : World C).log
      "Error adding pubkey to database"
  | (db1, log1, none) =>
    let w1 : World C := { w with db := db1, config := { w.config with Log := log1 } }
    let w2 :=
      if frame.Header.Typ = BROADCAST then
        w1.send (MakeFrame PUBKEY BROADCAST (EncryptedPubkey.GetBytes (some pubkey))) frame.Peer
      else w1
    { w2 with config := { w2.config with
        PubkeyRegister := w2.config.PubkeyRegister ++ [pubkey.AddrHash] } }

/-- Handler fPUBKEY. -/
def fPUBKEY {C : Type} (w : World C) (frame : Frame) (pubkey : EncryptedPubkey) : World C :=
  match Contains w.db pubkey.AddrHash with
  | Kind.PUBKEYRQ => storePubkey { w with db := Delete w.db pubkey.AddrHash } frame pubkey
  | Kind.NOTFOUND => storePubkey w frame pubkey
  | _ => w

/-- Handler fMSG. -/
def fMSG {C : Type} [ContentCodec C] (env : Env) (w : World C) (frame : Frame)
    (msg : Message C) : World C :=
  match Contains w.db msg.TxidHash with
  | Kind.NOTFOUND =>
    match AddMessage w.db w.config.Log msg with
    | (db1, log1, some _) =>
      ({ w with db := db1, config := { w.config with Log := log1 } } : World C).log
        "Error adding message to database"
    | (db1, log1, none) =>
      let w1 : World C := { w with db := db1, config := { w.config with Log := log1 } }
      let w2 := w1.send (MakeFrame MSG BROADCAST (Message.GetBytes (some msg))) frame.Peer
      let w3 := w2.log "Registering message..."
      { w3 with config := { w3.config with
          MessageRegister := w3.config.MessageRegister ++ [msg] } }
  | Kind.PURGE =>
    let w1 := w.log "Received already-purged message!"
    w1.send (MakeFrame PURGE REPLY (Purge.GetBytes (GetPurge env w1.db msg.TxidHash))) frame.Peer
  | _ => w

/-- Handler fPUB. -/
def fPUB {C : Type} [ContentCodec C] (env : Env) (w : World C) (frame : Frame)
    (msg : Message C) : World C :=
  match Contains w.db msg.TxidHash with
  | Kind.NOTFOUND =>
    match AddPub w.db w.config.Log msg with
    | (db1, log1, some _) =>
      ({ w with db := db1, config := { w.config with Log := log1 } } : World C).log
        "Error adding publication to database"
    | (db1, log1, none) =>
      let w1 : World C := { w with db := db1, config := { w.config with Log := log1 } }
      let w2 := w1.send (MakeFrame PUB BROADCAST (Message.GetBytes (some msg))) frame.Peer
      let w3 := w2.log "Registering publication..."
      { w3 with config := { w3.config with PubRegister := w3.config.PubRegister ++ [msg] } }
  | Kind.PURGE =>
    let w1 := w.log "Received already-purged publication!"
    w1.send (MakeFrame PURGE REPLY (Purge.GetBytes (GetPurge env w1.db msg.TxidHash))) frame.Peer
  | _ => w

/-- The case NOTFOUND of fPURGE, which the cases PUB and MSG fall through to. -/
def storePurge {C : Type} (w : World C) (frame : Frame) (purge : Purge) : World C :=
  match AddPurge w.db w.config.Log purge with
  | (db1, log1, some _) =>
    ({ w with db := db1, config := { w.config with Log := log1 } } : World C).log
      "Error adding purge to database: "
  | (db1, log1, none) =>
    let w1 : World C := { w with db := db1, config := { w.config with Log := log1 } }
    let w2 := w1.send (MakeFrame PURGE BROADCAST (Purge.GetBytes (some purge))) frame.Peer
    { w2 with config := { w2.config with
        PurgeRegister := w2.config.PurgeRegister ++ [purge.Txid] } }

/-- The cases PUB and MSG of fPURGE. -/
def removeThenStorePurge {C : Type} (w : World C) (frame : Frame) (purge : Purge)
    (txidHash : Hash) : World C :=
  match RemoveHash w.db w.config.Log txidHash with
  | (db1, log1, some _) =>
    ({ w with db := db1, config := { w.config with Log := log1 } } : World C).log
      "Error removing message/publication from database"
  | (db1, log1, none) =>
    storePurge { w with db := db1, config := { w.config with Log := log1 } } frame purge

/-- Handler fPURGE. -/
def fPURGE {C : Type} (w : World C) (frame : Frame) (purge : Purge) : World C :=
  let txidHash := MakeHash purge.Txid.bytes
  match Contains w.db txidHash with
  | Kind.PUB => removeThenStorePurge w frame purge txidHash
  | Kind.MSG => removeThenStorePurge w frame purge txidHash
  | Kind.NOTFOUND => storePurge w frame purge
  | _ => w

/-- Handler fCHECKTXID. -/
def fCHECKTXID {C : Type} (env : Env) (w : World C) (frame : Frame) (hash : Hash) : World C :=
  if frame.Header.Typ = BROADCAST then
    (w.log "Node sent a checktxid frame as a broadcast. Disconnecting...").KillPeer frame.Peer
  else if frame.Header.Typ = REQUEST then
    if Contains w.db hash = Kind.PURGE then
      w.send (MakeFrame PURGE REPLY (Purge.GetBytes (GetPurge env w.db hash))) frame.Peer
    else
      w.send (MakeFrame CHECKTXID REPLY []) frame.Peer
  else w

/-! ## Package localapi: how a message and its purge are built (rpcmsg.go) -/

/-- The message that SendMessage puts on RecvQueue in a MSG/BROADCAST frame
(rpcmsg.go lines 285 and 329 to 333): its TxidHash is MakeHash of the random
Txid of the decrypted message; recipient address, time stamp and encrypted
content come from collaborators outside the given sources. -/
def SendMessage_sendMsg {C : Type} (txid : Bytes16) (recipientAddress : List Byte)
    (timestamp : Time) (encrypted : C) : Message C :=
  { TxidHash := MakeHash txid.bytes
    AddrHash := MakeHash recipientAddress
    Timestamp := timestamp
    Content := encrypted }

/-- The purge that PurgeMessage and OpenMessage put on RecvQueue in a
PURGE/BROADCAST frame (rpcmsg.go lines 163 to 164 and 474 to 475): a new Purge
whose Txid is set to the Txid of the decrypted message and nothing else. -/
def PurgeMessage_purge (txid : Bytes16) : Purge :=
  let purge := Purge.zero
  { purge with Txid := txid }

/-! ## Sample values, used to instantiate statements -/

/-- A sample environment: a clock reading, no kind numbered zero, version 1. -/
def sampleEnv : Env :=
  { now := ⟨1700000000, 0⟩
    zeroKind := none
    LOCAL_VERSION := 1
    peerIP := fun _ => []
    ipString := fun _ => "" }

/-- An initialised, empty store on a backend that answers. -/
def emptyStore : Store := ⟨some [], some ⟨[], [], [], [], false⟩⟩

/-- A world with empty channels, an empty peer table and the empty store. -/
def emptyWorld : World RawContent :=
  { config :=
      { NodeList := []
        LocalVersion := ⟨1, ⟨0, 0⟩, [], 0⟩
        SendQueue := []
        PeerQueue := []
        PubkeyRegister := []
        MessageRegister := []
        PubRegister := []
        PurgeRegister := []
        Log := [] }
    db := emptyStore
    killed := [] }

/-- A frame header of the given command and type arriving from a sample peer. -/
def sampleFrame (command type : Nat) : Frame := ⟨⟨command, type, 0⟩, [], "10.0.0.7:4444"⟩

/-- A sample message with a negative time stamp. -/
def sampleMessage : Message RawContent := ⟨Hash.zero, Hash.zero, ⟨-5, 0⟩, ⟨[1, 2, 3]⟩⟩

/-- A sample pubkey for the zero address hash. -/
def samplePubkey : EncryptedPubkey := ⟨Hash.zero, Bytes16.zero, [9, 9]⟩

/-- A purge with the zero Txid and an empty signature, as PurgeMessage builds it. -/
def plainPurge : Purge := PurgeMessage_purge Bytes16.zero

/-- A purge with the zero Txid and a one-byte signature, as a 17-byte PURGE
payload decodes under the spec's layout. -/
def signedPurge : Purge := ⟨Bytes16.zero, [1]⟩

/-- A world whose store holds one message, indexed as MSG, under the given hash. -/
def worldHolding (h : Hash) : World RawContent :=
  { emptyWorld with
    db := ⟨some [(h, Kind.MSG)], some ⟨[], [], [⟨h.bytes, Hash.zero.bytes, 0, []⟩], [], false⟩⟩ }

/-- A world whose store holds the purge without signature under the zero hash,
indexed as PURGE. -/
def worldPurged : World RawContent :=
  { emptyWorld with
    db := ⟨some [(Hash.zero, Kind.PURGE)],
      some ⟨[], [⟨Hash.zero.bytes, Purge.GetBytes (some plainPurge)⟩], [], [], false⟩⟩ }

/-! ## Statements written from the spec's words -/

/-- Written from the spec's words: "merge(remote_list): for each entry whose IP
differs from the local IP and whose key is absent, insert the entry": the entries
of the remote list that the merge admits into the given table.  Addresses are
compared in their string form, as the sources compare them. -/
def mergeAdmitted (env : Env) (localIP : List Byte) (table remote : List (String × Node)) :
    List (String × Node) :=
  remote.filter (fun e =>
    decide (env.ipString e.2.IP ≠ env.ipString localIP) && (mapGet table e.1).isNone)

/-- Written from the spec's words: "For each hash: if unknown → send GETOBJ/REQUEST;
if MSG → send CHECKTXID/REQUEST": the frames that a hash list calls for, in list
order, each addressed to the given peer and carrying its hash. -/
def objRequests (s : Store) (peer : String) (hashes : List Hash) : List Frame :=
  hashes.filterMap (fun h =>
    match Contains s h with
    | Kind.NOTFOUND => some ⟨⟨GETOBJ, REQUEST, h.bytes.length⟩, h.bytes, peer⟩
    | Kind.MSG => some ⟨⟨CHECKTXID, REQUEST, h.bytes.length⟩, h.bytes, peer⟩
    | _ => none)

/-- The world after the entries of a list have been admitted by the merge loop of
fPEER, one after the other: each entry is appended to the peer table, its
connection request to PeerQueue and a VERSION/REQUEST addressed to it to SendQueue. -/
def admitEntries {C : Type} (env : Env) (w : World C) (entries : List (String × Node)) :
    World C :=
  { w with config := { w.config with
      NodeList := w.config.NodeList ++ entries
      PeerQueue := w.config.PeerQueue ++ entries.map (fun e => (⟨e.2.IP, e.2.Port⟩ : Peer))
      SendQueue := w.config.SendQueue ++ entries.map (fun e =>
        (⟨⟨VERSION, REQUEST, (VersionGetBytes w.config.LocalVersion).length⟩,
          VersionGetBytes w.config.LocalVersion, hostPort env e.2.IP e.2.Port⟩ : Frame)) } }

/-- The peer table holds no entry whose address is the local address (string forms
compared, as in the sources). -/
def NoLocalEntry (env : Env) (localIP : List Byte) (table : List (String × Node)) : Prop :=
  ∀ e ∈ table, env.ipString e.2.IP ≠ env.ipString localIP

/-! ## Further sample values -/

/-- Dotted decimal form of an address, as net.IP.String prints a 4-byte address. -/
def dottedIP (ip : List Byte) : String :=
  String.intercalate "." (ip.map (fun b => Nat.repr b.val))

/-- A sample environment in which the transport sees every peer at 10.0.0.1. -/
def lanEnv : Env :=
  { now := ⟨1700000000, 0⟩
    zeroKind := none
    LOCAL_VERSION := 1
    peerIP := fun _ => [10, 0, 0, 1]
    ipString := dottedIP }

/-- The empty world of a node whose own address is 10.0.0.1. -/
def lanWorld : World RawContent :=
  { emptyWorld with
    config := { emptyWorld.config with LocalVersion := ⟨1, ⟨0, 0⟩, [10, 0, 0, 1], 4444⟩ } }

/-- A sample publication. -/
def samplePub : Message RawContent := ⟨Hash.zero, Hash.zero, ⟨1700000000, 0⟩, ⟨[4, 5]⟩⟩

/-! ## Statements and samples for the store laws and the outbound frames -/

/-- The frames that a step from world w to world w2 has put on SendQueue: what
the queue of w2 holds beyond the length of the queue of w. -/
def enqueued {C : Type} (w w2 : World C) : List Frame :=
  w2.config.SendQueue.drop w.config.SendQueue.length

/-- A step from w to w2 keeps what was on SendQueue, and every frame that it
adds satisfies P. -/
def SendsOnly {C : Type} (P : Frame → Prop) (w w2 : World C) : Prop :=
  w2.config.SendQueue = w.config.SendQueue ++ enqueued w w2 ∧ ∀ f ∈ enqueued w w2, P f

/-- Written from the spec's words: "does not re-broadcast and does not notify":
a step from w to w2 puts nothing on SendQueue and nothing on the four registrar
channels. -/
def Silent {C : Type} (w w2 : World C) : Prop :=
  w2.config.SendQueue = w.config.SendQueue
  ∧ w2.config.PubkeyRegister = w.config.PubkeyRegister
  ∧ w2.config.MessageRegister = w.config.MessageRegister
  ∧ w2.config.PubRegister = w.config.PubRegister
  ∧ w2.config.PurgeRegister = w.config.PurgeRegister

/-- Written from the spec's words: "deletes all MSG rows with timestamp ≤ now − d":
the time stamp of the row, in seconds, is not after the instant now − d, taken in
nanoseconds. -/
def agedOut (env : Env) (d : Int) (r : MsgRow) : Bool :=
  decide (r.timestamp * 1000000000 ≤ env.now.nanos - d)

/-- The index agrees with the table pubkey: a hash that the index does not hold
as PUBKEY has no row in the table. -/
def PubkeyAgrees (s : Store) : Prop :=
  ∀ db, s.dbConn = some db → ∀ h : Hash, Contains s h ≠ Kind.PUBKEY →
    db.pubkey.any (fun r => r.hash = h.bytes) = false

/-- A hash of 48 equal bytes. -/
def sampleHash (b : Byte) : Hash := ⟨List.replicate hashLen b, by simp⟩

/-- One day, as a time.Duration in nanoseconds. -/
def day : Int := 86400 * 1000000000

/-- The store of scenario S6 at the clock of sampleEnv: a message 30 days old, a
message one day old and a publication 30 days old, each indexed under its hash. -/
def sweepStore : Store :=
  ⟨some [(sampleHash 1, Kind.MSG), (sampleHash 2, Kind.MSG), (sampleHash 3, Kind.PUB)],
   some ⟨[], [],
     [⟨(sampleHash 1).bytes, Hash.zero.bytes, 1700000000 - 30 * 86400, [1]⟩,
      ⟨(sampleHash 2).bytes, Hash.zero.bytes, 1700000000 - 86400, [2]⟩],
     [⟨(sampleHash 3).bytes, Hash.zero.bytes, 1700000000 - 30 * 86400, [3]⟩], false⟩⟩

/-- A world whose store is initialised on a backend that fails every statement. -/
def brokenWorld : World RawContent :=
  { emptyWorld with db := ⟨some [], some ⟨[], [], [], [], true⟩⟩ }

/-- A world whose store holds one publication, indexed as PUB, under the given hash. -/
def worldPublishing (h : Hash) : World RawContent :=
  { emptyWorld with
    db := ⟨some [(h, Kind.PUB)], some ⟨[], [], [], [⟨h.bytes, Hash.zero.bytes, 0, []⟩], false⟩⟩ }

/-- The hash under which a message with the zero Txid is stored and under which
the purge without signature for that Txid is indexed. -/
def zeroTxidHash : Hash := MakeHash Bytes16.zero.bytes

/-- Written from the spec's words: "LastSeen = now rounded to the second": the
whole second nearest to the instant, an instant halfway between two seconds going
to the later one. -/
def nearestSecond (t : Time) : Time := timeUnix ((t.nanos + 500000000) / 1000000000)

/-- The environment lanEnv with the clock 0.7 seconds later. -/
def lateEnv : Env := { lanEnv with now := ⟨1700000000, 700000000⟩ }

/-! # Theorems -/

/-! ## The SHA-384 embedding against a published test vector -/

/-- Known answer: the SHA-384 digest of the three bytes "abc" (FIPS 180-4 example). -/
theorem SHA512.Sum384_abc :
    SHA512.Sum384 [97, 98, 99]
      = [203, 0, 117, 63, 69, 163, 94, 139, 181, 160, 61, 105, 154, 198, 80, 7, 39, 44, 50, 171,
         14, 222, 209, 99, 26, 139, 96, 90, 67, 255, 91, 237, 128, 134, 7, 43, 161, 231, 204, 35,
         88, 186, 236, 161, 52, 200, 37, 167] := by
  decide!

/-! ## Wire codec of Message (C1 to C4) -/

section Codec

variable {C : Type} [ContentCodec C]

theorem Hash.FromBytes_bytes (h g : Hash) : h.FromBytes g.bytes = g := by
  have hl := g.len
  unfold Hash.FromBytes
  rw [dif_pos (by omega)]
  cases g with
  | mk bs l => simp [List.take_of_length_le (Nat.le_of_eq l)]

theorem Hash.FromBytes_of_length (h : Hash) (a : List Byte) (ha : a.length = hashLen) :
    (h.FromBytes a).bytes = a := by
  unfold Hash.FromBytes
  rw [dif_pos (by omega)]
  simp [List.take_of_length_le (Nat.le_of_eq ha)]

theorem uint64_lt (x : Int) : uint64 x < 2 ^ 64 := by
  unfold uint64
  have h1 : (0 : Int) ≤ x % (2 : Int) ^ 64 := Int.emod_nonneg _ (by norm_num)
  have h2 : x % (2 : Int) ^ 64 < (2 : Int) ^ 64 := Int.emod_lt_of_pos _ (by norm_num)
  omega

theorem int64_uint64 (x : Int) (h : -(2 : Int) ^ 63 ≤ x ∧ x < (2 : Int) ^ 63) :
    int64 (uint64 x) = x := by
  unfold int64 uint64
  obtain ⟨h1, h2⟩ := h
  split <;> omega

theorem uint64_int64 (u : Nat) (h : u < 2 ^ 64) : uint64 (int64 u) = u := by
  unfold int64 uint64
  split <;> omega

theorem or_shiftLeft_eq_add (x b k : Nat) (hx : x < 2 ^ k) : x ||| b <<< k = x + b * 2 ^ k := by
  rw [Nat.or_comm, Nat.shiftLeft_eq, Nat.mul_comm b, ← Nat.mul_add_lt_is_or hx, Nat.add_comm]

theorem getUint64_eq (b0 b1 b2 b3 b4 b5 b6 b7 : Byte) :
    getUint64 [b0, b1, b2, b3, b4, b5, b6, b7]
      = b7.val + b6.val * 2 ^ 8 + b5.val * 2 ^ 16 + b4.val * 2 ^ 24 + b3.val * 2 ^ 32
        + b2.val * 2 ^ 40 + b1.val * 2 ^ 48 + b0.val * 2 ^ 56 := by
  have h0 := b0.isLt
  have h1 := b1.isLt
  have h2 := b2.isLt
  have h3 := b3.isLt
  have h4 := b4.isLt
  have h5 := b5.isLt
  have h6 := b6.isLt
  have h7 := b7.isLt
  simp only [getUint64, List.getD_cons_zero, List.getD_cons_succ]
  rw [or_shiftLeft_eq_add _ _ 8 (by omega), or_shiftLeft_eq_add _ _ 16 (by omega),
    or_shiftLeft_eq_add _ _ 24 (by omega), or_shiftLeft_eq_add _ _ 32 (by omega),
    or_shiftLeft_eq_add _ _ 40 (by omega), or_shiftLeft_eq_add _ _ 48 (by omega),
    or_shiftLeft_eq_add _ _ 56 (by omega)]

theorem getUint64_lt (b : List Byte) (hb : b.length = 8) : getUint64 b < 2 ^ 64 := by
  match b, hb with
  | [b0, b1, b2, b3, b4, b5, b6, b7], _ =>
    rw [getUint64_eq]
    have h0 := b0.isLt
    have h1 := b1.isLt
    have h2 := b2.isLt
    have h3 := b3.isLt
    have h4 := b4.isLt
    have h5 := b5.isLt
    have h6 := b6.isLt
    have h7 := b7.isLt
    omega

theorem getUint64_putUint64 (v : Nat) (hv : v < 2 ^ 64) : getUint64 (putUint64 v) = v := by
  unfold putUint64
  rw [getUint64_eq]
  simp only [byte, Nat.shiftRight_eq_div_pow]
  omega

theorem putUint64_getUint64 (b : List Byte) (hb : b.length = 8) :
    putUint64 (getUint64 b) = b := by
  match b, hb with
  | [b0, b1, b2, b3, b4, b5, b6, b7], _ =>
    rw [getUint64_eq]
    have h0 := b0.isLt
    have h1 := b1.isLt
    have h2 := b2.isLt
    have h3 := b3.isLt
    have h4 := b4.isLt
    have h5 := b5.isLt
    have h6 := b6.isLt
    have h7 := b7.isLt
    simp only [putUint64, byte, Nat.shiftRight_eq_div_pow, List.cons.injEq, and_true]
    refine ⟨?_, ?_, ?_, ?_, ?_, ?_, ?_, ?_⟩ <;> apply Fin.ext <;> simp only [] <;> omega

theorem putUint64_length (v : Nat) : (putUint64 v).length = 8 := rfl

theorem putUint64_eq_bigEndianDigits (v : Nat) : putUint64 v = bigEndianDigits 8 v := by
  simp only [putUint64, bigEndianDigits, List.nil_append, List.cons_append, List.cons.injEq,
    and_true]
  refine ⟨?_, ?_, ?_, ?_, ?_, ?_, ?_⟩ <;> apply Fin.ext <;>
    simp only [byte, Nat.shiftRight_eq_div_pow] <;> omega

theorem uint64_eq_twosComplement64 (x : Int) (h : -(2 : Int) ^ 63 ≤ x ∧ x < (2 : Int) ^ 63) :
    uint64 x = twosComplement64 x := by
  unfold uint64 twosComplement64
  obtain ⟨h1, h2⟩ := h
  split <;> omega

/-- What FromBytes does on an input already cut into its four fields. -/
theorem Message.FromBytes_fields (r : Message C) (a t p c : List Byte)
    (ha : a.length = hashLen) (ht : t.length = hashLen) (hp : p.length = 8) :
    Message.FromBytes (some r) (a ++ t ++ p ++ c)
      = (some { AddrHash := r.AddrHash.FromBytes a
                TxidHash := r.TxidHash.FromBytes t
                Timestamp := timeUnix (int64 (getUint64 p))
                Content := ContentCodec.FromBytes r.Content c }, none) := by
  have hH : hashLen = 48 := rfl
  have hM : msgLen = 104 := rfl
  have hlen : ¬ (a ++ t ++ p ++ c).length < msgLen := by
    simp only [List.length_append]
    omega
  unfold Message.FromBytes
  rw [if_neg hlen]
  have e1 : (a ++ t ++ p ++ c).take hashLen = a := by
    rw [List.append_assoc, List.append_assoc, List.take_left' ha]
  have e2 : (a ++ t ++ p ++ c).drop hashLen = t ++ p ++ c := by
    rw [List.append_assoc, List.append_assoc, List.drop_left' ha, List.append_assoc]
  have e3 : (t ++ p ++ c).take hashLen = t := by
    rw [List.append_assoc, List.take_left' ht]
  have e4 : (t ++ p ++ c).drop hashLen = p ++ c := by
    rw [List.append_assoc, List.drop_left' ht]
  have e5 : (p ++ c).take 8 = p := List.take_left' hp
  have e6 : (p ++ c).drop 8 = c := List.drop_left' hp
  simp only [e1, e2, e3, e4, e5, e6]

/-- C1: deserialising the serialisation of a message whose time stamp is a whole
number of Unix seconds (negative ones included) and whose content survives its own
codec gives no error and gives back the message, field by field. -/
theorem C1_message_roundtrip (m r : Message C)
    (hwhole : m.Timestamp.IsWholeSeconds) (hrange : m.Timestamp.IsInt64)
    (hcontent : ContentCodec.FromBytes r.Content (ContentCodec.GetBytes m.Content) = m.Content) :
    Message.FromBytes (some r) (Message.GetBytes (some m)) = (some m, none) := by
  simp only [Message.GetBytes, Hash.GetBytes, Time.Unix]
  rw [Message.FromBytes_fields r _ _ _ _ m.AddrHash.len m.TxidHash.len (putUint64_length _)]
  rw [getUint64_putUint64 _ (uint64_lt _), int64_uint64 _ hrange, hcontent,
    Hash.FromBytes_bytes, Hash.FromBytes_bytes]
  cases m with
  | mk a t ts c =>
    cases ts with
    | mk s n =>
      simp only [Time.IsWholeSeconds] at hwhole
      subst hwhole
      rfl

theorem C1_message_roundtrip_witness :
    (⟨-5, 0⟩ : Time).IsWholeSeconds ∧ (⟨-5, 0⟩ : Time).IsInt64 ∧
    Message.FromBytes (some (Message.zero : Message RawContent))
        (Message.GetBytes (some (⟨Hash.zero, Hash.zero, ⟨-5, 0⟩, ⟨[1, 2, 3]⟩⟩ : Message RawContent)))
      = (some ⟨Hash.zero, Hash.zero, ⟨-5, 0⟩, ⟨[1, 2, 3]⟩⟩, none) :=
  ⟨rfl, by decide, C1_message_roundtrip _ _ rfl (by decide) rfl⟩

/-- C2: on every byte string of at least 104 bytes whose tail from offset 104
survives the content codec, FromBytes succeeds and GetBytes of the message it
builds is the byte string again. -/
theorem C2_bytes_roundtrip (b : List Byte) (r : Message C) (hlen : msgLen ≤ b.length)
    (htail : ContentCodec.GetBytes (ContentCodec.FromBytes r.Content (b.drop msgLen))
              = b.drop msgLen) :
    ∃ m : Message C, Message.FromBytes (some r) b = (some m, none)
      ∧ Message.GetBytes (some m) = b := by
  have hH : hashLen = 48 := rfl
  have hM : msgLen = 104 := rfl
  have hb : b = b.take hashLen ++ (b.drop hashLen).take hashLen
      ++ ((b.drop hashLen).drop hashLen).take 8 ++ b.drop msgLen := by
    have : b.drop msgLen = (((b.drop hashLen).drop hashLen)).drop 8 := by
      rw [List.drop_drop, List.drop_drop]
      rfl
    rw [this, List.append_assoc, List.append_assoc, List.take_append_drop,
      List.take_append_drop, List.take_append_drop]
  have ha : (b.take hashLen).length = hashLen := by
    rw [List.length_take]; omega
  have ht : ((b.drop hashLen).take hashLen).length = hashLen := by
    rw [List.length_take, List.length_drop]; omega
  have hp : (((b.drop hashLen).drop hashLen).take 8).length = 8 := by
    rw [List.length_take, List.length_drop, List.length_drop]; omega
  have hf := Message.FromBytes_fields r _ _ _ (b.drop msgLen) ha ht hp
  rw [← hb] at hf
  refine ⟨_, hf, ?_⟩
  · simp only [Message.GetBytes, Hash.GetBytes, Time.Unix, timeUnix]
    rw [Hash.FromBytes_of_length _ _ ha, Hash.FromBytes_of_length _ _ ht,
      uint64_int64 _ (getUint64_lt _ hp), putUint64_getUint64 _ hp, htail]
    exact hb.symm

theorem C2_bytes_roundtrip_witness :
    ∃ m : Message RawContent,
      Message.FromBytes (some Message.zero) (List.replicate 104 255 ++ [7, 9])
        = (some m, none)
      ∧ Message.GetBytes (some m) = List.replicate 104 255 ++ [7, 9] :=
  C2_bytes_roundtrip (List.replicate 104 255 ++ [7, 9]) Message.zero (by decide) rfl

/-- C3: on a non-nil receiver FromBytes returns an error exactly when the input is
shorter than 104 bytes, and the receiver is then unchanged. -/
theorem C3_short_input_error (r : Message C) (data : List Byte) :
    ((Message.FromBytes (some r) data).2.isSome = true ↔ data.length < 104) ∧
    ((Message.FromBytes (some r) data).2.isSome = true →
      (Message.FromBytes (some r) data).1 = some r) := by
  unfold Message.FromBytes
  by_cases h : data.length < msgLen
  · rw [if_pos h]
    exact ⟨⟨fun _ => h, fun _ => rfl⟩, fun _ => rfl⟩
  · rw [if_neg h]
    refine ⟨⟨fun hf => ?_, fun hl => absurd hl h⟩, fun hf => ?_⟩ <;> simp at hf

theorem C3_short_input_error_witness :
    (Message.FromBytes (some (Message.zero : Message RawContent))
        (List.replicate 103 0)).2.isSome = true
    ∧ (Message.FromBytes (some (Message.zero : Message RawContent))
        (List.replicate 103 0)).1 = some Message.zero
    ∧ (Message.FromBytes (some (Message.zero : Message RawContent))
        (List.replicate 104 0)).2.isSome = false :=
  ⟨(C3_short_input_error Message.zero (List.replicate 103 0)).1.2 (by decide),
   (C3_short_input_error Message.zero (List.replicate 103 0)).2
     ((C3_short_input_error Message.zero (List.replicate 103 0)).1.2 (by decide)),
   by
     have h := (C3_short_input_error (Message.zero : Message RawContent)
       (List.replicate 104 0)).1
     cases hs : (Message.FromBytes (some (Message.zero : Message RawContent))
        (List.replicate 104 0)).2.isSome with
     | false => rfl
     | true => exact absurd (h.1 hs) (by decide)⟩

/-- C4: the serialisation of a message is the 48 bytes of AddrHash, the 48 bytes
of TxidHash, the eight big-endian digits of the two's-complement code of the Unix
seconds, and the content bytes, in this order and with nothing else; its length is
104 plus the length of the content bytes. -/
theorem C4_message_layout (m : Message C) (hrange : m.Timestamp.IsInt64) :
    Message.GetBytes (some m)
      = m.AddrHash.bytes ++ m.TxidHash.bytes
        ++ bigEndianDigits 8 (twosComplement64 m.Timestamp.Unix)
        ++ ContentCodec.GetBytes m.Content
    ∧ m.AddrHash.bytes.length = 48 ∧ m.TxidHash.bytes.length = 48
    ∧ (bigEndianDigits 8 (twosComplement64 m.Timestamp.Unix)).length = 8
    ∧ (Message.GetBytes (some m)).length = 104 + (ContentCodec.GetBytes m.Content).length := by
  have e : putUint64 (uint64 m.Timestamp.Unix)
      = bigEndianDigits 8 (twosComplement64 m.Timestamp.Unix) := by
    unfold Time.Unix
    rw [uint64_eq_twosComplement64 _ hrange, putUint64_eq_bigEndianDigits]
  have hH : hashLen = 48 := rfl
  have ha := m.AddrHash.len
  have ht := m.TxidHash.len
  refine ⟨?_, ha, ht, ?_, ?_⟩
  · simp only [Message.GetBytes, Hash.GetBytes, e]
  · rw [← e]; rfl
  · simp only [Message.GetBytes, Hash.GetBytes, List.length_append, putUint64_length]
    omega

theorem C4_message_layout_witness :
    (⟨-2, 0⟩ : Time).IsInt64 ∧
    Message.GetBytes (some (⟨Hash.zero, Hash.zero, ⟨-2, 0⟩, ⟨[5]⟩⟩ : Message RawContent))
      = List.replicate 96 0 ++ [255, 255, 255, 255, 255, 255, 255, 254] ++ [5] :=
  ⟨by decide,
   (C4_message_layout (⟨Hash.zero, Hash.zero, ⟨-2, 0⟩, ⟨[5]⟩⟩ : Message RawContent)
      (by decide)).1.trans (by decide)⟩

end Codec


/-! ## The hash list and the backend -/

section Store

theorem mapGet_mapSet_self {K V : Type} [DecidableEq K] (m : List (K × V)) (k : K) (v : V) :
    mapGet (mapSet m k v) k = some v := by
  unfold mapGet mapSet
  rw [List.find?_append]
  have h : (m.filter (fun e => e.1 ≠ k)).find? (fun e => decide (e.1 = k)) = none := by
    rw [List.find?_eq_none]
    intro x hx
    have := (List.mem_filter.mp hx).2
    simpa using this
  rw [h]
  simp

theorem mapGet_mapSet_ne {K V : Type} [DecidableEq K] (m : List (K × V)) (k k2 : K) (v : V)
    (hne : k2 ≠ k) : mapGet (mapSet m k v) k2 = mapGet m k2 := by
  unfold mapGet mapSet
  rw [List.find?_append]
  have h1 : (m.filter (fun e => e.1 ≠ k)).find? (fun e => decide (e.1 = k2))
      = m.find? (fun e => decide (e.1 = k2)) := by
    rw [List.find?_filter]
    congr 1
    funext e
    by_cases he : e.1 = k2
    · have : ¬ e.1 = k := fun h => hne (he ▸ h)
      simp [he, hne]
    · simp [he]
  rw [h1]
  have h2 : [(k, v)].find? (fun e => decide (e.1 = k2)) = none := by
    simp [List.find?_cons, Ne.symm hne]
  rw [h2]
  simp

theorem mapGet_mapDelete_self {K V : Type} [DecidableEq K] (m : List (K × V)) (k : K) :
    mapGet (mapDelete m k) k = none := by
  unfold mapGet mapDelete
  have h : (m.filter (fun e => e.1 ≠ k)).find? (fun e => decide (e.1 = k)) = none := by
    rw [List.find?_eq_none]
    intro x hx
    have := (List.mem_filter.mp hx).2
    simpa using this
  rw [h]
  rfl

theorem Contains_of_hashList (s : Store) (idx : List (Hash × Kind)) (h : Hash)
    (hidx : s.hashList = some idx) : Contains s h = (mapGet idx h).getD Kind.NOTFOUND := by
  unfold Contains
  rw [hidx]

theorem find?_append_fresh {α : Type} (l : List α) (x : α) (p : α → Bool)
    (hl : l.any p = false) (hx : p x = true) : (l ++ [x]).find? p = some x := by
  rw [List.find?_append]
  have h : l.find? p = none := by
    rw [List.find?_eq_none]
    intro y hy hp
    have : l.any p = true := List.any_eq_true.mpr ⟨y, hy, hp⟩
    rw [hl] at this
    exact Bool.noConfusion this
  rw [h]
  simp [List.find?_cons, hx]

theorem any_filter_ne {α β : Type} [DecidableEq β] (l : List α) (f : α → β) (b : β) :
    (l.filter (fun r => f r ≠ b)).any (fun r => f r = b) = false := by
  rw [Bool.eq_false_iff]
  intro h
  obtain ⟨y, hy, hp⟩ := List.any_eq_true.mp h
  have := (List.mem_filter.mp hy).2
  simp at this hp
  exact this hp

end Store


/-! ## Operations of package db on a working store -/

section DbOps

variable {C : Type} [ContentCodec C]

theorem Store.eq_of_working (s : Store) (idx : List (Hash × Kind)) (db : Backend)
    (hidx : s.hashList = some idx) (hdb : s.dbConn = some db) : s = ⟨some idx, some db⟩ := by
  cases s with
  | mk a b =>
    simp only at hidx hdb
    rw [hidx, hdb]

theorem AddMessage_fresh (idx : List (Hash × Kind)) (db : Backend) (log : List String)
    (m : Message C) (hf : db.failing = false)
    (hk : Contains ⟨some idx, some db⟩ m.TxidHash ≠ Kind.MSG)
    (hrow : db.msg.any (fun r => r.hash = m.TxidHash.bytes) = false) :
    AddMessage ⟨some idx, some db⟩ log m
      = (⟨some (mapSet idx m.TxidHash Kind.MSG),
          some { db with msg := db.msg ++ [⟨m.TxidHash.bytes, m.AddrHash.bytes,
            m.Timestamp.Unix, ContentCodec.GetBytes m.Content⟩] }⟩, log, none) := by
  unfold AddMessage
  simp only [if_neg hk, Backend.Exec, hf, Hash.GetBytes, hrow, Add]
  rfl

theorem AddPubkey_fresh (idx : List (Hash × Kind)) (db : Backend) (log : List String)
    (pk : EncryptedPubkey) (hf : db.failing = false)
    (hk : Contains ⟨some idx, some db⟩ pk.AddrHash ≠ Kind.PUBKEY)
    (hrow : db.pubkey.any (fun r => r.hash = pk.AddrHash.bytes) = false) :
    AddPubkey ⟨some idx, some db⟩ log pk
      = (⟨some (mapSet idx pk.AddrHash Kind.PUBKEY),
          some { db with pubkey := db.pubkey ++ [⟨pk.AddrHash.bytes, pk.IV.bytes ++ pk.Payload⟩] }⟩,
         log, none) := by
  unfold AddPubkey
  simp only [if_neg hk, Backend.Exec, hf, Hash.GetBytes, hrow, Add]
  rfl

/-- The hash object that AddPurge builds from the SHA-384 digest of the serialised purge. -/
theorem AddPurge_hashObj (data : List Byte) :
    Hash.zero.FromBytes (SHA512.Sum384 data) = MakeHash data := by
  have h := Hash.FromBytes_bytes Hash.zero (MakeHash data)
  exact h

theorem AddPurge_fresh (idx : List (Hash × Kind)) (db : Backend) (log : List String)
    (p : Purge) (hf : db.failing = false)
    (hk : Contains ⟨some idx, some db⟩ (MakeHash (Purge.GetBytes (some p))) ≠ Kind.PURGE)
    (hrow : db.purge.any (fun r => r.hash = (MakeHash (Purge.GetBytes (some p))).bytes) = false) :
    AddPurge ⟨some idx, some db⟩ log p
      = (⟨some (mapSet idx (MakeHash (Purge.GetBytes (some p))) Kind.PURGE),
          some { db with purge := db.purge ++
            [⟨(MakeHash (Purge.GetBytes (some p))).bytes, Purge.GetBytes (some p)⟩] }⟩,
         log, none) := by
  unfold AddPurge
  simp only [AddPurge_hashObj, if_neg hk, Backend.Exec, hf]
  have hrow2 : db.purge.any (fun r => r.hash = SHA512.Sum384 (Purge.GetBytes (some p))) = false :=
    hrow
  simp only [hrow2, Add]
  rfl

theorem AddPurge_known (idx : List (Hash × Kind)) (db : Backend) (log : List String)
    (p : Purge)
    (hk : Contains ⟨some idx, some db⟩ (MakeHash (Purge.GetBytes (some p))) = Kind.PURGE) :
    AddPurge ⟨some idx, some db⟩ log p = (⟨some idx, some db⟩, log, none) := by
  unfold AddPurge
  simp only [AddPurge_hashObj, if_pos hk]

theorem RemoveHash_msg (idx : List (Hash × Kind)) (db : Backend) (log : List String)
    (h : Hash) (hf : db.failing = false)
    (hk : Contains ⟨some idx, some db⟩ h = Kind.MSG) :
    RemoveHash ⟨some idx, some db⟩ log h
      = (⟨some (mapDelete idx h),
          some { db with msg := db.msg.filter (fun r => r.hash ≠ h.bytes) }⟩, log, none) := by
  unfold RemoveHash
  simp only [hk, Backend.Exec, hf, Hash.GetBytes, Delete]
  rfl

theorem RemoveHash_pub (idx : List (Hash × Kind)) (db : Backend) (log : List String)
    (h : Hash) (hk : Contains ⟨some idx, some db⟩ h = Kind.PUB) :
    RemoveHash ⟨some idx, some db⟩ log h = (⟨some idx, some db⟩, log, none) := by
  unfold RemoveHash
  simp only [hk]

theorem hashListIs_of_mapGet (env : Env) (idx : List (Hash × Kind)) (h : Hash) (k k2 : Kind)
    (hg : mapGet idx h = some k) : hashListIs env idx h k2 = decide (k = k2) := by
  unfold hashListIs
  rw [hg]

theorem mapGet_of_Contains (idx : List (Hash × Kind)) (db : Option Backend) (h : Hash) (k : Kind)
    (hk : Contains ⟨some idx, db⟩ h = k) (hne : k ≠ Kind.NOTFOUND) : mapGet idx h = some k := by
  unfold Contains at hk
  simp only at hk
  cases hg : mapGet idx h with
  | none =>
    rw [hg] at hk
    exact absurd hk.symm hne
  | some v =>
    rw [hg] at hk
    simp only [Option.getD_some] at hk
    rw [hk]

theorem GetPurge_stored (env : Env) (idx : List (Hash × Kind)) (db : Backend) (h : Hash)
    (bytes : List Byte) (hf : db.failing = false)
    (hk : Contains ⟨some idx, some db⟩ h = Kind.PURGE)
    (hrow : db.purge.find? (fun r => r.hash = h.bytes) = some ⟨h.bytes, bytes⟩) :
    GetPurge env ⟨some idx, some db⟩ h = some (Purge.zero.FromBytes bytes) := by
  unfold GetPurge
  have hg := mapGet_of_Contains idx (some db) h Kind.PURGE hk (by decide)
  simp only [hashListIs_of_mapGet env idx h Kind.PURGE Kind.PURGE hg, Backend.queryPurge, hf,
    Hash.GetBytes, hrow]
  simp

theorem Purge.FromBytes_GetBytes (q p : Purge) :
    q.FromBytes (Purge.GetBytes (some p)) = p := by
  have hl := p.Txid.len
  unfold Purge.FromBytes Purge.GetBytes
  have h16 : 16 ≤ (p.Txid.bytes ++ p.Signature).length := by
    rw [List.length_append]; omega
  rw [dif_pos h16]
  cases p with
  | mk t sg =>
    cases t with
    | mk tb tl =>
      simp only [Purge.mk.injEq, Bytes16.mk.injEq]
      exact ⟨List.take_left' tl, List.drop_left' tl⟩

theorem Bytes16.copyFrom_take (iv : Bytes16) (rest : List Byte) :
    Bytes16.zero.copyFrom ((iv.bytes ++ rest).take 16) = iv := by
  cases iv with
  | mk b l =>
    have h1 : (b ++ rest).take 16 = b := List.take_left' l
    simp only [Bytes16.copyFrom, h1, Bytes16.mk.injEq]
    have h2 : List.drop b.length Bytes16.zero.bytes = [] := by
      apply List.drop_eq_nil_of_le
      rw [l, Bytes16.zero.len]
    rw [h2, List.append_nil]
    exact List.take_of_length_le (Nat.le_of_eq l)

theorem GetPubkey_stored (env : Env) (idx : List (Hash × Kind)) (db : Backend)
    (pk : EncryptedPubkey) (hf : db.failing = false)
    (hk : mapGet idx pk.AddrHash = some Kind.PUBKEY)
    (hrow : db.pubkey.find? (fun r => r.hash = pk.AddrHash.bytes)
      = some ⟨pk.AddrHash.bytes, pk.IV.bytes ++ pk.Payload⟩) :
    GetPubkey env ⟨some idx, some db⟩ pk.AddrHash = some pk := by
  unfold GetPubkey
  simp only [hashListIs_of_mapGet env idx pk.AddrHash Kind.PUBKEY Kind.PUBKEY hk,
    Backend.queryPubkey, hf, Hash.GetBytes, hrow]
  have hd : (pk.IV.bytes ++ pk.Payload).drop 16 = pk.Payload := List.drop_left' pk.IV.len
  simp only [decide_True, Bool.true_eq_false, if_false, Option.map_some', Bool.false_eq_true,
    Bytes16.copyFrom_take, hd]

end DbOps


/-! ## Handlers of the protocol engine (C5 to C10) -/

section Engine

variable {C : Type}

/-- C7: on an initialised store whose backend answers, fMSG on a message whose
TxidHash is NOTFOUND (and has no row in msg) stores the row with the Unix seconds
of the message, enqueues exactly one MSG/BROADCAST frame with the peer of the
inbound frame and the unchanged serialisation of the message, and delivers the
message on the message register; when the TxidHash is PURGE it enqueues exactly
one PURGE/REPLY frame to the peer carrying the stored purge and leaves the store
and the registers as they were. -/
theorem C7_fMSG_store_or_reply [ContentCodec C] (env : Env) (w : World C) (frame : Frame) (m : Message C)
    (idx : List (Hash × Kind)) (db : Backend)
    (hidx : w.db.hashList = some idx) (hdb : w.db.dbConn = some db)
    (hf : db.failing = false) :
    (Contains w.db m.TxidHash = Kind.NOTFOUND →
      db.msg.any (fun r => r.hash = m.TxidHash.bytes) = false →
        Contains (fMSG env w frame m).db m.TxidHash = Kind.MSG
        ∧ (fMSG env w frame m).db.dbConn
            = some { db with msg := db.msg ++ [⟨m.TxidHash.bytes, m.AddrHash.bytes,
                m.Timestamp.Unix, ContentCodec.GetBytes m.Content⟩] }
        ∧ (fMSG env w frame m).config.SendQueue
            = w.config.SendQueue ++ [⟨⟨MSG, BROADCAST, (Message.GetBytes (some m)).length⟩,
                Message.GetBytes (some m), frame.Peer⟩]
        ∧ (fMSG env w frame m).config.MessageRegister = w.config.MessageRegister ++ [m])
    ∧ (∀ p : Purge, Contains w.db m.TxidHash = Kind.PURGE →
        db.purge.find? (fun r => r.hash = m.TxidHash.bytes)
          = some ⟨m.TxidHash.bytes, Purge.GetBytes (some p)⟩ →
        (fMSG env w frame m).config.SendQueue
            = w.config.SendQueue ++ [⟨⟨PURGE, REPLY, (Purge.GetBytes (some p)).length⟩,
                Purge.GetBytes (some p), frame.Peer⟩]
        ∧ (fMSG env w frame m).db = w.db
        ∧ (fMSG env w frame m).config.MessageRegister = w.config.MessageRegister) := by
  have hs := Store.eq_of_working w.db idx db hidx hdb
  refine ⟨fun hk hrow => ?_, fun p hk hrow => ?_⟩
  · have hadd := AddMessage_fresh idx db w.config.Log m hf
      (by rw [← hs, hk]; decide) hrow
    rw [← hs] at hadd
    unfold fMSG
    simp only [hk, hadd]
    refine ⟨?_, rfl, rfl, rfl⟩
    simp only [World.log, World.send, Contains, mapGet_mapSet_self, Option.getD_some]
  · have hget := GetPurge_stored env idx db m.TxidHash (Purge.GetBytes (some p)) hf
      (by rw [← hs]; exact hk) hrow
    rw [← hs, Purge.FromBytes_GetBytes] at hget
    have hl : (w.log "Received already-purged message!").db = w.db := rfl
    unfold fMSG
    simp only [hk, hl, hget]
    exact ⟨rfl, rfl, rfl⟩

theorem C7_fMSG_store_or_reply_witness :
    (Contains emptyWorld.db sampleMessage.TxidHash = Kind.NOTFOUND
      ∧ Contains (fMSG sampleEnv emptyWorld (sampleFrame MSG BROADCAST) sampleMessage).db
          sampleMessage.TxidHash = Kind.MSG
      ∧ (fMSG sampleEnv emptyWorld (sampleFrame MSG BROADCAST) sampleMessage).config.SendQueue
          = [⟨⟨MSG, BROADCAST, 107⟩, Message.GetBytes (some sampleMessage), "10.0.0.7:4444"⟩]
      ∧ (fMSG sampleEnv emptyWorld (sampleFrame MSG BROADCAST)
          sampleMessage).config.MessageRegister = [sampleMessage])
    ∧ (Contains worldPurged.db sampleMessage.TxidHash = Kind.PURGE
      ∧ (fMSG sampleEnv worldPurged (sampleFrame MSG BROADCAST) sampleMessage).config.SendQueue
          = [⟨⟨PURGE, REPLY, 16⟩, List.replicate 16 0, "10.0.0.7:4444"⟩]
      ∧ (fMSG sampleEnv worldPurged (sampleFrame MSG BROADCAST) sampleMessage).db
          = worldPurged.db) :=
  have h := (C7_fMSG_store_or_reply sampleEnv emptyWorld (sampleFrame MSG BROADCAST)
    sampleMessage [] ⟨[], [], [], [], false⟩ rfl rfl rfl).1 rfl rfl
  have g := (C7_fMSG_store_or_reply sampleEnv worldPurged (sampleFrame MSG BROADCAST)
    sampleMessage [(Hash.zero, Kind.PURGE)]
    ⟨[], [⟨Hash.zero.bytes, Purge.GetBytes (some plainPurge)⟩], [], [], false⟩
    rfl rfl rfl).2 plainPurge rfl rfl
  ⟨⟨rfl, h.1, h.2.2.1, h.2.2.2⟩, ⟨rfl, g.1, g.2.1⟩⟩

/-- What fPUBKEY does on a pending request: the case PUBKEYRQ. -/
theorem fPUBKEY_pending (w1 : World C) (f2 : Frame) (pk : EncryptedPubkey)
    (idx1 : List (Hash × Kind)) (db : Backend)
    (hs1 : w1.db = ⟨some idx1, some db⟩) (hf : db.failing = false)
    (hb2 : f2.Header.Typ = BROADCAST)
    (hk1 : Contains w1.db pk.AddrHash = Kind.PUBKEYRQ)
    (hrow : db.pubkey.any (fun r => r.hash = pk.AddrHash.bytes) = false) :
    (fPUBKEY w1 f2 pk).db
      = ⟨some (mapSet (mapDelete idx1 pk.AddrHash) pk.AddrHash Kind.PUBKEY),
         some { db with pubkey := db.pubkey ++ [⟨pk.AddrHash.bytes, pk.IV.bytes ++ pk.Payload⟩] }⟩
    ∧ (fPUBKEY w1 f2 pk).config.SendQueue
      = w1.config.SendQueue ++ [⟨⟨PUBKEY, BROADCAST, (EncryptedPubkey.GetBytes (some pk)).length⟩,
          EncryptedPubkey.GetBytes (some pk), f2.Peer⟩]
    ∧ (fPUBKEY w1 f2 pk).config.PubkeyRegister = w1.config.PubkeyRegister ++ [pk.AddrHash] := by
  have hadd := AddPubkey_fresh (mapDelete idx1 pk.AddrHash) db w1.config.Log pk hf
    (by simp only [Contains, mapGet_mapDelete_self]; decide) hrow
  rw [hs1] at hk1
  unfold fPUBKEY storePubkey
  simp only [hs1, hk1, Delete, hadd, hb2, if_true]
  exact ⟨rfl, rfl, rfl⟩

/-- C8: from an initialised, answering store in which h is NOTFOUND (and has no
pubkey row), a PUBKEY_REQUEST/BROADCAST for h leaves h as PUBKEYRQ and enqueues
exactly one PUBKEY_REQUEST/BROADCAST frame with payload h; a PUBKEY/BROADCAST for
h handled next removes the PUBKEYRQ entry, leaves h as PUBKEY with GetPubkey
returning that pubkey, enqueues exactly one PUBKEY/BROADCAST frame carrying it with
the peer of its inbound frame, and delivers h on the pubkey register. -/
theorem C8_pubkey_request_satisfied (env : Env) (w : World C) (f1 f2 : Frame) (h : Hash)
    (pk : EncryptedPubkey) (idx : List (Hash × Kind)) (db : Backend)
    (hidx : w.db.hashList = some idx) (hdb : w.db.dbConn = some db)
    (hf : db.failing = false)
    (hb1 : f1.Header.Typ = BROADCAST) (hb2 : f2.Header.Typ = BROADCAST)
    (hk : Contains w.db h = Kind.NOTFOUND)
    (hrow : db.pubkey.any (fun r => r.hash = h.bytes) = false)
    (hpk : pk.AddrHash = h) :
    (Contains (fPUBKEY_REQUEST env w f1 h).db h = Kind.PUBKEYRQ
      ∧ (fPUBKEY_REQUEST env w f1 h).config.SendQueue
          = w.config.SendQueue ++ [⟨⟨PUBKEY_REQUEST, BROADCAST, 48⟩, h.bytes, f1.Peer⟩])
    ∧ (Contains (fPUBKEY (fPUBKEY_REQUEST env w f1 h) f2 pk).db h = Kind.PUBKEY
      ∧ (∀ idx2, (fPUBKEY (fPUBKEY_REQUEST env w f1 h) f2 pk).db.hashList = some idx2 →
          (h, Kind.PUBKEYRQ) ∉ idx2)
      ∧ GetPubkey env (fPUBKEY (fPUBKEY_REQUEST env w f1 h) f2 pk).db h = some pk
      ∧ (fPUBKEY (fPUBKEY_REQUEST env w f1 h) f2 pk).config.SendQueue
          = (fPUBKEY_REQUEST env w f1 h).config.SendQueue
            ++ [⟨⟨PUBKEY, BROADCAST, (EncryptedPubkey.GetBytes (some pk)).length⟩,
                EncryptedPubkey.GetBytes (some pk), f2.Peer⟩]
      ∧ (fPUBKEY (fPUBKEY_REQUEST env w f1 h) f2 pk).config.PubkeyRegister
          = w.config.PubkeyRegister ++ [h]) := by
  subst hpk
  have hs := Store.eq_of_working w.db idx db hidx hdb
  have hdb1 : (fPUBKEY_REQUEST env w f1 pk.AddrHash).db
      = ⟨some (mapSet idx pk.AddrHash Kind.PUBKEYRQ), some db⟩ := by
    unfold fPUBKEY_REQUEST
    simp only [hk, hb1, if_true, World.send]
    rw [hs]
    rfl
  have hq1 : (fPUBKEY_REQUEST env w f1 pk.AddrHash).config.SendQueue
      = w.config.SendQueue ++ [⟨⟨PUBKEY_REQUEST, BROADCAST, 48⟩, pk.AddrHash.bytes, f1.Peer⟩] := by
    unfold fPUBKEY_REQUEST
    simp only [hk, hb1, if_true, World.send, MakeFrame, Hash.GetBytes, pk.AddrHash.len]
  have hr1 : (fPUBKEY_REQUEST env w f1 pk.AddrHash).config.PubkeyRegister
      = w.config.PubkeyRegister := by
    unfold fPUBKEY_REQUEST
    simp only [hk, hb1, if_true, World.send]
  have hk1 : Contains (fPUBKEY_REQUEST env w f1 pk.AddrHash).db pk.AddrHash = Kind.PUBKEYRQ := by
    rw [hdb1]
    simp only [Contains, mapGet_mapSet_self, Option.getD_some]
  obtain ⟨hdb2, hq2, hr2⟩ := fPUBKEY_pending (fPUBKEY_REQUEST env w f1 pk.AddrHash) f2 pk
    (mapSet idx pk.AddrHash Kind.PUBKEYRQ) db hdb1 hf hb2 hk1 hrow
  refine ⟨⟨hk1, hq1⟩, ?_, ?_, ?_, hq2, ?_⟩
  · rw [hdb2]
    simp only [Contains, mapGet_mapSet_self, Option.getD_some]
  · intro idx2 hidx2
    rw [hdb2] at hidx2
    simp only [Option.some.injEq] at hidx2
    subst hidx2
    intro hmem
    unfold mapSet at hmem
    rcases List.mem_append.mp hmem with hm | hm
    · have := (List.mem_filter.mp hm).2
      simp at this
    · simp at hm
  · rw [hdb2]
    exact GetPubkey_stored env
      (mapSet (mapDelete (mapSet idx pk.AddrHash Kind.PUBKEYRQ) pk.AddrHash) pk.AddrHash
        Kind.PUBKEY)
      { db with pubkey := db.pubkey ++ [⟨pk.AddrHash.bytes, pk.IV.bytes ++ pk.Payload⟩] }
      pk hf (mapGet_mapSet_self _ _ _) (find?_append_fresh _ _ _ hrow (by simp))
  · rw [hr2, hr1]

theorem C8_pubkey_request_satisfied_witness :
    Contains emptyWorld.db Hash.zero = Kind.NOTFOUND
    ∧ Contains (fPUBKEY_REQUEST sampleEnv emptyWorld (sampleFrame PUBKEY_REQUEST BROADCAST)
        Hash.zero).db Hash.zero = Kind.PUBKEYRQ
    ∧ Contains (fPUBKEY (fPUBKEY_REQUEST sampleEnv emptyWorld
        (sampleFrame PUBKEY_REQUEST BROADCAST) Hash.zero)
        (sampleFrame PUBKEY BROADCAST) samplePubkey).db Hash.zero = Kind.PUBKEY
    ∧ GetPubkey sampleEnv (fPUBKEY (fPUBKEY_REQUEST sampleEnv emptyWorld
        (sampleFrame PUBKEY_REQUEST BROADCAST) Hash.zero)
        (sampleFrame PUBKEY BROADCAST) samplePubkey).db Hash.zero = some samplePubkey :=
  have h := C8_pubkey_request_satisfied sampleEnv emptyWorld
    (sampleFrame PUBKEY_REQUEST BROADCAST) (sampleFrame PUBKEY BROADCAST) Hash.zero samplePubkey
    [] ⟨[], [], [], [], false⟩ rfl rfl rfl rfl rfl rfl rfl rfl
  ⟨rfl, h.1.1, h.2.1, h.2.2.2.1⟩

/-- C10: a VERSION, PEER, OBJ, GETOBJ or CHECKTXID frame of type BROADCAST makes
its handler disconnect the peer of the frame and nothing else but a log line: no
outbound frame, no connection request, peer table, store and registers unchanged. -/
theorem C10_unicast_broadcast_disconnects [ContentCodec C] (env : Env) (w : World C) (frame : Frame)
    (version : Version) (nodeList : Option (List (String × Node))) (obj : List Hash)
    (hash : Hash) (hb : frame.Header.Typ = BROADCAST) :
    ∀ w2 ∈ [fVERSION env w frame version, fPEER env w frame nodeList, fOBJ w frame obj,
            fGETOBJ env w frame hash, fCHECKTXID env w frame hash],
      w2.killed = w.killed ++ [frame.Peer]
      ∧ w2.config.SendQueue = w.config.SendQueue
      ∧ w2.config.PeerQueue = w.config.PeerQueue
      ∧ w2.config.NodeList = w.config.NodeList
      ∧ w2.db = w.db
      ∧ w2.config.PubkeyRegister = w.config.PubkeyRegister
      ∧ w2.config.MessageRegister = w.config.MessageRegister
      ∧ w2.config.PubRegister = w.config.PubRegister
      ∧ w2.config.PurgeRegister = w.config.PurgeRegister := by
  intro w2 hw2
  simp only [List.mem_cons, List.mem_singleton, List.not_mem_nil, or_false] at hw2
  rcases hw2 with h | h | h | h | h <;> subst h
  · unfold fVERSION
    rw [if_pos hb]
    exact ⟨rfl, rfl, rfl, rfl, rfl, rfl, rfl, rfl, rfl⟩
  · unfold fPEER
    rw [if_pos hb]
    exact ⟨rfl, rfl, rfl, rfl, rfl, rfl, rfl, rfl, rfl⟩
  · unfold fOBJ
    rw [if_pos hb]
    exact ⟨rfl, rfl, rfl, rfl, rfl, rfl, rfl, rfl, rfl⟩
  · unfold fGETOBJ
    rw [if_pos hb]
    exact ⟨rfl, rfl, rfl, rfl, rfl, rfl, rfl, rfl, rfl⟩
  · unfold fCHECKTXID
    rw [if_pos hb]
    exact ⟨rfl, rfl, rfl, rfl, rfl, rfl, rfl, rfl, rfl⟩

theorem C10_unicast_broadcast_disconnects_witness :
    (sampleFrame VERSION BROADCAST).Header.Typ = BROADCAST
    ∧ (fVERSION sampleEnv emptyWorld (sampleFrame VERSION BROADCAST)
        ⟨1, ⟨1700000000, 0⟩, [], 0⟩).killed = ["10.0.0.7:4444"]
    ∧ (fGETOBJ sampleEnv emptyWorld (sampleFrame VERSION BROADCAST) Hash.zero).config.SendQueue
        = [] :=
  ⟨rfl,
   (C10_unicast_broadcast_disconnects sampleEnv emptyWorld (sampleFrame VERSION BROADCAST)
      ⟨1, ⟨1700000000, 0⟩, [], 0⟩ none [] Hash.zero rfl _ (List.mem_cons_self _ _)).1,
   (C10_unicast_broadcast_disconnects sampleEnv emptyWorld (sampleFrame VERSION BROADCAST)
      ⟨1, ⟨1700000000, 0⟩, [], 0⟩ none [] Hash.zero rfl
      (fGETOBJ sampleEnv emptyWorld (sampleFrame VERSION BROADCAST) Hash.zero)
      (by simp)).2.1⟩

end Engine


/-! ## Purges: hash identity, supersession and replay (C5, C6, C9) -/

section PurgeHandling

variable {C : Type}

/-- What fPURGE does when the hash of the Txid is held as MSG and the serialised
purge has the same hash. -/
theorem fPURGE_held_msg (w : World C) (f : Frame) (p : Purge)
    (idx : List (Hash × Kind)) (db : Backend)
    (hs : w.db = ⟨some idx, some db⟩) (hf : db.failing = false)
    (hser : MakeHash (Purge.GetBytes (some p)) = MakeHash p.Txid.bytes)
    (hk : Contains w.db (MakeHash p.Txid.bytes) = Kind.MSG)
    (hrow : db.purge.any (fun r => r.hash = (MakeHash p.Txid.bytes).bytes) = false) :
    (fPURGE w f p).db
      = ⟨some (mapSet (mapDelete idx (MakeHash p.Txid.bytes)) (MakeHash p.Txid.bytes) Kind.PURGE),
         some { db with
           msg := db.msg.filter (fun r => r.hash ≠ (MakeHash p.Txid.bytes).bytes)
           purge := db.purge ++ [⟨(MakeHash p.Txid.bytes).bytes, Purge.GetBytes (some p)⟩] }⟩
    ∧ (fPURGE w f p).config.SendQueue
      = w.config.SendQueue ++ [⟨⟨PURGE, BROADCAST, (Purge.GetBytes (some p)).length⟩,
          Purge.GetBytes (some p), f.Peer⟩]
    ∧ (fPURGE w f p).config.PurgeRegister = w.config.PurgeRegister ++ [p.Txid] := by
  rw [hs] at hk
  have hrem := RemoveHash_msg idx db w.config.Log (MakeHash p.Txid.bytes) hf hk
  have hadd := AddPurge_fresh (mapDelete idx (MakeHash p.Txid.bytes))
    { db with msg := db.msg.filter (fun r => r.hash ≠ (MakeHash p.Txid.bytes).bytes) }
    w.config.Log p hf
    (by rw [hser]; simp only [Contains, mapGet_mapDelete_self]; decide)
    (by rw [hser]; exact hrow)
  rw [hser] at hadd
  unfold fPURGE removeThenStorePurge storePurge
  simp only [hs, hk, hrem, hadd]
  exact ⟨rfl, rfl, rfl⟩

/-- What fPURGE does when the hash of the Txid is NOTFOUND and the serialised
purge has the same hash. -/
theorem fPURGE_unknown (w : World C) (f : Frame) (p : Purge)
    (idx : List (Hash × Kind)) (db : Backend)
    (hs : w.db = ⟨some idx, some db⟩) (hf : db.failing = false)
    (hser : MakeHash (Purge.GetBytes (some p)) = MakeHash p.Txid.bytes)
    (hk : Contains w.db (MakeHash p.Txid.bytes) = Kind.NOTFOUND)
    (hrow : db.purge.any (fun r => r.hash = (MakeHash p.Txid.bytes).bytes) = false) :
    (fPURGE w f p).db
      = ⟨some (mapSet idx (MakeHash p.Txid.bytes) Kind.PURGE),
         some { db with
           purge := db.purge ++ [⟨(MakeHash p.Txid.bytes).bytes, Purge.GetBytes (some p)⟩] }⟩
    ∧ (fPURGE w f p).config.SendQueue
      = w.config.SendQueue ++ [⟨⟨PURGE, BROADCAST, (Purge.GetBytes (some p)).length⟩,
          Purge.GetBytes (some p), f.Peer⟩]
    ∧ (fPURGE w f p).config.PurgeRegister = w.config.PurgeRegister ++ [p.Txid] := by
  rw [hs] at hk
  have hadd := AddPurge_fresh idx db w.config.Log p hf
    (by rw [hser, hk]; decide) (by rw [hser]; exact hrow)
  rw [hser] at hadd
  unfold fPURGE storePurge
  simp only [hs, hk, hadd]
  exact ⟨rfl, rfl, rfl⟩

/-- Where purge supersession holds: on an initialised, answering store that holds
a message under h, a purge whose serialisation hashes to h and whose Txid alone
hashes to h as well (the hash that fPURGE looks up; so for every purge without
signature) makes fPURGE delete the msg row of h, insert the purge row, leave h
indexed as PURGE, enqueue exactly one PURGE/BROADCAST frame carrying the purge with
the peer of the inbound frame, and deliver the Txid on the purge register. -/
theorem fPURGE_supersedes_message (w : World C) (f : Frame) (p : Purge) (h : Hash)
    (idx : List (Hash × Kind)) (db : Backend)
    (hidx : w.db.hashList = some idx) (hdb : w.db.dbConn = some db)
    (hf : db.failing = false)
    (hser : MakeHash (Purge.GetBytes (some p)) = h)
    (hlookup : MakeHash p.Txid.bytes = h)
    (hk : Contains w.db h = Kind.MSG)
    (hrow : db.purge.any (fun r => r.hash = h.bytes) = false) :
    (fPURGE w f p).db.dbConn
      = some { db with
          msg := db.msg.filter (fun r => r.hash ≠ h.bytes)
          purge := db.purge ++ [⟨h.bytes, Purge.GetBytes (some p)⟩] }
    ∧ (∀ db2, (fPURGE w f p).db.dbConn = some db2 →
        db2.msg.any (fun r => r.hash = h.bytes) = false)
    ∧ Contains (fPURGE w f p).db h = Kind.PURGE
    ∧ (fPURGE w f p).config.SendQueue
      = w.config.SendQueue ++ [⟨⟨PURGE, BROADCAST, (Purge.GetBytes (some p)).length⟩,
          Purge.GetBytes (some p), f.Peer⟩]
    ∧ (fPURGE w f p).config.PurgeRegister = w.config.PurgeRegister ++ [p.Txid] := by
  subst hlookup
  have hs := Store.eq_of_working w.db idx db hidx hdb
  obtain ⟨h1, h2, h3⟩ := fPURGE_held_msg w f p idx db hs hf hser hk hrow
  refine ⟨?_, ?_, ?_, h2, h3⟩
  · rw [h1]
  · intro db2 hdb2
    rw [h1] at hdb2
    simp only [Option.some.injEq] at hdb2
    subst hdb2
    exact any_filter_ne db.msg MsgRow.hash (MakeHash p.Txid.bytes).bytes
  · rw [h1]
    simp only [Contains, mapGet_mapSet_self, Option.getD_some]

/-- The supersession at the purge without signature for the zero Txid. -/
theorem fPURGE_supersedes_message_plain :
    Contains (worldHolding (MakeHash Bytes16.zero.bytes)).db (MakeHash Bytes16.zero.bytes)
      = Kind.MSG
    ∧ Contains (fPURGE (worldHolding (MakeHash Bytes16.zero.bytes))
        (sampleFrame PURGE BROADCAST) plainPurge).db (MakeHash Bytes16.zero.bytes) = Kind.PURGE
    ∧ (fPURGE (worldHolding (MakeHash Bytes16.zero.bytes))
        (sampleFrame PURGE BROADCAST) plainPurge).config.PurgeRegister = [Bytes16.zero] :=
  have hk : Contains (worldHolding (MakeHash Bytes16.zero.bytes)).db
      (MakeHash Bytes16.zero.bytes) = Kind.MSG := by
    simp [Contains, worldHolding, mapGet]
  have h := fPURGE_supersedes_message (worldHolding (MakeHash Bytes16.zero.bytes))
    (sampleFrame PURGE BROADCAST) plainPurge (MakeHash Bytes16.zero.bytes)
    [(MakeHash Bytes16.zero.bytes, Kind.MSG)]
    ⟨[], [], [⟨(MakeHash Bytes16.zero.bytes).bytes, Hash.zero.bytes, 0, []⟩], [], false⟩
    rfl rfl rfl (by simp [plainPurge, PurgeMessage_purge, Purge.GetBytes, Purge.zero]) rfl hk rfl
  ⟨hk, h.2.2.1, h.2.2.2.2⟩

/-- C5 at its failing input: a PURGE payload of 17 bytes decodes to a purge that
carries a one-byte signature, and the store holds a message under h, the SHA-384
hash of the serialisation of that purge.  fPURGE looks
up the hash of the Txid alone, finds NOTFOUND and never calls RemoveHash: the
purge is stored, re-broadcast and registered and h is indexed as PURGE, but the
msg row of h is still in the table msg. -/
theorem C5_signed_purge_keeps_message :
    Purge.zero.FromBytes (Bytes16.zero.bytes ++ [1]) = signedPurge
    ∧ MakeHash (Purge.GetBytes (some signedPurge)) ≠ MakeHash signedPurge.Txid.bytes
    ∧ Contains (worldHolding (MakeHash (Purge.GetBytes (some signedPurge)))).db
        (MakeHash signedPurge.Txid.bytes) = Kind.NOTFOUND
    ∧ Contains (fPURGE (worldHolding (MakeHash (Purge.GetBytes (some signedPurge))))
        (sampleFrame PURGE BROADCAST) signedPurge).db
        (MakeHash (Purge.GetBytes (some signedPurge))) = Kind.PURGE
    ∧ (fPURGE (worldHolding (MakeHash (Purge.GetBytes (some signedPurge))))
        (sampleFrame PURGE BROADCAST) signedPurge).config.SendQueue.length = 1
    ∧ Contains (worldHolding (MakeHash (Purge.GetBytes (some signedPurge)))).db
        (MakeHash (Purge.GetBytes (some signedPurge))) = Kind.MSG
    ∧ (worldHolding (MakeHash (Purge.GetBytes (some signedPurge)))).db.dbConn.map
        (fun b => b.msg.any (fun r => r.hash = (MakeHash (Purge.GetBytes (some signedPurge))).bytes))
        = some true
    ∧ (fPURGE (worldHolding (MakeHash (Purge.GetBytes (some signedPurge))))
        (sampleFrame PURGE BROADCAST) signedPurge).db.dbConn.map
        (fun b => b.msg.any (fun r => r.hash = (MakeHash (Purge.GetBytes (some signedPurge))).bytes))
        = some true
    ∧ (fPURGE (worldHolding (MakeHash (Purge.GetBytes (some signedPurge))))
        (sampleFrame PURGE BROADCAST) signedPurge).config.PurgeRegister = [Bytes16.zero] := by
  decide!

/-- What fMSG does on a message whose TxidHash is NOTFOUND. -/
theorem fMSG_unknown [ContentCodec C] (env : Env) (w : World C) (f : Frame) (m : Message C)
    (idx : List (Hash × Kind)) (db : Backend)
    (hs : w.db = ⟨some idx, some db⟩) (hf : db.failing = false)
    (hk : Contains w.db m.TxidHash = Kind.NOTFOUND)
    (hrow : db.msg.any (fun r => r.hash = m.TxidHash.bytes) = false) :
    (fMSG env w f m).db
      = ⟨some (mapSet idx m.TxidHash Kind.MSG),
         some { db with msg := db.msg ++ [⟨m.TxidHash.bytes, m.AddrHash.bytes,
           m.Timestamp.Unix, ContentCodec.GetBytes m.Content⟩] }⟩ := by
  rw [hs] at hk
  have hadd := AddMessage_fresh idx db w.config.Log m hf (by rw [hk]; decide) hrow
  unfold fMSG
  simp only [hs, hk, hadd]
  rfl

theorem GetMessage_other_kind [ContentCodec C] (env : Env) (idx : List (Hash × Kind))
    (db : Backend) (h : Hash) (k : Kind) (hg : mapGet idx h = some k)
    (h1 : k ≠ Kind.MSG) (h2 : k ≠ Kind.PUB) :
    (GetMessage env ⟨some idx, some db⟩ h : Option (Message C)) = none := by
  unfold GetMessage
  simp only [hashListIs_of_mapGet env idx h k _ hg, decide_eq_false h1, decide_eq_false h2,
    and_self, if_true]

/-- The purge that PurgeMessage builds serialises to its Txid alone. -/
theorem PurgeMessage_purge_bytes (txid : Bytes16) :
    Purge.GetBytes (some (PurgeMessage_purge txid)) = txid.bytes := by
  simp [PurgeMessage_purge, Purge.GetBytes, Purge.zero]

/-- C6: the TxidHash that SendMessage gives a message with Txid t is the hash that
fPURGE looks up for the purge built from t and the hash under which AddPurge
indexes it; so once fMSG has stored the message and fPURGE has handled that purge,
the TxidHash is indexed as PURGE, GetMessage returns nil and the msg row is gone. -/
theorem C6_send_purge_hash_identity [ContentCodec C] (env : Env) (w : World C)
    (f1 f2 : Frame) (txid : Bytes16) (recipientAddress : List Byte) (timestamp : Time)
    (encrypted : C) (idx : List (Hash × Kind)) (db : Backend)
    (hidx : w.db.hashList = some idx) (hdb : w.db.dbConn = some db)
    (hf : db.failing = false)
    (hk : Contains w.db (MakeHash txid.bytes) = Kind.NOTFOUND)
    (hmsg : db.msg.any (fun r => r.hash = (MakeHash txid.bytes).bytes) = false)
    (hpurge : db.purge.any (fun r => r.hash = (MakeHash txid.bytes).bytes) = false) :
    (SendMessage_sendMsg txid recipientAddress timestamp encrypted : Message C).TxidHash
        = MakeHash (PurgeMessage_purge txid).Txid.bytes
    ∧ (SendMessage_sendMsg txid recipientAddress timestamp encrypted : Message C).TxidHash
        = Hash.zero.FromBytes (SHA512.Sum384 (Purge.GetBytes (some (PurgeMessage_purge txid))))
    ∧ Contains (fMSG env w f1
          (SendMessage_sendMsg txid recipientAddress timestamp encrypted)).db
        (MakeHash txid.bytes) = Kind.MSG
    ∧ Contains (fPURGE (fMSG env w f1
          (SendMessage_sendMsg txid recipientAddress timestamp encrypted)) f2
          (PurgeMessage_purge txid)).db (MakeHash txid.bytes) = Kind.PURGE
    ∧ (GetMessage env (fPURGE (fMSG env w f1
          (SendMessage_sendMsg txid recipientAddress timestamp encrypted)) f2
          (PurgeMessage_purge txid)).db (MakeHash txid.bytes) : Option (Message C)) = none
    ∧ (∀ db2, (fPURGE (fMSG env w f1
          (SendMessage_sendMsg txid recipientAddress timestamp encrypted)) f2
          (PurgeMessage_purge txid)).db.dbConn = some db2 →
        db2.msg.any (fun r => r.hash = (MakeHash txid.bytes).bytes) = false) := by
  have hs := Store.eq_of_working w.db idx db hidx hdb
  have hb := PurgeMessage_purge_bytes txid
  have ht : (PurgeMessage_purge txid).Txid = txid := rfl
  have hm : (SendMessage_sendMsg txid recipientAddress timestamp encrypted : Message C).TxidHash
      = MakeHash txid.bytes := rfl
  have h1 := fMSG_unknown env w f1
    (SendMessage_sendMsg txid recipientAddress timestamp encrypted) idx db hs hf
    (by rw [hm]; exact hk) (by rw [hm]; exact hmsg)
  rw [hm] at h1
  have hk1 : Contains (fMSG env w f1
      (SendMessage_sendMsg txid recipientAddress timestamp encrypted)).db
      (MakeHash (PurgeMessage_purge txid).Txid.bytes) = Kind.MSG := by
    rw [h1, ht]
    simp only [Contains, mapGet_mapSet_self, Option.getD_some]
  obtain ⟨h2, -, -⟩ := fPURGE_held_msg (fMSG env w f1
      (SendMessage_sendMsg txid recipientAddress timestamp encrypted)) f2
      (PurgeMessage_purge txid) _ _ h1 hf (by rw [hb, ht]) hk1 (by rw [ht]; exact hpurge)
  rw [ht] at h2 hk1
  refine ⟨by rw [hm, ht], by rw [hm, hb, AddPurge_hashObj], hk1, ?_, ?_, ?_⟩
  · rw [h2]
    simp only [Contains, mapGet_mapSet_self, Option.getD_some]
  · rw [h2]
    exact GetMessage_other_kind env _ _ _ Kind.PURGE (mapGet_mapSet_self _ _ _)
      (by decide) (by decide)
  · intro db2 hdb2
    rw [h2] at hdb2
    simp only [Option.some.injEq] at hdb2
    subst hdb2
    simp only [List.filter_append, List.any_append]
    rw [any_filter_ne db.msg MsgRow.hash (MakeHash txid.bytes).bytes]
    simp

theorem C6_send_purge_hash_identity_witness :
    Contains emptyWorld.db (MakeHash Bytes16.zero.bytes) = Kind.NOTFOUND
    ∧ (SendMessage_sendMsg Bytes16.zero [] ⟨0, 0⟩ (⟨[]⟩ : RawContent)).TxidHash
        = Hash.zero.FromBytes
            (SHA512.Sum384 (Purge.GetBytes (some (PurgeMessage_purge Bytes16.zero))))
    ∧ Contains (fPURGE (fMSG sampleEnv emptyWorld (sampleFrame MSG BROADCAST)
          (SendMessage_sendMsg Bytes16.zero [] ⟨0, 0⟩ (⟨[]⟩ : RawContent)))
          (sampleFrame PURGE BROADCAST) (PurgeMessage_purge Bytes16.zero)).db
        (MakeHash Bytes16.zero.bytes) = Kind.PURGE :=
  have h := C6_send_purge_hash_identity sampleEnv emptyWorld (sampleFrame MSG BROADCAST)
    (sampleFrame PURGE BROADCAST) Bytes16.zero [] ⟨0, 0⟩ (⟨[]⟩ : RawContent)
    [] ⟨[], [], [], [], false⟩ rfl rfl rfl rfl rfl rfl
  ⟨rfl, h.2.1, h.2.2.2.1⟩

end PurgeHandling


/-! ## Replay of accepted broadcasts (C9) -/

section Replay

variable {C : Type}

theorem AddPubkey_none (s s2 : Store) (log log2 : List String) (pk : EncryptedPubkey)
    (h : AddPubkey s log pk = (s2, log2, none)) : Contains s2 pk.AddrHash = Kind.PUBKEY := by
  unfold AddPubkey at h
  split at h
  · rename_i idx db hidx hdb
    split at h
    · rename_i hc
      simp only [Prod.mk.injEq, and_true] at h
      rw [← h.1]
      exact hc
    · try dsimp only at h
      generalize Backend.Exec db _ = r at h
      obtain ⟨db1, e⟩ := r
      cases e with
      | some err => simp at h
      | none =>
        simp only [Prod.mk.injEq, and_true] at h
        rw [← h.1]
        simp only [Add, hidx, Contains, mapGet_mapSet_self, Option.getD_some]
  · simp at h

theorem AddMessage_none [ContentCodec C] (s s2 : Store) (log log2 : List String)
    (m : Message C) (h : AddMessage s log m = (s2, log2, none)) :
    Contains s2 m.TxidHash = Kind.MSG := by
  unfold AddMessage at h
  split at h
  · rename_i idx db hidx hdb
    split at h
    · rename_i hc
      simp only [Prod.mk.injEq, and_true] at h
      rw [← h.1]
      exact hc
    · try dsimp only at h
      generalize Backend.Exec db _ = r at h
      obtain ⟨db1, e⟩ := r
      cases e with
      | some err => simp at h
      | none =>
        simp only [Prod.mk.injEq, and_true] at h
        rw [← h.1]
        simp only [Add, hidx, Contains, mapGet_mapSet_self, Option.getD_some]
  · simp at h

theorem AddPub_none [ContentCodec C] (s s2 : Store) (log log2 : List String)
    (m : Message C) (hk : Contains s m.TxidHash ≠ Kind.MSG)
    (h : AddPub s log m = (s2, log2, none)) :
    Contains s2 m.TxidHash = Kind.PUB := by
  unfold AddPub at h
  split at h
  · rename_i idx db hidx hdb
    split at h
    · rename_i hc
      exact absurd hc hk
    · try dsimp only at h
      generalize Backend.Exec db _ = r at h
      obtain ⟨db1, e⟩ := r
      cases e with
      | some err => simp at h
      | none =>
        simp only [Prod.mk.injEq, and_true] at h
        rw [← h.1]
        simp only [Add, hidx, Contains, mapGet_mapSet_self, Option.getD_some]
  · simp at h

theorem AddPurge_none (s s2 : Store) (log log2 : List String) (p : Purge)
    (h : AddPurge s log p = (s2, log2, none)) :
    Contains s2 (MakeHash (Purge.GetBytes (some p))) = Kind.PURGE := by
  unfold AddPurge at h
  simp only [AddPurge_hashObj] at h
  split at h
  · rename_i idx db hidx hdb
    split at h
    · rename_i hc
      simp only [Prod.mk.injEq, and_true] at h
      rw [← h.1]
      exact hc
    · try dsimp only at h
      generalize Backend.Exec db _ = r at h
      obtain ⟨db1, e⟩ := r
      cases e with
      | some err => simp at h
      | none =>
        simp only [Prod.mk.injEq, and_true] at h
        rw [← h.1]
        simp only [Add, hidx, Contains, mapGet_mapSet_self, Option.getD_some]
  · simp at h

theorem List.ne_append_singleton {α : Type} (l : List α) (x : α) : l ≠ l ++ [x] := by
  intro h
  have := congrArg List.length h
  simp at this

theorem fPUBKEY_REQUEST_pending (env : Env) (w : World C) (f : Frame) (h : Hash)
    (hk : Contains w.db h = Kind.PUBKEYRQ) : fPUBKEY_REQUEST env w f h = w := by
  unfold fPUBKEY_REQUEST
  simp only [hk]

theorem fPUBKEY_known (w : World C) (f : Frame) (pk : EncryptedPubkey)
    (hk : Contains w.db pk.AddrHash = Kind.PUBKEY) : fPUBKEY w f pk = w := by
  unfold fPUBKEY
  simp only [hk]

theorem fMSG_known [ContentCodec C] (env : Env) (w : World C) (f : Frame) (m : Message C)
    (hk : Contains w.db m.TxidHash = Kind.MSG) : fMSG env w f m = w := by
  unfold fMSG
  simp only [hk]

theorem fPUB_known [ContentCodec C] (env : Env) (w : World C) (f : Frame) (m : Message C)
    (hk : Contains w.db m.TxidHash = Kind.PUB) : fPUB env w f m = w := by
  unfold fPUB
  simp only [hk]

theorem fPURGE_known (w : World C) (f : Frame) (p : Purge)
    (hk : Contains w.db (MakeHash p.Txid.bytes) = Kind.PURGE) : fPURGE w f p = w := by
  unfold fPURGE
  simp only [hk]

theorem storePubkey_accepted (w : World C) (f : Frame) (pk : EncryptedPubkey)
    (reg : List Hash) (hreg : w.config.PubkeyRegister = reg)
    (hacc : (storePubkey w f pk).config.PubkeyRegister = reg ++ [pk.AddrHash]) :
    Contains (storePubkey w f pk).db pk.AddrHash = Kind.PUBKEY := by
  unfold storePubkey at hacc ⊢
  cases hr : AddPubkey w.db w.config.Log pk with
  | mk db1 rest =>
    obtain ⟨log1, e⟩ := rest
    cases e with
    | some err =>
      rw [hr] at hacc
      simp only [World.log] at hacc
      rw [hreg] at hacc
      exact absurd hacc (List.ne_append_singleton _ _)
    | none =>
      simp only []
      have := AddPubkey_none _ _ _ _ _ hr
      split <;> exact this

theorem fPUBKEY_accepted (w : World C) (f : Frame) (pk : EncryptedPubkey)
    (hacc : (fPUBKEY w f pk).config.PubkeyRegister = w.config.PubkeyRegister ++ [pk.AddrHash]) :
    Contains (fPUBKEY w f pk).db pk.AddrHash = Kind.PUBKEY := by
  unfold fPUBKEY at hacc ⊢
  split at hacc
  · exact storePubkey_accepted _ f pk w.config.PubkeyRegister rfl hacc
  · exact storePubkey_accepted _ f pk w.config.PubkeyRegister rfl hacc
  · exact absurd hacc (List.ne_append_singleton _ _)

theorem fMSG_accepted [ContentCodec C] (env : Env) (w : World C) (f : Frame) (m : Message C)
    (hacc : (fMSG env w f m).config.MessageRegister = w.config.MessageRegister ++ [m]) :
    Contains (fMSG env w f m).db m.TxidHash = Kind.MSG := by
  unfold fMSG at hacc ⊢
  split at hacc
  · cases hr : AddMessage w.db w.config.Log m with
    | mk db1 rest =>
      obtain ⟨log1, e⟩ := rest
      cases e with
      | some err =>
        rw [hr] at hacc
        exact absurd hacc (List.ne_append_singleton _ _)
      | none => exact AddMessage_none _ _ _ _ _ hr
  · exact absurd hacc (List.ne_append_singleton _ _)
  · exact absurd hacc (List.ne_append_singleton _ _)

theorem fPUB_accepted [ContentCodec C] (env : Env) (w : World C) (f : Frame) (m : Message C)
    (hacc : (fPUB env w f m).config.PubRegister = w.config.PubRegister ++ [m]) :
    Contains (fPUB env w f m).db m.TxidHash = Kind.PUB := by
  unfold fPUB at hacc ⊢
  split at hacc
  · rename_i hk
    cases hr : AddPub w.db w.config.Log m with
    | mk db1 rest =>
      obtain ⟨log1, e⟩ := rest
      cases e with
      | some err =>
        rw [hr] at hacc
        exact absurd hacc (List.ne_append_singleton _ _)
      | none => exact AddPub_none _ _ _ _ _ (by rw [hk]; decide) hr
  · exact absurd hacc (List.ne_append_singleton _ _)
  · exact absurd hacc (List.ne_append_singleton _ _)

theorem storePurge_accepted (w : World C) (f : Frame) (p : Purge)
    (reg : List Bytes16) (hreg : w.config.PurgeRegister = reg)
    (hacc : (storePurge w f p).config.PurgeRegister = reg ++ [p.Txid]) :
    Contains (storePurge w f p).db (MakeHash (Purge.GetBytes (some p))) = Kind.PURGE := by
  unfold storePurge at hacc ⊢
  cases hr : AddPurge w.db w.config.Log p with
  | mk db1 rest =>
    obtain ⟨log1, e⟩ := rest
    cases e with
    | some err =>
      rw [hr] at hacc
      simp only [World.log] at hacc
      rw [hreg] at hacc
      exact absurd hacc (List.ne_append_singleton _ _)
    | none => exact AddPurge_none _ _ _ _ _ hr

theorem removeThenStorePurge_accepted (w : World C) (f : Frame) (p : Purge) (h : Hash)
    (hacc : (removeThenStorePurge w f p h).config.PurgeRegister
      = w.config.PurgeRegister ++ [p.Txid]) :
    Contains (removeThenStorePurge w f p h).db (MakeHash (Purge.GetBytes (some p)))
      = Kind.PURGE := by
  unfold removeThenStorePurge at hacc ⊢
  cases hr : RemoveHash w.db w.config.Log h with
  | mk db1 rest =>
    obtain ⟨log1, e⟩ := rest
    cases e with
    | some err =>
      rw [hr] at hacc
      exact absurd hacc (List.ne_append_singleton _ _)
    | none =>
      rw [hr] at hacc
      exact storePurge_accepted _ f p w.config.PurgeRegister rfl hacc

theorem fPURGE_accepted (w : World C) (f : Frame) (p : Purge)
    (hacc : (fPURGE w f p).config.PurgeRegister = w.config.PurgeRegister ++ [p.Txid]) :
    Contains (fPURGE w f p).db (MakeHash (Purge.GetBytes (some p))) = Kind.PURGE := by
  unfold fPURGE at hacc ⊢
  dsimp only at hacc ⊢
  split at hacc
  · exact removeThenStorePurge_accepted w f p _ hacc
  · exact removeThenStorePurge_accepted w f p _ hacc
  · exact storePurge_accepted w f p w.config.PurgeRegister rfl hacc
  · exact absurd hacc (List.ne_append_singleton _ _)

/-- Where replay idempotence holds: a BROADCAST frame that the engine accepted (the
request was recorded, or the object was persisted and its registrar notified) is
handled a second time without any effect: the world after the replay, with store,
index, queues, registers and log, is the world before it.  For PURGE this holds
when the hash of the Txid, which fPURGE looks up, is the hash of the serialised
purge, under which AddPurge indexes it: so for every purge without signature. -/
theorem replay_is_idempotent [ContentCodec C] (env : Env) (w : World C) (f : Frame)
    (hb : f.Header.Typ = BROADCAST) :
    (∀ (h : Hash) (idx : List (Hash × Kind)), w.db.hashList = some idx →
      Contains w.db h = Kind.NOTFOUND →
      fPUBKEY_REQUEST env (fPUBKEY_REQUEST env w f h) f h = fPUBKEY_REQUEST env w f h)
    ∧ (∀ pk : EncryptedPubkey,
      (fPUBKEY w f pk).config.PubkeyRegister = w.config.PubkeyRegister ++ [pk.AddrHash] →
      fPUBKEY (fPUBKEY w f pk) f pk = fPUBKEY w f pk)
    ∧ (∀ m : Message C,
      (fMSG env w f m).config.MessageRegister = w.config.MessageRegister ++ [m] →
      fMSG env (fMSG env w f m) f m = fMSG env w f m)
    ∧ (∀ m : Message C,
      (fPUB env w f m).config.PubRegister = w.config.PubRegister ++ [m] →
      fPUB env (fPUB env w f m) f m = fPUB env w f m)
    ∧ (∀ p : Purge, MakeHash p.Txid.bytes = MakeHash (Purge.GetBytes (some p)) →
      (fPURGE w f p).config.PurgeRegister = w.config.PurgeRegister ++ [p.Txid] →
      fPURGE (fPURGE w f p) f p = fPURGE w f p) := by
  refine ⟨fun h idx hidx hk => ?_, fun pk hacc => ?_, fun m hacc => ?_, fun m hacc => ?_,
    fun p hser hacc => ?_⟩
  · apply fPUBKEY_REQUEST_pending
    unfold fPUBKEY_REQUEST
    simp only [hk, hb, if_true, World.send]
    simp only [Add, hidx, Contains, mapGet_mapSet_self, Option.getD_some]
  · exact fPUBKEY_known _ f pk (fPUBKEY_accepted w f pk hacc)
  · exact fMSG_known env _ f m (fMSG_accepted env w f m hacc)
  · exact fPUB_known env _ f m (fPUB_accepted env w f m hacc)
  · apply fPURGE_known
    rw [hser]
    exact fPURGE_accepted w f p hacc

/-- The replay of a message and of the purge without signature for the zero Txid. -/
theorem replay_is_idempotent_plain :
    (sampleFrame PURGE BROADCAST).Header.Typ = BROADCAST
    ∧ fMSG sampleEnv (fMSG sampleEnv emptyWorld (sampleFrame MSG BROADCAST) sampleMessage)
        (sampleFrame MSG BROADCAST) sampleMessage
      = fMSG sampleEnv emptyWorld (sampleFrame MSG BROADCAST) sampleMessage
    ∧ fPURGE (fPURGE emptyWorld (sampleFrame PURGE BROADCAST) plainPurge)
        (sampleFrame PURGE BROADCAST) plainPurge
      = fPURGE emptyWorld (sampleFrame PURGE BROADCAST) plainPurge :=
  ⟨rfl,
   (replay_is_idempotent sampleEnv emptyWorld (sampleFrame MSG BROADCAST) rfl).2.2.1
     sampleMessage rfl,
   (replay_is_idempotent sampleEnv emptyWorld (sampleFrame PURGE BROADCAST) rfl).2.2.2.2
     plainPurge (by simp [plainPurge, PurgeMessage_purge, Purge.GetBytes, Purge.zero])
     (by decide!)⟩

/-- C9 at its failing input: the engine accepts a PURGE/BROADCAST whose payload of
17 bytes decodes to a purge with a one-byte signature (the purge row is persisted, the frame re-broadcast,
the registrar notified).  AddPurge has indexed the hash of the serialisation, the
test at the head of fPURGE looks up the hash of the Txid alone and finds NOTFOUND
again: the same frame handled a second time is re-broadcast and registered a
second time (the store is unchanged). -/
theorem C9_signed_purge_replayed :
    Purge.zero.FromBytes (Bytes16.zero.bytes ++ [1]) = signedPurge
    ∧ (sampleFrame PURGE BROADCAST).Header.Typ = BROADCAST
    ∧ Contains (fPURGE emptyWorld (sampleFrame PURGE BROADCAST) signedPurge).db
        (MakeHash (Purge.GetBytes (some signedPurge))) = Kind.PURGE
    ∧ Contains (fPURGE emptyWorld (sampleFrame PURGE BROADCAST) signedPurge).db
        (MakeHash signedPurge.Txid.bytes) = Kind.NOTFOUND
    ∧ (fPURGE emptyWorld (sampleFrame PURGE BROADCAST) signedPurge).config.SendQueue.length = 1
    ∧ (fPURGE (fPURGE emptyWorld (sampleFrame PURGE BROADCAST) signedPurge)
        (sampleFrame PURGE BROADCAST) signedPurge).config.SendQueue.length = 2
    ∧ (fPURGE (fPURGE emptyWorld (sampleFrame PURGE BROADCAST) signedPurge)
        (sampleFrame PURGE BROADCAST) signedPurge).db
      = (fPURGE emptyWorld (sampleFrame PURGE BROADCAST) signedPurge).db
    ∧ (fPURGE emptyWorld (sampleFrame PURGE BROADCAST) signedPurge).config.PurgeRegister
        = emptyWorld.config.PurgeRegister ++ [signedPurge.Txid]
    ∧ (fPURGE emptyWorld (sampleFrame PURGE BROADCAST) signedPurge).db.dbConn.map
        (fun b => b.purge.map KeyRow.payload) = some [Purge.GetBytes (some signedPurge)]
    ∧ (fPURGE (fPURGE emptyWorld (sampleFrame PURGE BROADCAST) signedPurge)
        (sampleFrame PURGE BROADCAST) signedPurge).config.SendQueue
      ≠ (fPURGE emptyWorld (sampleFrame PURGE BROADCAST) signedPurge).config.SendQueue
    ∧ (fPURGE (fPURGE emptyWorld (sampleFrame PURGE BROADCAST) signedPurge)
        (sampleFrame PURGE BROADCAST) signedPurge).config.PurgeRegister
      = [signedPurge.Txid, signedPurge.Txid] := by
  decide!

end Replay


/-! ## Version handshake (C11 to C13) -/

section VersionHandshake

variable {C : Type}

theorem not_broadcast_of_kind (frame : Frame)
    (hkind : frame.Header.Typ = REQUEST ∨ frame.Header.Typ = REPLY) :
    ¬ frame.Header.Typ = BROADCAST := by
  intro hb
  rcases hkind with h | h <;> rw [hb] at h <;> exact absurd h (by decide)

/-- C11: a VERSION frame of type REQUEST or REPLY whose version field is not
LOCAL_VERSION makes fVERSION disconnect the peer of the frame; no frame and no
connection request is enqueued and the peer table and the store stay as they
were, whatever time stamp and address the payload carries. -/
theorem C11_version_mismatch_disconnects (env : Env) (w : World C) (frame : Frame)
    (version : Version)
    (hkind : frame.Header.Typ = REQUEST ∨ frame.Header.Typ = REPLY)
    (hver : version.Version ≠ env.LOCAL_VERSION) :
    (fVERSION env w frame version).killed = w.killed ++ [frame.Peer]
    ∧ (fVERSION env w frame version).config.SendQueue = w.config.SendQueue
    ∧ (fVERSION env w frame version).config.NodeList = w.config.NodeList
    ∧ (fVERSION env w frame version).config.PeerQueue = w.config.PeerQueue
    ∧ (fVERSION env w frame version).config.LocalVersion = w.config.LocalVersion
    ∧ (fVERSION env w frame version).db = w.db := by
  unfold fVERSION
  rw [if_neg (not_broadcast_of_kind frame hkind), if_pos hver]
  exact ⟨rfl, rfl, rfl, rfl, rfl, rfl⟩

theorem C11_version_mismatch_disconnects_witness :
    ((sampleFrame VERSION REQUEST).Header.Typ = REQUEST
      ∨ (sampleFrame VERSION REQUEST).Header.Typ = REPLY)
    ∧ (2 : Nat) ≠ lanEnv.LOCAL_VERSION
    ∧ (fVERSION lanEnv lanWorld (sampleFrame VERSION REQUEST)
        ⟨2, ⟨1700000000, 0⟩, [10, 0, 0, 1], 9000⟩).killed = ["10.0.0.7:4444"]
    ∧ (fVERSION lanEnv lanWorld (sampleFrame VERSION REQUEST)
        ⟨2, ⟨1700000000, 0⟩, [10, 0, 0, 1], 9000⟩).config.SendQueue = [] :=
  have h := C11_version_mismatch_disconnects lanEnv lanWorld (sampleFrame VERSION REQUEST)
    ⟨2, ⟨1700000000, 0⟩, [10, 0, 0, 1], 9000⟩ (Or.inl rfl) (by decide)
  ⟨Or.inl rfl, by decide, h.1, h.2.1⟩

/-- With exact arithmetic, Minutes() is the duration divided by one minute. -/
theorem durationMinutes_eq (d : Int) : durationMinutes d = (d : ℚ) / 60000000000 := by
  unfold durationMinutes
  have h := Int.tdiv_add_tmod d 60000000000
  have h2 : (d : ℚ)
      = 60000000000 * ((d.tdiv 60000000000 : Int) : ℚ) + ((d.tmod 60000000000 : Int) : ℚ) := by
    exact_mod_cast h.symm
  rw [h2]
  field_simp
  ring

/-- The integer test tooFarOff is the test dur.Minutes()+5 > 10 of the source. -/
theorem tooFarOff_minutes (d : Int) :
    tooFarOff d = true ↔ durationMinutes d + 5 > 10 := by
  unfold tooFarOff
  rw [decide_eq_true_eq, durationMinutes_eq]
  constructor
  · intro h
    have h3 : (300000000000 : ℚ) < (d : ℚ) := by exact_mod_cast h
    have : (5 : ℚ) < (d : ℚ) / 60000000000 := by
      rw [lt_div_iff₀ (by norm_num : (0 : ℚ) < 60000000000)]
      linarith
    show (10 : ℚ) < (d : ℚ) / 60000000000 + 5
    linarith
  · intro h
    have h1 : (10 : ℚ) < (d : ℚ) / 60000000000 + 5 := h
    have h3 : (300000000000 : ℚ) < (d : ℚ) := by
      have := (lt_div_iff₀ (by norm_num : (0 : ℚ) < 60000000000)).mp
        (by linarith : (5 : ℚ) < (d : ℚ) / 60000000000)
      linarith
    exact_mod_cast h3

/-- The time test of fVERSION rejects exactly the time stamps that lie more than
300 * 10^9 nanoseconds before the local clock; no time stamp after the local clock
is rejected. -/
theorem tooFarOff_timeSince (env : Env) (t : Time) :
    tooFarOff (timeSince env t) = true ↔ 300000000000 < env.now.nanos - t.nanos := by
  unfold tooFarOff timeSince
  simp only [decide_eq_true_eq]
  split
  · omega
  · split <;> omega

/-- A time stamp more than five minutes in the past makes fVERSION disconnect
the peer and enqueue nothing. -/
theorem fVERSION_stale_timestamp (env : Env) (w : World C) (frame : Frame) (version : Version)
    (hkind : frame.Header.Typ = REQUEST ∨ frame.Header.Typ = REPLY)
    (hver : version.Version = env.LOCAL_VERSION)
    (hpast : 300000000000 < env.now.nanos - version.Timestamp.nanos) :
    (fVERSION env w frame version).killed = w.killed ++ [frame.Peer]
    ∧ (fVERSION env w frame version).config.SendQueue = w.config.SendQueue
    ∧ (fVERSION env w frame version).config.NodeList = w.config.NodeList := by
  unfold fVERSION
  rw [if_neg (not_broadcast_of_kind frame hkind), if_neg (by simp [hver])]
  simp only [(tooFarOff_timeSince env version.Timestamp).mpr hpast, if_true]
  exact ⟨rfl, rfl, rfl⟩

/-- C12 at its failing input: a VERSION/REQUEST with the local version, an
all-zero address and a time stamp that lies after the local clock, however far,
passes the time test of fVERSION: the peer is not disconnected and the
VERSION/REPLY is enqueued. -/
theorem C12_future_timestamp_accepted (env : Env) (w : World C) (frame : Frame)
    (version : Version)
    (hkind : frame.Header.Typ = REQUEST)
    (hver : version.Version = env.LOCAL_VERSION)
    (hzero : version.IpAddress.any (fun b => b ≠ 0) = false)
    (hfuture : env.now.nanos + 300000000000 < version.Timestamp.nanos) :
    tooFarOff (timeSince env version.Timestamp) = false
    ∧ (fVERSION env w frame version).killed = w.killed
    ∧ (fVERSION env w frame version).config.SendQueue
        = w.config.SendQueue ++
          [⟨⟨VERSION, REPLY,
              (VersionGetBytes { w.config.LocalVersion with Timestamp := nowRounded env }).length⟩,
            VersionGetBytes { w.config.LocalVersion with Timestamp := nowRounded env },
            frame.Peer⟩] := by
  have ht : tooFarOff (timeSince env version.Timestamp) = false := by
    rw [Bool.eq_false_iff]
    intro h
    have := (tooFarOff_timeSince env version.Timestamp).mp h
    omega
  refine ⟨ht, ?_, ?_⟩
  · unfold fVERSION
    rw [if_neg (not_broadcast_of_kind frame (Or.inl hkind)), if_neg (by simp [hver])]
    simp only [ht, hzero, hkind, Bool.false_eq_true, false_and, if_false, if_true]
    rfl
  · unfold fVERSION
    rw [if_neg (not_broadcast_of_kind frame (Or.inl hkind)), if_neg (by simp [hver])]
    simp only [ht, hzero, hkind, Bool.false_eq_true, false_and, if_false, if_true]
    rfl

theorem C12_future_timestamp_accepted_witness :
    sampleEnv.now.nanos + 300000000000 < (⟨1700003600, 0⟩ : Time).nanos
    ∧ (fVERSION sampleEnv emptyWorld (sampleFrame VERSION REQUEST)
        ⟨1, ⟨1700003600, 0⟩, [0, 0, 0, 0], 9000⟩).killed = []
    ∧ (fVERSION sampleEnv emptyWorld (sampleFrame VERSION REQUEST)
        ⟨1, ⟨1700003600, 0⟩, [0, 0, 0, 0], 9000⟩).config.SendQueue.length = 1 :=
  have h := C12_future_timestamp_accepted sampleEnv emptyWorld (sampleFrame VERSION REQUEST)
    ⟨1, ⟨1700003600, 0⟩, [0, 0, 0, 0], 9000⟩ rfl rfl (by decide) (by decide)
  ⟨by decide, h.2.1, by rw [h.2.2]; rfl⟩

/-- The result of time.Now().Round(time.Second) is a whole second. -/
theorem nowRounded_nsec (env : Env) : (nowRounded env).nsec = 0 := by
  unfold nowRounded
  split <;> rfl

/-- For a clock reading whose nanoseconds lie within the second, the result of
time.Now().Round(time.Second) is the whole second nearest to the reading: it is
at most half a second after it and less than half a second before it. -/
theorem nowRounded_nearest (env : Env) (hns : env.now.nsec < 1000000000) :
    nowRounded env = nearestSecond env.now
    ∧ (nowRounded env).nanos - 500000000 ≤ env.now.nanos
    ∧ env.now.nanos < (nowRounded env).nanos + 500000000 := by
  unfold nowRounded nearestSecond timeUnix Time.nanos
  split
  · refine ⟨?_, ?_, ?_⟩
    · simp only [Time.mk.injEq, and_true]
      omega
    · simp only [Nat.cast_zero, add_zero]
      omega
    · simp only [Nat.cast_zero, add_zero]
      omega
  · refine ⟨?_, ?_, ?_⟩
    · simp only [Time.mk.injEq, and_true]
      omega
    · simp only [Nat.cast_zero, add_zero]
      omega
    · simp only [Nat.cast_zero, add_zero]
      omega

/-- C13: for a VERSION frame that passes the type, version and time tests,
(a) an address whose bytes are all zero leaves the peer table unchanged and the
peer connected; (b) a non-zero address whose string form differs from the one the
transport sees for the peer disconnects the peer, with the peer table unchanged
and no frame enqueued; (c) otherwise the entry keyed "IP:Port" becomes
{IP, Port, now rounded to the second}, every other key keeps its entry and the
peer stays connected.  The LastSeen of the entry is a whole second and, the
nanoseconds of the clock reading lying within the second, it is the whole second
nearest to the reading: at most half a second after it and less than half a
second before it. -/
theorem C13_backbone_admission (env : Env) (w : World C) (frame : Frame) (version : Version)
    (hkind : ¬ frame.Header.Typ = BROADCAST)
    (hver : version.Version = env.LOCAL_VERSION)
    (htime : tooFarOff (timeSince env version.Timestamp) = false) :
    ((∀ b ∈ version.IpAddress, b = 0) →
      (fVERSION env w frame version).config.NodeList = w.config.NodeList
      ∧ (fVERSION env w frame version).killed = w.killed)
    ∧ ((∃ b ∈ version.IpAddress, b ≠ 0) →
        env.ipString version.IpAddress ≠ env.ipString (env.peerIP frame.Peer) →
      (fVERSION env w frame version).killed = w.killed ++ [frame.Peer]
      ∧ (fVERSION env w frame version).config.NodeList = w.config.NodeList
      ∧ (fVERSION env w frame version).config.SendQueue = w.config.SendQueue)
    ∧ ((∃ b ∈ version.IpAddress, b ≠ 0) →
        env.ipString version.IpAddress = env.ipString (env.peerIP frame.Peer) →
      mapGet (fVERSION env w frame version).config.NodeList
          (hostPort env version.IpAddress version.Port)
        = some ⟨version.IpAddress, version.Port, nowRounded env⟩
      ∧ (∀ key, key ≠ hostPort env version.IpAddress version.Port →
          mapGet (fVERSION env w frame version).config.NodeList key
            = mapGet w.config.NodeList key)
      ∧ (fVERSION env w frame version).killed = w.killed
      ∧ (∀ node : Node,
          mapGet (fVERSION env w frame version).config.NodeList
              (hostPort env version.IpAddress version.Port) = some node →
          node.IP = version.IpAddress ∧ node.Port = version.Port
          ∧ node.LastSeen.nsec = 0
          ∧ (env.now.nsec < 1000000000 →
              node.LastSeen = nearestSecond env.now
              ∧ node.LastSeen.nanos - 500000000 ≤ env.now.nanos
              ∧ env.now.nanos < node.LastSeen.nanos + 500000000))) := by
  have hseen : ∀ node : Node,
      some (⟨version.IpAddress, version.Port, nowRounded env⟩ : Node) = some node →
      node.IP = version.IpAddress ∧ node.Port = version.Port
      ∧ node.LastSeen.nsec = 0
      ∧ (env.now.nsec < 1000000000 →
          node.LastSeen = nearestSecond env.now
          ∧ node.LastSeen.nanos - 500000000 ≤ env.now.nanos
          ∧ env.now.nanos < node.LastSeen.nanos + 500000000) := by
    intro node hnode
    simp only [Option.some.injEq] at hnode
    subst hnode
    exact ⟨rfl, rfl, nowRounded_nsec env, fun hns => nowRounded_nearest env hns⟩
  refine ⟨fun hz => ?_, fun hnz hne => ?_, fun hnz heq => ?_⟩
  · have hb : version.IpAddress.any (fun b => b ≠ 0) = false := by
      rw [Bool.eq_false_iff]
      intro h
      obtain ⟨b, hb, hb0⟩ := List.any_eq_true.mp h
      simp [hz b hb] at hb0
    unfold fVERSION
    rw [if_neg hkind, if_neg (by simp [hver])]
    simp only [htime, hb, Bool.false_eq_true, false_and, if_false]
    split <;> exact ⟨rfl, rfl⟩
  · have hb : version.IpAddress.any (fun b => b ≠ 0) = true := by
      obtain ⟨b, hb, hb0⟩ := hnz
      exact List.any_eq_true.mpr ⟨b, hb, by simpa using hb0⟩
    unfold fVERSION
    rw [if_neg hkind, if_neg (by simp [hver])]
    simp only [htime, hb, Bool.false_eq_true, if_false, true_and, ne_eq, hne, not_false_eq_true,
      if_true]
    exact ⟨rfl, rfl, rfl⟩
  · have hb : version.IpAddress.any (fun b => b ≠ 0) = true := by
      obtain ⟨b, hb, hb0⟩ := hnz
      exact List.any_eq_true.mpr ⟨b, hb, by simpa using hb0⟩
    unfold fVERSION
    rw [if_neg hkind, if_neg (by simp [hver])]
    simp only [htime, hb, Bool.false_eq_true, if_false, true_and, ne_eq, heq, not_true_eq_false,
      if_true]
    split
    · refine ⟨mapGet_mapSet_self _ _ _, fun key hk => mapGet_mapSet_ne _ _ _ _ hk, rfl, ?_⟩
      intro node hnode
      apply hseen node
      rw [← hnode]
      exact (mapGet_mapSet_self _ _ _).symm
    · refine ⟨mapGet_mapSet_self _ _ _, fun key hk => mapGet_mapSet_ne _ _ _ _ hk, rfl, ?_⟩
      intro node hnode
      apply hseen node
      rw [← hnode]
      exact (mapGet_mapSet_self _ _ _).symm

theorem C13_backbone_admission_witness :
    (∃ b ∈ ([10, 0, 0, 1] : List Byte), b ≠ 0)
    ∧ mapGet (fVERSION lanEnv emptyWorld (sampleFrame VERSION REQUEST)
          ⟨1, ⟨1700000000, 0⟩, [10, 0, 0, 1], 9000⟩).config.NodeList "10.0.0.1:9000"
        = some ⟨[10, 0, 0, 1], 9000, ⟨1700000000, 0⟩⟩
    ∧ (fVERSION lanEnv emptyWorld (sampleFrame VERSION REQUEST)
          ⟨1, ⟨1700000000, 0⟩, [10, 0, 0, 2], 9000⟩).killed = ["10.0.0.7:4444"]
    ∧ (fVERSION lanEnv emptyWorld (sampleFrame VERSION REQUEST)
          ⟨1, ⟨1700000000, 0⟩, [0, 0, 0, 0], 9000⟩).config.NodeList = []
    ∧ lateEnv.now = ⟨1700000000, 700000000⟩
    ∧ mapGet (fVERSION lateEnv emptyWorld (sampleFrame VERSION REQUEST)
          ⟨1, ⟨1700000000, 0⟩, [10, 0, 0, 1], 9000⟩).config.NodeList "10.0.0.1:9000"
        = some ⟨[10, 0, 0, 1], 9000, ⟨1700000001, 0⟩⟩
    ∧ (∀ node : Node,
        mapGet (fVERSION lateEnv emptyWorld (sampleFrame VERSION REQUEST)
          ⟨1, ⟨1700000000, 0⟩, [10, 0, 0, 1], 9000⟩).config.NodeList "10.0.0.1:9000"
          = some node →
        node.LastSeen = ⟨1700000001, 0⟩) :=
  have h1 := (C13_backbone_admission lanEnv emptyWorld (sampleFrame VERSION REQUEST)
    ⟨1, ⟨1700000000, 0⟩, [10, 0, 0, 1], 9000⟩ (by decide) rfl (by decide)).2.2
    ⟨10, by decide, by decide⟩ (by decide)
  have h2 := (C13_backbone_admission lanEnv emptyWorld (sampleFrame VERSION REQUEST)
    ⟨1, ⟨1700000000, 0⟩, [10, 0, 0, 2], 9000⟩ (by decide) rfl (by decide)).2.1
    ⟨10, by decide, by decide⟩ (by decide)
  have h3 := (C13_backbone_admission lanEnv emptyWorld (sampleFrame VERSION REQUEST)
    ⟨1, ⟨1700000000, 0⟩, [0, 0, 0, 0], 9000⟩ (by decide) rfl (by decide)).1 (by simp)
  have h4 := (C13_backbone_admission lateEnv emptyWorld (sampleFrame VERSION REQUEST)
    ⟨1, ⟨1700000000, 0⟩, [10, 0, 0, 1], 9000⟩ (by decide) rfl (by decide)).2.2
    ⟨10, by decide, by decide⟩ (by decide)
  ⟨⟨10, by decide, by decide⟩, h1.1, h2.1, h3.1, rfl, h4.1.trans (by decide),
    fun node hnode => ((h4.2.2.2 node hnode).2.2.2 (by decide)).1.trans (by decide)⟩

end VersionHandshake


/-! ## Peer-list merge (C14, C15) -/

section PeerMerge

variable {C : Type}

theorem mem_ne_of_mapGet_none {K V : Type} [DecidableEq K] (m : List (K × V)) (k : K)
    (h : mapGet m k = none) : ∀ e ∈ m, e.1 ≠ k := by
  intro e he hk
  unfold mapGet at h
  rw [Option.map_eq_none', List.find?_eq_none] at h
  exact h e he (by simpa using hk)

theorem mapSet_absent {K V : Type} [DecidableEq K] (m : List (K × V)) (k : K) (v : V)
    (h : mapGet m k = none) : mapSet m k v = m ++ [(k, v)] := by
  unfold mapSet
  congr 1
  rw [List.filter_eq_self]
  intro e he
  simpa using mem_ne_of_mapGet_none m k h e he

theorem mapGet_append_singleton_ne {K V : Type} [DecidableEq K] (m : List (K × V)) (k k2 : K)
    (v : V) (hne : k2 ≠ k) : mapGet (m ++ [(k, v)]) k2 = mapGet m k2 := by
  unfold mapGet
  rw [List.find?_append]
  have h2 : [(k, v)].find? (fun e => decide (e.1 = k2)) = none := by
    simp [List.find?_cons, Ne.symm hne]
  rw [h2]
  simp

theorem mapGet_append_of_some {K V : Type} [DecidableEq K] (m m2 : List (K × V)) (k : K) (v : V)
    (h : mapGet m k = some v) : mapGet (m ++ m2) k = some v := by
  unfold mapGet at h ⊢
  rw [List.find?_append]
  cases hf : m.find? (fun e => decide (e.1 = k)) with
  | none => rw [hf] at h; simp at h
  | some e => rw [hf] at h; simpa using h

theorem mergeNode_admitted (env : Env) (w : World C) (e : String × Node)
    (hip : env.ipString e.2.IP ≠ env.ipString w.config.LocalVersion.IpAddress)
    (habs : mapGet w.config.NodeList e.1 = none) :
    mergeNode env w e = admitEntries env w [e] := by
  unfold mergeNode admitEntries
  simp only [if_neg hip, habs, mapSet_absent _ _ _ habs, World.send, MakeFrame, List.map_cons,
    List.map_nil]

theorem mergeNode_skipped (env : Env) (w : World C) (e : String × Node)
    (h : ¬ (env.ipString e.2.IP ≠ env.ipString w.config.LocalVersion.IpAddress
        ∧ mapGet w.config.NodeList e.1 = none)) :
    mergeNode env w e = w := by
  unfold mergeNode
  by_cases hip : env.ipString e.2.IP = env.ipString w.config.LocalVersion.IpAddress
  · rw [if_pos hip]
  · rw [if_neg hip]
    cases hg : mapGet w.config.NodeList e.1 with
    | none => exact absurd ⟨hip, hg⟩ h
    | some v => rfl

theorem admitEntries_nil (env : Env) (w : World C) : admitEntries env w [] = w := by
  unfold admitEntries
  simp

theorem admitEntries_cons (env : Env) (w : World C) (e : String × Node)
    (rest : List (String × Node)) :
    admitEntries env (admitEntries env w [e]) rest = admitEntries env w (e :: rest) := by
  unfold admitEntries
  simp [List.append_assoc]

/-- The merge loop of fPEER on a list with distinct keys admits exactly the
entries that the merge of the spec admits into the table before the loop. -/
theorem merge_fold (env : Env) (nodes : List (String × Node)) :
    ∀ w : World C, (nodes.map Prod.fst).Nodup →
      nodes.foldl (mergeNode env) w
        = admitEntries env w
            (mergeAdmitted env w.config.LocalVersion.IpAddress w.config.NodeList nodes) := by
  induction nodes with
  | nil =>
    intro w _
    simp [mergeAdmitted, admitEntries_nil]
  | cons e rest ih =>
    intro w hnd
    rw [List.map_cons, List.nodup_cons] at hnd
    obtain ⟨hfresh, hrest⟩ := hnd
    rw [List.foldl_cons]
    by_cases hadm : env.ipString e.2.IP ≠ env.ipString w.config.LocalVersion.IpAddress
        ∧ mapGet w.config.NodeList e.1 = none
    · rw [mergeNode_admitted env w e hadm.1 hadm.2, ih _ hrest]
      have hsame : mergeAdmitted env (admitEntries env w [e]).config.LocalVersion.IpAddress
          (admitEntries env w [e]).config.NodeList rest
          = mergeAdmitted env w.config.LocalVersion.IpAddress w.config.NodeList rest := by
        unfold mergeAdmitted
        apply List.filter_congr
        intro x hx
        have hne : x.1 ≠ e.1 := by
          intro heq
          exact hfresh (heq ▸ List.mem_map_of_mem Prod.fst hx)
        have : mapGet (admitEntries env w [e]).config.NodeList x.1
            = mapGet w.config.NodeList x.1 := by
          show mapGet (w.config.NodeList ++ [e]) x.1 = _
          exact mapGet_append_singleton_ne _ e.1 x.1 e.2 hne
        rw [this]
        rfl
      rw [hsame, admitEntries_cons]
      congr 1
      unfold mergeAdmitted
      rw [List.filter_cons]
      simp [hadm.1, hadm.2]
    · rw [mergeNode_skipped env w e hadm, ih _ hrest]
      congr 1
      unfold mergeAdmitted
      rw [List.filter_cons]
      have : (decide (env.ipString e.2.IP ≠ env.ipString w.config.LocalVersion.IpAddress)
          && (mapGet w.config.NodeList e.1).isNone) = false := by
        rw [Bool.eq_false_iff]
        intro h
        simp only [Bool.and_eq_true, decide_eq_true_eq, Option.isNone_iff_eq_none] at h
        exact hadm h
      rw [this]
      rfl

/-- The world that fPEER reaches on a frame that is not a broadcast. -/
theorem fPEER_eq (env : Env) (w : World C) (frame : Frame) (nodes : List (String × Node))
    (hkind : ¬ frame.Header.Typ = BROADCAST) (hkeys : (nodes.map Prod.fst).Nodup) :
    fPEER env w frame (some nodes)
      = admitEntries env
          (w.send (if frame.Header.Typ = REQUEST then
              MakeFrame PEER REPLY (NodeListGetBytes w.config.NodeList)
            else MakeFrame OBJ REQUEST (ObjGetBytes (ObjList w.db))) frame.Peer)
          (mergeAdmitted env w.config.LocalVersion.IpAddress w.config.NodeList nodes) := by
  unfold fPEER
  rw [if_neg hkind]
  simp only []
  rw [merge_fold env nodes _ hkeys]
  rfl

/-- C14: on a PEER frame of type REQUEST or REPLY, the merge loop of fPEER inserts
an entry (key, node) of the incoming list (a map, so its keys are distinct) if and
only if the address of the node differs from the local address and the key is
absent from the peer table; each inserted entry gives exactly one connection
request {IP, Port} on PeerQueue and exactly one VERSION/REQUEST frame addressed to
"IP:Port" of the node, after the one reply to the sender; entries already present
keep their value and no inserted entry has the local address. -/
theorem C14_peer_list_merge (env : Env) (w : World C) (frame : Frame)
    (nodes : List (String × Node))
    (hkind : frame.Header.Typ = REQUEST ∨ frame.Header.Typ = REPLY)
    (hkeys : (nodes.map Prod.fst).Nodup) :
    (fPEER env w frame (some nodes)).config.NodeList
        = w.config.NodeList
          ++ mergeAdmitted env w.config.LocalVersion.IpAddress w.config.NodeList nodes
    ∧ (∀ e, e ∈ mergeAdmitted env w.config.LocalVersion.IpAddress w.config.NodeList nodes
        ↔ e ∈ nodes ∧ env.ipString e.2.IP ≠ env.ipString w.config.LocalVersion.IpAddress
          ∧ mapGet w.config.NodeList e.1 = none)
    ∧ (fPEER env w frame (some nodes)).config.PeerQueue
        = w.config.PeerQueue
          ++ (mergeAdmitted env w.config.LocalVersion.IpAddress w.config.NodeList nodes).map
              (fun e => (⟨e.2.IP, e.2.Port⟩ : Peer))
    ∧ (fPEER env w frame (some nodes)).config.SendQueue
        = w.config.SendQueue
          ++ [{ (if frame.Header.Typ = REQUEST then
                  MakeFrame PEER REPLY (NodeListGetBytes w.config.NodeList)
                else MakeFrame OBJ REQUEST (ObjGetBytes (ObjList w.db))) with
                Peer := frame.Peer }]
          ++ (mergeAdmitted env w.config.LocalVersion.IpAddress w.config.NodeList nodes).map
              (fun e => (⟨⟨VERSION, REQUEST, (VersionGetBytes w.config.LocalVersion).length⟩,
                VersionGetBytes w.config.LocalVersion, hostPort env e.2.IP e.2.Port⟩ : Frame))
    ∧ (∀ key v, mapGet w.config.NodeList key = some v →
        mapGet (fPEER env w frame (some nodes)).config.NodeList key = some v)
    ∧ (∀ e ∈ mergeAdmitted env w.config.LocalVersion.IpAddress w.config.NodeList nodes,
        env.ipString e.2.IP ≠ env.ipString w.config.LocalVersion.IpAddress) := by
  have hmem : ∀ e, e ∈ mergeAdmitted env w.config.LocalVersion.IpAddress w.config.NodeList nodes
      ↔ e ∈ nodes ∧ env.ipString e.2.IP ≠ env.ipString w.config.LocalVersion.IpAddress
        ∧ mapGet w.config.NodeList e.1 = none := by
    intro e
    unfold mergeAdmitted
    rw [List.mem_filter]
    simp only [Bool.and_eq_true, decide_eq_true_eq, Option.isNone_iff_eq_none]
  rw [fPEER_eq env w frame nodes (not_broadcast_of_kind frame hkind) hkeys]
  refine ⟨rfl, hmem, rfl, rfl, fun key v hv => ?_, fun e he => ((hmem e).mp he).2.1⟩
  exact mapGet_append_of_some _ _ key v hv

theorem C14_peer_list_merge_witness :
    (fPEER lanEnv lanWorld (sampleFrame PEER REQUEST)
        (some [("10.0.0.1:7000", ⟨[10, 0, 0, 1], 7000, ⟨0, 0⟩⟩),
               ("10.0.0.2:7000", ⟨[10, 0, 0, 2], 7000, ⟨0, 0⟩⟩)])).config.NodeList
      = [("10.0.0.2:7000", ⟨[10, 0, 0, 2], 7000, ⟨0, 0⟩⟩)]
    ∧ (fPEER lanEnv lanWorld (sampleFrame PEER REQUEST)
        (some [("10.0.0.1:7000", ⟨[10, 0, 0, 1], 7000, ⟨0, 0⟩⟩),
               ("10.0.0.2:7000", ⟨[10, 0, 0, 2], 7000, ⟨0, 0⟩⟩)])).config.PeerQueue
      = [⟨[10, 0, 0, 2], 7000⟩] :=
  have h := C14_peer_list_merge lanEnv lanWorld (sampleFrame PEER REQUEST)
    [("10.0.0.1:7000", ⟨[10, 0, 0, 1], 7000, ⟨0, 0⟩⟩),
     ("10.0.0.2:7000", ⟨[10, 0, 0, 2], 7000, ⟨0, 0⟩⟩)] (Or.inl rfl) (by decide)
  ⟨h.1.trans (by decide), h.2.2.1.trans (by decide)⟩

/-- The merge of fPEER keeps the peer table free of entries with the local address. -/
theorem fPEER_keeps_no_local_entry (env : Env) (w : World C) (frame : Frame)
    (nodes : List (String × Node))
    (hkind : frame.Header.Typ = REQUEST ∨ frame.Header.Typ = REPLY)
    (hkeys : (nodes.map Prod.fst).Nodup)
    (hinv : NoLocalEntry env w.config.LocalVersion.IpAddress w.config.NodeList) :
    NoLocalEntry env (fPEER env w frame (some nodes)).config.LocalVersion.IpAddress
      (fPEER env w frame (some nodes)).config.NodeList := by
  rw [fPEER_eq env w frame nodes (not_broadcast_of_kind frame hkind) hkeys]
  intro e he
  have he2 : e ∈ w.config.NodeList
      ++ mergeAdmitted env w.config.LocalVersion.IpAddress w.config.NodeList nodes := he
  rcases List.mem_append.mp he2 with h | h
  · exact hinv e h
  · unfold mergeAdmitted at h
    have := (List.mem_filter.mp h).2
    simp only [Bool.and_eq_true, decide_eq_true_eq] at this
    exact this.1

/-- C15 at its failing input: the peer table of a node at 10.0.0.1 is empty; a
VERSION/REQUEST that passes all tests and reports the address 10.0.0.1, which is
also the address the transport sees for the peer, makes fVERSION store an entry
with the local address. -/
theorem C15_fVERSION_stores_local_address :
    NoLocalEntry lanEnv lanWorld.config.LocalVersion.IpAddress lanWorld.config.NodeList
    ∧ (fVERSION lanEnv lanWorld (sampleFrame VERSION REQUEST)
        ⟨1, ⟨1700000000, 0⟩, [10, 0, 0, 1], 5555⟩).config.NodeList
      = [("10.0.0.1:5555", ⟨[10, 0, 0, 1], 5555, ⟨1700000000, 0⟩⟩)]
    ∧ (fVERSION lanEnv lanWorld (sampleFrame VERSION REQUEST)
        ⟨1, ⟨1700000000, 0⟩, [10, 0, 0, 1], 5555⟩).config.LocalVersion.IpAddress
      = [10, 0, 0, 1]
    ∧ ¬ NoLocalEntry lanEnv
        (fVERSION lanEnv lanWorld (sampleFrame VERSION REQUEST)
          ⟨1, ⟨1700000000, 0⟩, [10, 0, 0, 1], 5555⟩).config.LocalVersion.IpAddress
        (fVERSION lanEnv lanWorld (sampleFrame VERSION REQUEST)
          ⟨1, ⟨1700000000, 0⟩, [10, 0, 0, 1], 5555⟩).config.NodeList := by
  have h1 : (fVERSION lanEnv lanWorld (sampleFrame VERSION REQUEST)
        ⟨1, ⟨1700000000, 0⟩, [10, 0, 0, 1], 5555⟩).config.NodeList
      = [("10.0.0.1:5555", ⟨[10, 0, 0, 1], 5555, ⟨1700000000, 0⟩⟩)] := by decide
  have h2 : (fVERSION lanEnv lanWorld (sampleFrame VERSION REQUEST)
        ⟨1, ⟨1700000000, 0⟩, [10, 0, 0, 1], 5555⟩).config.LocalVersion.IpAddress
      = [10, 0, 0, 1] := by decide
  refine ⟨fun e he => absurd he (List.not_mem_nil e), h1, h2, fun hinv => ?_⟩
  rw [h1, h2] at hinv
  exact hinv ("10.0.0.1:5555", ⟨[10, 0, 0, 1], 5555, ⟨1700000000, 0⟩⟩)
    (List.mem_singleton.mpr rfl) rfl

end PeerMerge


/-! ## Object lists and object requests (C16 to C18) -/

section Objects

variable {C : Type}

/-- The loop of fOBJ never touches the store and appends the frames that the
hash list calls for. -/
theorem askObject_fold (frame : Frame) (hashes : List Hash) :
    ∀ w : World C,
      hashes.foldl (askObject frame) w
        = { w with config := { w.config with
              SendQueue := w.config.SendQueue ++ objRequests w.db frame.Peer hashes } } := by
  induction hashes with
  | nil =>
    intro w
    simp [objRequests]
  | cons h rest ih =>
    intro w
    rw [List.foldl_cons, ih]
    unfold askObject objRequests
    rw [List.filterMap_cons]
    cases hk : Contains w.db h <;>
      simp [hk, World.send, MakeFrame, Hash.GetBytes, List.append_assoc]

/-- C16: on an OBJ frame of type REQUEST or REPLY, fOBJ first enqueues, for a
REQUEST only, exactly one OBJ/REPLY with the local object list; then, for each hash
of the list in order, one GETOBJ/REQUEST with the hash when it is NOTFOUND, one
CHECKTXID/REQUEST with the hash when it is MSG, and nothing for the other kinds;
every enqueued frame has the peer of the inbound frame, and the store and
everything else stay as they were. -/
theorem C16_fOBJ_requests (w : World C) (frame : Frame) (obj : List Hash)
    (hkind : frame.Header.Typ = REQUEST ∨ frame.Header.Typ = REPLY) :
    (frame.Header.Typ = REQUEST →
      (fOBJ w frame obj).config.SendQueue
        = w.config.SendQueue
          ++ [⟨⟨OBJ, REPLY, (ObjGetBytes (ObjList w.db)).length⟩, ObjGetBytes (ObjList w.db),
               frame.Peer⟩]
          ++ objRequests w.db frame.Peer obj)
    ∧ (frame.Header.Typ = REPLY →
      (fOBJ w frame obj).config.SendQueue
        = w.config.SendQueue ++ objRequests w.db frame.Peer obj)
    ∧ (∀ f ∈ (fOBJ w frame obj).config.SendQueue, f ∈ w.config.SendQueue ∨ f.Peer = frame.Peer)
    ∧ (fOBJ w frame obj).db = w.db
    ∧ (fOBJ w frame obj).killed = w.killed
    ∧ (fOBJ w frame obj).config.NodeList = w.config.NodeList := by
  have hb := not_broadcast_of_kind frame hkind
  have hpeer : ∀ f ∈ objRequests w.db frame.Peer obj, f.Peer = frame.Peer := by
    intro f hf
    unfold objRequests at hf
    obtain ⟨h, -, hh⟩ := List.mem_filterMap.mp hf
    cases hk : Contains w.db h <;> rw [hk] at hh <;> simp at hh <;> rw [← hh]
  rcases hkind with hq | hr
  · have hw : fOBJ w frame obj
        = { w with config := { w.config with
              SendQueue := w.config.SendQueue
                ++ [⟨⟨OBJ, REPLY, (ObjGetBytes (ObjList w.db)).length⟩,
                     ObjGetBytes (ObjList w.db), frame.Peer⟩]
                ++ objRequests w.db frame.Peer obj } } := by
      unfold fOBJ
      rw [if_neg hb, if_pos hq]
      simp only []
      rw [askObject_fold]
      rfl
    rw [hw]
    refine ⟨fun _ => rfl, fun hr => ?_, fun f hf => ?_, rfl, rfl, rfl⟩
    · rw [hq] at hr
      exact absurd hr (by decide)
    · rcases List.mem_append.mp hf with h1 | h1
      · rcases List.mem_append.mp h1 with h2 | h2
        · exact Or.inl h2
        · right
          rw [List.mem_singleton.mp h2]
      · exact Or.inr (hpeer f h1)
  · have hnq : ¬ frame.Header.Typ = REQUEST := by
      rw [hr]
      decide
    have hw : fOBJ w frame obj
        = { w with config := { w.config with
              SendQueue := w.config.SendQueue ++ objRequests w.db frame.Peer obj } } := by
      unfold fOBJ
      rw [if_neg hb, if_neg hnq]
      simp only []
      rw [askObject_fold]
    rw [hw]
    refine ⟨fun hq => absurd hq hnq, fun _ => rfl, fun f hf => ?_, rfl, rfl, rfl⟩
    rcases List.mem_append.mp hf with h1 | h1
    · exact Or.inl h1
    · exact Or.inr (hpeer f h1)

theorem C16_fOBJ_requests_witness :
    (fOBJ emptyWorld (sampleFrame OBJ REQUEST) [Hash.zero]).config.SendQueue
      = [⟨⟨OBJ, REPLY, 4⟩, [0, 0, 0, 0], "10.0.0.7:4444"⟩,
         ⟨⟨GETOBJ, REQUEST, 48⟩, List.replicate 48 0, "10.0.0.7:4444"⟩]
    ∧ (fOBJ (worldHolding Hash.zero) (sampleFrame OBJ REPLY) [Hash.zero]).config.SendQueue
      = [⟨⟨CHECKTXID, REQUEST, 48⟩, List.replicate 48 0, "10.0.0.7:4444"⟩]
    ∧ (fOBJ worldPurged (sampleFrame OBJ REPLY) [Hash.zero]).config.SendQueue = [] :=
  ⟨((C16_fOBJ_requests emptyWorld (sampleFrame OBJ REQUEST) [Hash.zero] (Or.inl rfl)).1
      rfl).trans (by decide),
   ((C16_fOBJ_requests (worldHolding Hash.zero) (sampleFrame OBJ REPLY) [Hash.zero]
      (Or.inr rfl)).2.1 rfl).trans (by decide),
   ((C16_fOBJ_requests worldPurged (sampleFrame OBJ REPLY) [Hash.zero]
      (Or.inr rfl)).2.1 rfl).trans (by decide)⟩

theorem GetMessage_stored [ContentCodec C] (env : Env) (idx : List (Hash × Kind)) (db : Backend)
    (m : Message C) (hf : db.failing = false)
    (hk : mapGet idx m.TxidHash = some Kind.MSG)
    (hrow : db.msg.find? (fun r => r.hash = m.TxidHash.bytes)
      = some ⟨m.TxidHash.bytes, m.AddrHash.bytes, m.Timestamp.Unix,
          ContentCodec.GetBytes m.Content⟩) :
    (GetMessage env ⟨some idx, some db⟩ m.TxidHash : Option (Message C))
      = some ⟨m.AddrHash, m.TxidHash, timeUnix m.Timestamp.Unix,
          ContentCodec.FromBytes ContentCodec.zero (ContentCodec.GetBytes m.Content)⟩ := by
  unfold GetMessage
  simp only [hashListIs_of_mapGet env idx m.TxidHash Kind.MSG _ hk, Backend.queryMsg, hf,
    Hash.GetBytes, hrow, Message.zero, Hash.FromBytes_bytes]
  simp [Hash.FromBytes_bytes]

/-- The serialisation of a message read back from its row is the serialisation
of the message, when the content bytes survive the content codec. -/
theorem Message.GetBytes_readBack [ContentCodec C] (m : Message C)
    (hcodec : ContentCodec.GetBytes
        (ContentCodec.FromBytes (ContentCodec.zero : C) (ContentCodec.GetBytes m.Content))
      = ContentCodec.GetBytes m.Content) :
    Message.GetBytes (some (⟨m.AddrHash, m.TxidHash, timeUnix m.Timestamp.Unix,
        ContentCodec.FromBytes ContentCodec.zero (ContentCodec.GetBytes m.Content)⟩ : Message C))
      = Message.GetBytes (some m) := by
  simp only [Message.GetBytes, hcodec, Time.Unix, timeUnix]

/-- C17: on a GETOBJ/REQUEST for h, with the store initialised, its backend
answering and the table of the kind holding the object under h, fGETOBJ enqueues
exactly one reply to the peer of the frame: PUBKEY/REPLY with the stored pubkey
when h is PUBKEY, PURGE/REPLY with the stored purge when PURGE, MSG/REPLY with the
stored message (as read back from its row) when MSG, PUBKEY_REQUEST/REPLY with h
when PUBKEYRQ, GETOBJ/REPLY with no payload when NOTFOUND; the store is unchanged
in every case. -/
theorem C17_fGETOBJ_replies [ContentCodec C] (env : Env) (w : World C) (frame : Frame)
    (h : Hash) (idx : List (Hash × Kind)) (db : Backend)
    (hidx : w.db.hashList = some idx) (hdb : w.db.dbConn = some db)
    (hf : db.failing = false) (hkind : frame.Header.Typ = REQUEST) :
    (∀ pk : EncryptedPubkey, pk.AddrHash = h → Contains w.db h = Kind.PUBKEY →
      db.pubkey.find? (fun r => r.hash = h.bytes) = some ⟨h.bytes, pk.IV.bytes ++ pk.Payload⟩ →
      (fGETOBJ env w frame h).config.SendQueue
        = w.config.SendQueue ++ [⟨⟨PUBKEY, REPLY, (EncryptedPubkey.GetBytes (some pk)).length⟩,
            EncryptedPubkey.GetBytes (some pk), frame.Peer⟩])
    ∧ (∀ p : Purge, Contains w.db h = Kind.PURGE →
      db.purge.find? (fun r => r.hash = h.bytes) = some ⟨h.bytes, Purge.GetBytes (some p)⟩ →
      (fGETOBJ env w frame h).config.SendQueue
        = w.config.SendQueue ++ [⟨⟨PURGE, REPLY, (Purge.GetBytes (some p)).length⟩,
            Purge.GetBytes (some p), frame.Peer⟩])
    ∧ (∀ m : Message C, m.TxidHash = h → Contains w.db h = Kind.MSG →
      db.msg.find? (fun r => r.hash = h.bytes)
        = some ⟨h.bytes, m.AddrHash.bytes, m.Timestamp.Unix, ContentCodec.GetBytes m.Content⟩ →
      (fGETOBJ env w frame h).config.SendQueue
        = w.config.SendQueue ++ [⟨⟨MSG, REPLY,
            (Message.GetBytes (some (⟨m.AddrHash, m.TxidHash, timeUnix m.Timestamp.Unix,
              ContentCodec.FromBytes ContentCodec.zero (ContentCodec.GetBytes m.Content)⟩ :
                Message C))).length⟩,
            Message.GetBytes (some (⟨m.AddrHash, m.TxidHash, timeUnix m.Timestamp.Unix,
              ContentCodec.FromBytes ContentCodec.zero (ContentCodec.GetBytes m.Content)⟩ :
                Message C)), frame.Peer⟩]
      ∧ (ContentCodec.GetBytes
            (ContentCodec.FromBytes (ContentCodec.zero : C) (ContentCodec.GetBytes m.Content))
          = ContentCodec.GetBytes m.Content →
        (fGETOBJ env w frame h).config.SendQueue
          = w.config.SendQueue ++ [⟨⟨MSG, REPLY, (Message.GetBytes (some m)).length⟩,
              Message.GetBytes (some m), frame.Peer⟩]))
    ∧ (Contains w.db h = Kind.PUBKEYRQ →
      (fGETOBJ env w frame h).config.SendQueue
        = w.config.SendQueue ++ [⟨⟨PUBKEY_REQUEST, REPLY, 48⟩, h.bytes, frame.Peer⟩])
    ∧ (Contains w.db h = Kind.NOTFOUND →
      (fGETOBJ env w frame h).config.SendQueue
        = w.config.SendQueue ++ [⟨⟨GETOBJ, REPLY, 0⟩, [], frame.Peer⟩])
    ∧ (fGETOBJ env w frame h).db = w.db := by
  have hs := Store.eq_of_working w.db idx db hidx hdb
  have hb : ¬ frame.Header.Typ = BROADCAST := by
    rw [hkind]
    decide
  refine ⟨fun pk hpk hk hrow => ?_, fun p hk hrow => ?_, fun m hm hk hrow => ?_,
    fun hk => ?_, fun hk => ?_, ?_⟩
  · subst hpk
    have hg := GetPubkey_stored env idx db pk hf
      (mapGet_of_Contains idx (some db) pk.AddrHash Kind.PUBKEY (by rw [← hs]; exact hk)
        (by decide)) hrow
    rw [← hs] at hg
    unfold fGETOBJ
    rw [if_neg hb, if_pos hkind]
    simp only [hk, hg]
    rfl
  · have hg := GetPurge_stored env idx db h (Purge.GetBytes (some p)) hf
      (by rw [← hs]; exact hk) hrow
    rw [← hs, Purge.FromBytes_GetBytes] at hg
    unfold fGETOBJ
    rw [if_neg hb, if_pos hkind]
    simp only [hk, hg]
    rfl
  · subst hm
    have hg := GetMessage_stored env idx db m hf
      (mapGet_of_Contains idx (some db) m.TxidHash Kind.MSG (by rw [← hs]; exact hk)
        (by decide)) hrow
    rw [← hs] at hg
    have hq : (fGETOBJ env w frame m.TxidHash).config.SendQueue
        = w.config.SendQueue ++ [⟨⟨MSG, REPLY,
            (Message.GetBytes (some (⟨m.AddrHash, m.TxidHash, timeUnix m.Timestamp.Unix,
              ContentCodec.FromBytes ContentCodec.zero (ContentCodec.GetBytes m.Content)⟩ :
                Message C))).length⟩,
            Message.GetBytes (some (⟨m.AddrHash, m.TxidHash, timeUnix m.Timestamp.Unix,
              ContentCodec.FromBytes ContentCodec.zero (ContentCodec.GetBytes m.Content)⟩ :
                Message C)), frame.Peer⟩] := by
      unfold fGETOBJ
      rw [if_neg hb, if_pos hkind]
      simp only [hk, hg]
      rfl
    refine ⟨hq, fun hcodec => ?_⟩
    rw [hq, Message.GetBytes_readBack m hcodec]
  · unfold fGETOBJ
    rw [if_neg hb, if_pos hkind]
    simp only [hk, World.send, MakeFrame, Hash.GetBytes, h.len]
  · unfold fGETOBJ
    rw [if_neg hb, if_pos hkind]
    simp only [hk]
    rfl
  · unfold fGETOBJ
    rw [if_neg hb, if_pos hkind]
    cases Contains w.db h <;> simp only [] <;> first | rfl | (split <;> rfl)

theorem C17_fGETOBJ_replies_witness :
    (fGETOBJ sampleEnv worldPurged (sampleFrame GETOBJ REQUEST) Hash.zero).config.SendQueue
      = [⟨⟨PURGE, REPLY, 16⟩, List.replicate 16 0, "10.0.0.7:4444"⟩]
    ∧ (fGETOBJ sampleEnv (worldHolding Hash.zero) (sampleFrame GETOBJ REQUEST)
        Hash.zero).config.SendQueue
      = [⟨⟨MSG, REPLY, 104⟩, List.replicate 104 0, "10.0.0.7:4444"⟩]
    ∧ (fGETOBJ sampleEnv emptyWorld (sampleFrame GETOBJ REQUEST) Hash.zero).config.SendQueue
      = [⟨⟨GETOBJ, REPLY, 0⟩, [], "10.0.0.7:4444"⟩] :=
  have h1 := (C17_fGETOBJ_replies sampleEnv worldPurged (sampleFrame GETOBJ REQUEST) Hash.zero
    [(Hash.zero, Kind.PURGE)]
    ⟨[], [⟨Hash.zero.bytes, Purge.GetBytes (some plainPurge)⟩], [], [], false⟩
    rfl rfl rfl rfl).2.1 plainPurge rfl rfl
  have h2 := ((C17_fGETOBJ_replies sampleEnv (worldHolding Hash.zero)
    (sampleFrame GETOBJ REQUEST) Hash.zero [(Hash.zero, Kind.MSG)]
    ⟨[], [], [⟨Hash.zero.bytes, Hash.zero.bytes, 0, []⟩], [], false⟩
    rfl rfl rfl rfl).2.2.1 (⟨Hash.zero, Hash.zero, ⟨0, 0⟩, ⟨[]⟩⟩ : Message RawContent)
    rfl rfl rfl).2 rfl
  have h3 := (C17_fGETOBJ_replies sampleEnv emptyWorld (sampleFrame GETOBJ REQUEST) Hash.zero
    [] ⟨[], [], [], [], false⟩ rfl rfl rfl rfl).2.2.2.2.1 rfl
  ⟨h1.trans (by decide!), h2.trans (by decide!), h3⟩

/-- What fGETOBJ does for a hash held as PUB whose row is, as AddPub leaves it,
in the table pub and not in the table msg: GetMessage finds no row, so nothing is
enqueued and an error line is logged. -/
theorem fGETOBJ_publication [ContentCodec C] (env : Env) (w : World C) (frame : Frame)
    (h : Hash) (idx : List (Hash × Kind)) (db : Backend)
    (hidx : w.db.hashList = some idx) (hdb : w.db.dbConn = some db)
    (hkind : frame.Header.Typ = REQUEST)
    (hk : Contains w.db h = Kind.PUB)
    (hrow : db.msg.find? (fun r => r.hash = h.bytes) = none) :
    (fGETOBJ env w frame h).config.SendQueue = w.config.SendQueue
    ∧ (fGETOBJ env w frame h).config.Log
        = w.config.Log ++ ["Error pulling publication from database!"] := by
  have hs := Store.eq_of_working w.db idx db hidx hdb
  have hb : ¬ frame.Header.Typ = BROADCAST := by
    rw [hkind]
    decide
  have hg : (GetMessage env w.db h : Option (Message C)) = none := by
    have hq : db.queryMsg h.bytes = none := by
      unfold Backend.queryMsg
      split
      · rfl
      · exact hrow
    rw [hs]
    unfold GetMessage
    simp only [Hash.GetBytes, hq]
    split <;> rfl
  unfold fGETOBJ
  rw [if_neg hb, if_pos hkind]
  simp only [hk, hg]
  exact ⟨rfl, rfl⟩

/-- C18 at its failing input: the publication is stored with AddPub on the empty
store (nil returned, hash indexed as PUB, row in the table pub); a GETOBJ/REQUEST
for its TxidHash then makes fGETOBJ enqueue nothing and log an error, because
GetMessage reads the table msg only. -/
theorem C18_publication_not_served :
    (AddPub emptyStore [] samplePub).2.2 = none
    ∧ Contains (AddPub emptyStore [] samplePub).1 samplePub.TxidHash = Kind.PUB
    ∧ (AddPub emptyStore [] samplePub).1.dbConn.map (fun b => b.pub.map MsgRow.hash)
        = some [samplePub.TxidHash.bytes]
    ∧ (fGETOBJ sampleEnv { emptyWorld with db := (AddPub emptyStore [] samplePub).1 }
        (sampleFrame GETOBJ REQUEST) samplePub.TxidHash).config.SendQueue = []
    ∧ (fGETOBJ sampleEnv { emptyWorld with db := (AddPub emptyStore [] samplePub).1 }
        (sampleFrame GETOBJ REQUEST) samplePub.TxidHash).config.Log
        = ["Error pulling publication from database!"] := by
  decide

end Objects


/-! ## Repeated adds and purge inserts (C19, C20) -/

section StoreLaws

variable {C : Type}

theorem hashList_of_Contains (s : Store) (h : Hash) (k : Kind) (hk : Contains s h = k)
    (hne : k ≠ Kind.NOTFOUND) : ∃ idx, s.hashList = some idx ∧ mapGet idx h = some k := by
  cases s with
  | mk hl dbc =>
    cases hl with
    | none =>
      unfold Contains at hk
      exact absurd hk.symm hne
    | some idx => exact ⟨idx, rfl, mapGet_of_Contains idx dbc h k hk hne⟩

/-- A second AddPubkey with the same pubkey returns nil and changes nothing. -/
theorem AddPubkey_twice (s s1 : Store) (log log1 log2 : List String) (pk : EncryptedPubkey)
    (h : AddPubkey s log pk = (s1, log1, none)) :
    AddPubkey s1 log2 pk = (s1, log2, none) := by
  have hk := AddPubkey_none s s1 log log1 pk h
  have hinit : ∃ idx db, s1.hashList = some idx ∧ s1.dbConn = some db := by
    unfold AddPubkey at h
    split at h
    · rename_i idx db hidx hdb
      split at h
      · simp only [Prod.mk.injEq, and_true] at h
        rw [← h.1]
        exact ⟨idx, db, hidx, hdb⟩
      · try dsimp only at h
        generalize Backend.Exec db _ = r at h
        obtain ⟨db1, e⟩ := r
        cases e with
        | some err => simp at h
        | none =>
          simp only [Prod.mk.injEq, and_true] at h
          rw [← h.1]
          simp only [Add, hidx]
          exact ⟨_, _, rfl, rfl⟩
    · simp at h
  obtain ⟨idx, db, hidx, hdb⟩ := hinit
  unfold AddPubkey
  simp only [hidx, hdb, hk, if_true]

/-- A second AddPurge with the same purge returns nil and changes nothing. -/
theorem AddPurge_twice (s s1 : Store) (log log1 log2 : List String) (p : Purge)
    (h : AddPurge s log p = (s1, log1, none)) :
    AddPurge s1 log2 p = (s1, log2, none) := by
  have hk := AddPurge_none s s1 log log1 p h
  have hinit : ∃ idx db, s1.hashList = some idx ∧ s1.dbConn = some db := by
    unfold AddPurge at h
    split at h
    · rename_i idx db hidx hdb
      try dsimp only at h
      split at h
      · simp only [Prod.mk.injEq, and_true] at h
        rw [← h.1]
        exact ⟨idx, db, hidx, hdb⟩
      · generalize Backend.Exec db _ = r at h
        obtain ⟨db1, e⟩ := r
        cases e with
        | some err => simp at h
        | none =>
          simp only [Prod.mk.injEq, and_true] at h
          rw [← h.1]
          simp only [Add, hidx]
          exact ⟨_, _, rfl, rfl⟩
    · simp at h
  obtain ⟨idx, db, hidx, hdb⟩ := hinit
  unfold AddPurge
  simp only [hidx, hdb, AddPurge_hashObj, hk, if_true]

/-- A second AddMessage with the same message returns nil and changes nothing. -/
theorem AddMessage_twice [ContentCodec C] (s s1 : Store) (log log1 log2 : List String)
    (m : Message C) (h : AddMessage s log m = (s1, log1, none)) :
    AddMessage s1 log2 m = (s1, log2, none) := by
  have hk := AddMessage_none s s1 log log1 m h
  have hinit : ∃ idx db, s1.hashList = some idx ∧ s1.dbConn = some db := by
    unfold AddMessage at h
    split at h
    · rename_i idx db hidx hdb
      split at h
      · simp only [Prod.mk.injEq, and_true] at h
        rw [← h.1]
        exact ⟨idx, db, hidx, hdb⟩
      · try dsimp only at h
        generalize Backend.Exec db _ = r at h
        obtain ⟨db1, e⟩ := r
        cases e with
        | some err => simp at h
        | none =>
          simp only [Prod.mk.injEq, and_true] at h
          rw [← h.1]
          simp only [Add, hidx]
          exact ⟨_, _, rfl, rfl⟩
    · simp at h
  obtain ⟨idx, db, hidx, hdb⟩ := hinit
  unfold AddMessage
  simp only [hidx, hdb, hk, if_true]

/-- A second AddPub with the same publication is refused by the primary key: the
first call indexed the hash as PUB, the test before the INSERT looks for MSG, so
the INSERT runs again and fails; tables and index stay as they were. -/
theorem AddPub_twice [ContentCodec C] (idx : List (Hash × Kind)) (db : Backend)
    (log log2 : List String) (m : Message C) (hf : db.failing = false)
    (hk : Contains ⟨some idx, some db⟩ m.TxidHash ≠ Kind.MSG)
    (hrow : db.pub.any (fun r => r.hash = m.TxidHash.bytes) = false) :
    (AddPub ⟨some idx, some db⟩ log m).2.2 = none
    ∧ AddPub (AddPub ⟨some idx, some db⟩ log m).1 log2 m
        = ((AddPub ⟨some idx, some db⟩ log m).1,
            log2 ++ ["Error inserting message into db..."], some DBError.constraint) := by
  have h1 : AddPub ⟨some idx, some db⟩ log m
      = (⟨some (mapSet idx m.TxidHash Kind.PUB),
          some { db with pub := db.pub ++ [⟨m.TxidHash.bytes, m.AddrHash.bytes,
            m.Timestamp.Unix, ContentCodec.GetBytes m.Content⟩] }⟩, log, none) := by
    unfold AddPub
    simp only [if_neg hk, Backend.Exec, hf, Hash.GetBytes, hrow, Add]
    rfl
  rw [h1]
  refine ⟨rfl, ?_⟩
  have hk2 : Contains ⟨some (mapSet idx m.TxidHash Kind.PUB),
      some { db with pub := db.pub ++ [⟨m.TxidHash.bytes, m.AddrHash.bytes,
        m.Timestamp.Unix, ContentCodec.GetBytes m.Content⟩] }⟩ m.TxidHash ≠ Kind.MSG := by
    simp only [Contains, mapGet_mapSet_self, Option.getD_some]
    decide
  unfold AddPub
  simp only [if_neg hk2, Backend.Exec, hf, Hash.GetBytes]
  simp [Contains, mapGet_mapSet_self]

/-- C19 at its failing input: AddPub of a publication on the initialised empty
store returns nil; AddPub of the same publication again returns the primary-key
error instead of nil (tables and index are unchanged by the second call). -/
theorem C19_second_AddPub_fails :
    (AddPub emptyStore [] samplePub).2.2 = none
    ∧ (AddPub (AddPub emptyStore [] samplePub).1 [] samplePub).2.2 = some DBError.constraint
    ∧ (AddPub (AddPub emptyStore [] samplePub).1 [] samplePub).1
        = (AddPub emptyStore [] samplePub).1
    ∧ (AddPubkey (AddPubkey emptyStore [] samplePubkey).1 [] samplePubkey).2.2 = none
    ∧ (AddPubkey (AddPubkey emptyStore [] samplePubkey).1 [] samplePubkey).1.dbConn.map
        (fun b => b.pubkey.length) = some 1 := by
  decide

/-- C20: once AddPurge of a purge has returned nil, the hash h of its
serialisation (the SHA-384 digest, as a Hash) is indexed as PURGE and GetMessage of
h returns nil, whatever the store was before the call. -/
theorem C20_AddPurge_then_purged [ContentCodec C] (env : Env) (s s2 : Store)
    (log log2 : List String) (p : Purge)
    (h : AddPurge s log p = (s2, log2, none)) :
    (MakeHash (Purge.GetBytes (some p))).bytes = SHA512.Sum384 (Purge.GetBytes (some p))
    ∧ Contains s2 (MakeHash (Purge.GetBytes (some p))) = Kind.PURGE
    ∧ (GetMessage env s2 (MakeHash (Purge.GetBytes (some p))) : Option (Message C)) = none := by
  have hk := AddPurge_none s s2 log log2 p h
  refine ⟨rfl, hk, ?_⟩
  obtain ⟨idx, hidx, hg⟩ := hashList_of_Contains s2 _ Kind.PURGE hk (by decide)
  cases s2 with
  | mk hl dbc =>
    simp only at hidx
    subst hidx
    cases dbc with
    | none =>
      unfold GetMessage
      rfl
    | some db =>
      exact GetMessage_other_kind env idx db _ Kind.PURGE hg (by decide) (by decide)

theorem C20_AddPurge_then_purged_witness :
    Contains (worldHolding (MakeHash (Purge.GetBytes (some signedPurge)))).db
        (MakeHash (Purge.GetBytes (some signedPurge))) = Kind.MSG
    ∧ AddPurge (worldHolding (MakeHash (Purge.GetBytes (some signedPurge)))).db [] signedPurge
      = ((AddPurge (worldHolding (MakeHash (Purge.GetBytes (some signedPurge)))).db []
            signedPurge).1, [], none)
    ∧ Contains (AddPurge (worldHolding (MakeHash (Purge.GetBytes (some signedPurge)))).db []
          signedPurge).1 (MakeHash (Purge.GetBytes (some signedPurge))) = Kind.PURGE
    ∧ (GetMessage sampleEnv
          (AddPurge (worldHolding (MakeHash (Purge.GetBytes (some signedPurge)))).db []
            signedPurge).1 (MakeHash (Purge.GetBytes (some signedPurge)))
          : Option (Message RawContent)) = none :=
  have hk : Contains (worldHolding (MakeHash (Purge.GetBytes (some signedPurge)))).db
      (MakeHash (Purge.GetBytes (some signedPurge))) = Kind.MSG := by
    simp [Contains, worldHolding, mapGet]
  have hr : AddPurge (worldHolding (MakeHash (Purge.GetBytes (some signedPurge)))).db []
      signedPurge
      = ((AddPurge (worldHolding (MakeHash (Purge.GetBytes (some signedPurge)))).db []
            signedPurge).1, [], none) := by
    have hadd := AddPurge_fresh [(MakeHash (Purge.GetBytes (some signedPurge)), Kind.MSG)]
      ⟨[], [], [⟨(MakeHash (Purge.GetBytes (some signedPurge))).bytes, Hash.zero.bytes, 0, []⟩],
        [], false⟩ [] signedPurge rfl
      (by
        have : Contains ⟨some [(MakeHash (Purge.GetBytes (some signedPurge)), Kind.MSG)],
            some ⟨[], [], [⟨(MakeHash (Purge.GetBytes (some signedPurge))).bytes,
              Hash.zero.bytes, 0, []⟩], [], false⟩⟩
            (MakeHash (Purge.GetBytes (some signedPurge))) = Kind.MSG := hk
        rw [this]
        decide)
      rfl
    have hw : (worldHolding (MakeHash (Purge.GetBytes (some signedPurge)))).db
        = ⟨some [(MakeHash (Purge.GetBytes (some signedPurge)), Kind.MSG)],
            some ⟨[], [], [⟨(MakeHash (Purge.GetBytes (some signedPurge))).bytes,
              Hash.zero.bytes, 0, []⟩], [], false⟩⟩ := rfl
    rw [hw, hadd]
  have h := C20_AddPurge_then_purged sampleEnv _ _ [] [] signedPurge hr
  ⟨hk, hr, h.2.1, h.2.2⟩

end StoreLaws


/-! ## Deletions, the sweep and the uninitialised store (C21 to C25) -/

section StoreRemoval

variable {C : Type}

/-- An INSERT into the table purge leaves the tables msg and pub as they were. -/
theorem Backend.Exec_insertPurge_keeps (db : Backend) (hash txid : List Byte) :
    (db.Exec (Stmt.insertPurge hash txid)).1.msg = db.msg
    ∧ (db.Exec (Stmt.insertPurge hash txid)).1.pub = db.pub := by
  unfold Backend.Exec
  split
  · exact ⟨rfl, rfl⟩
  · dsimp only
    split <;> exact ⟨rfl, rfl⟩

/-- AddPurge never changes the tables msg and pub, whatever it returns. -/
theorem AddPurge_keeps_messages (s : Store) (log : List String) (p : Purge) :
    (AddPurge s log p).1.dbConn.map Backend.msg = s.dbConn.map Backend.msg
    ∧ (AddPurge s log p).1.dbConn.map Backend.pub = s.dbConn.map Backend.pub := by
  unfold AddPurge
  split
  · rename_i idx db hidx hdb
    dsimp only
    split
    · exact ⟨rfl, rfl⟩
    · have hkeep := Backend.Exec_insertPurge_keeps db (SHA512.Sum384 (Purge.GetBytes (some p)))
        (Purge.GetBytes (some p))
      generalize Backend.Exec db _ = r at hkeep
      obtain ⟨db1, e⟩ := r
      cases e with
      | some err =>
        simp only [hdb, Option.map_some'] at hkeep ⊢
        exact ⟨congrArg some hkeep.1, congrArg some hkeep.2⟩
      | none =>
        simp only [hdb, Option.map_some', Add, hidx] at hkeep ⊢
        exact ⟨congrArg some hkeep.1, congrArg some hkeep.2⟩
  · exact ⟨rfl, rfl⟩

/-- C21 at its failing input: the store holds a msg row (in the second half a pub
row) under the hash h of the purge without signature for the zero Txid; AddPurge of
that purge returns nil and indexes h as PURGE, and the msg row (the pub row) with
hash h is still in its table. -/
theorem C21_AddPurge_keeps_purged_rows :
    MakeHash (Purge.GetBytes (some plainPurge)) = zeroTxidHash
    ∧ (AddPurge (worldHolding zeroTxidHash).db [] plainPurge).2.2 = none
    ∧ Contains (AddPurge (worldHolding zeroTxidHash).db [] plainPurge).1 zeroTxidHash
        = Kind.PURGE
    ∧ (AddPurge (worldHolding zeroTxidHash).db [] plainPurge).1.dbConn.map
        (fun b => b.msg.any (fun r => r.hash = zeroTxidHash.bytes)) = some true
    ∧ (AddPurge (worldPublishing zeroTxidHash).db [] plainPurge).2.2 = none
    ∧ Contains (AddPurge (worldPublishing zeroTxidHash).db [] plainPurge).1 zeroTxidHash
        = Kind.PURGE
    ∧ (AddPurge (worldPublishing zeroTxidHash).db [] plainPurge).1.dbConn.map
        (fun b => b.pub.any (fun r => r.hash = zeroTxidHash.bytes)) = some true := by
  decide!

theorem RemoveHash_pubkey (idx : List (Hash × Kind)) (db : Backend) (log : List String)
    (h : Hash) (hf : db.failing = false)
    (hk : Contains ⟨some idx, some db⟩ h = Kind.PUBKEY) :
    RemoveHash ⟨some idx, some db⟩ log h
      = (⟨some (mapDelete idx h),
          some { db with pubkey := db.pubkey.filter (fun r => r.hash ≠ h.bytes) }⟩, log, none) := by
  unfold RemoveHash
  simp only [hk, Backend.Exec, hf, Hash.GetBytes, Delete]
  rfl

theorem RemoveHash_purge (idx : List (Hash × Kind)) (db : Backend) (log : List String)
    (h : Hash) (hf : db.failing = false)
    (hk : Contains ⟨some idx, some db⟩ h = Kind.PURGE) :
    RemoveHash ⟨some idx, some db⟩ log h
      = (⟨some (mapDelete idx h),
          some { db with purge := db.purge.filter (fun r => r.hash ≠ h.bytes) }⟩, log, none) := by
  unfold RemoveHash
  simp only [hk, Backend.Exec, hf, Hash.GetBytes, Delete]
  rfl

/-- After the delete built in, the hash is looked up as NOTFOUND. -/
theorem Contains_mapDelete (idx : List (Hash × Kind)) (db : Option Backend) (h : Hash) :
    Contains ⟨some (mapDelete idx h), db⟩ h = Kind.NOTFOUND := by
  unfold Contains
  simp only [mapGet_mapDelete_self, Option.getD_none]

/-- The part of C22 that holds: on a working store a hash held as PUBKEY, MSG or
PURGE is removed by RemoveHash from the index and from the table of its kind. -/
theorem RemoveHash_removes (idx : List (Hash × Kind)) (db : Backend) (log : List String)
    (h : Hash) (hf : db.failing = false)
    (hk : Contains ⟨some idx, some db⟩ h = Kind.PUBKEY
      ∨ Contains ⟨some idx, some db⟩ h = Kind.MSG
      ∨ Contains ⟨some idx, some db⟩ h = Kind.PURGE) :
    (RemoveHash ⟨some idx, some db⟩ log h).2.2 = none
    ∧ Contains (RemoveHash ⟨some idx, some db⟩ log h).1 h = Kind.NOTFOUND
    ∧ ∃ db2, (RemoveHash ⟨some idx, some db⟩ log h).1.dbConn = some db2
        ∧ (Contains ⟨some idx, some db⟩ h = Kind.PUBKEY →
            db2.pubkey.any (fun r => r.hash = h.bytes) = false)
        ∧ (Contains ⟨some idx, some db⟩ h = Kind.MSG →
            db2.msg.any (fun r => r.hash = h.bytes) = false)
        ∧ (Contains ⟨some idx, some db⟩ h = Kind.PURGE →
            db2.purge.any (fun r => r.hash = h.bytes) = false) := by
  rcases hk with hk | hk | hk
  · rw [RemoveHash_pubkey idx db log h hf hk]
    refine ⟨rfl, Contains_mapDelete idx _ h, _, rfl, ?_, ?_, ?_⟩
    · intro _
      exact any_filter_ne db.pubkey KeyRow.hash h.bytes
    · intro h2
      rw [hk] at h2
      exact absurd h2 (by decide)
    · intro h2
      rw [hk] at h2
      exact absurd h2 (by decide)
  · rw [RemoveHash_msg idx db log h hf hk]
    refine ⟨rfl, Contains_mapDelete idx _ h, _, rfl, ?_, ?_, ?_⟩
    · intro h2
      rw [hk] at h2
      exact absurd h2 (by decide)
    · intro _
      exact any_filter_ne db.msg MsgRow.hash h.bytes
    · intro h2
      rw [hk] at h2
      exact absurd h2 (by decide)
  · rw [RemoveHash_purge idx db log h hf hk]
    refine ⟨rfl, Contains_mapDelete idx _ h, _, rfl, ?_, ?_, ?_⟩
    · intro h2
      rw [hk] at h2
      exact absurd h2 (by decide)
    · intro h2
      rw [hk] at h2
      exact absurd h2 (by decide)
    · intro _
      exact any_filter_ne db.purge KeyRow.hash h.bytes

/-- C22 at its failing input: the store holds a publication, indexed as PUB, under
the hash h of the zero Txid.  RemoveHash of h returns nil and changes nothing: h
is still held as PUB and its row is still in the table pub.  When the purge for
that Txid arrives, fPURGE re-broadcasts it and indexes h as PURGE, and the row of
the publication is still in the table pub. -/
theorem C22_RemoveHash_skips_publication :
    Contains (worldPublishing zeroTxidHash).db zeroTxidHash = Kind.PUB
    ∧ RemoveHash (worldPublishing zeroTxidHash).db [] zeroTxidHash
        = ((worldPublishing zeroTxidHash).db, [], none)
    ∧ Contains (RemoveHash (worldPublishing zeroTxidHash).db [] zeroTxidHash).1 zeroTxidHash
        = Kind.PUB
    ∧ (RemoveHash (worldPublishing zeroTxidHash).db [] zeroTxidHash).1.dbConn.map
        (fun b => b.pub.any (fun r => r.hash = zeroTxidHash.bytes)) = some true
    ∧ Contains (fPURGE (worldPublishing zeroTxidHash) (sampleFrame PURGE BROADCAST)
        plainPurge).db zeroTxidHash = Kind.PURGE
    ∧ (fPURGE (worldPublishing zeroTxidHash) (sampleFrame PURGE BROADCAST)
        plainPurge).config.SendQueue.length = 1
    ∧ (fPURGE (worldPublishing zeroTxidHash) (sampleFrame PURGE BROADCAST)
        plainPurge).db.dbConn.map
        (fun b => b.pub.any (fun r => r.hash = zeroTxidHash.bytes)) = some true := by
  decide!

/-- The deadline of the sweep, now − d in whole Unix seconds, bounds the same
time stamps as the instant now − d itself. -/
theorem agedOut_iff_deadline (env : Env) (d : Int) (r : MsgRow) :
    agedOut env d r = true ↔ r.timestamp ≤ (env.now.nanos - d) / 1000000000 := by
  unfold agedOut
  rw [decide_eq_true_eq]
  exact (Int.le_ediv_iff_mul_le (by decide)).symm

/-- SweepMessages never changes the hash list. -/
theorem SweepMessages_hashList (env : Env) (s : Store) (d : Int) :
    (SweepMessages env s d).1.hashList = s.hashList := by
  unfold SweepMessages
  split <;> rfl

/-- C23: on a store whose backend answers, SweepMessages(d), d being a duration
within int64, returns nil and deletes from the table msg exactly the rows whose
time stamp is at most now − d (equally: at most the deadline, now − d in whole Unix
seconds); the rows kept stay in their order and the tables pub, pubkey and purge
are unchanged. -/
theorem C23_sweep_deletes_aged_messages (env : Env) (s : Store) (db : Backend) (d : Int)
    (hdb : s.dbConn = some db) (hf : db.failing = false)
    (hd : -(2 : Int) ^ 63 < d ∧ d < (2 : Int) ^ 63) :
    ∃ db2, SweepMessages env s d = ({ s with dbConn := some db2 }, none)
      ∧ db2.msg = db.msg.filter (fun r => !agedOut env d r)
      ∧ (∀ r, r ∈ db2.msg ↔ r ∈ db.msg ∧ ¬ r.timestamp ≤ (env.now.nanos - d) / 1000000000)
      ∧ db2.pub = db.pub ∧ db2.pubkey = db.pubkey ∧ db2.purge = db.purge := by
  have hfilter : db.msg.filter (fun r => decide (¬ r.timestamp ≤ (env.now.nanos - d) / 1000000000))
      = db.msg.filter (fun r => !agedOut env d r) := by
    apply List.filter_congr
    intro r _
    have h := agedOut_iff_deadline env d r
    by_cases hr : r.timestamp ≤ (env.now.nanos - d) / 1000000000
    · simp [hr, h.mpr hr]
    · have h2 : agedOut env d r = false := by
        rw [Bool.eq_false_iff]
        intro h3
        exact hr (h.mp h3)
      simp [hr, h2]
  refine ⟨{ db with msg := db.msg.filter (fun r => !agedOut env d r) }, ?_, rfl, ?_, rfl, rfl, rfl⟩
  · have hneg : env.now.nanos + negInt64 d = env.now.nanos - d := by
      unfold negInt64
      rw [int64_uint64 (-d) (by omega)]
      omega
    unfold SweepMessages
    simp only [hdb, Backend.Exec, hf, Bool.false_eq_true, if_false, hneg, hfilter]
  · intro r
    simp only [List.mem_filter, Bool.not_eq_true', ← agedOut_iff_deadline env d r,
      Bool.not_eq_true]

theorem C23_sweep_deletes_aged_messages_witness :
    (-(2 : Int) ^ 63 < 7 * day ∧ 7 * day < (2 : Int) ^ 63)
    ∧ ∃ db2, SweepMessages sampleEnv sweepStore (7 * day)
          = ({ sweepStore with dbConn := some db2 }, none)
        ∧ db2.msg = [⟨(sampleHash 2).bytes, Hash.zero.bytes, 1700000000 - 86400, [2]⟩]
        ∧ db2.pub = [⟨(sampleHash 3).bytes, Hash.zero.bytes, 1700000000 - 30 * 86400, [3]⟩] :=
  have hd : -(2 : Int) ^ 63 < 7 * day ∧ 7 * day < (2 : Int) ^ 63 := by decide
  have h := C23_sweep_deletes_aged_messages sampleEnv sweepStore
    ⟨[], [],
     [⟨(sampleHash 1).bytes, Hash.zero.bytes, 1700000000 - 30 * 86400, [1]⟩,
      ⟨(sampleHash 2).bytes, Hash.zero.bytes, 1700000000 - 86400, [2]⟩],
     [⟨(sampleHash 3).bytes, Hash.zero.bytes, 1700000000 - 30 * 86400, [3]⟩], false⟩
    (7 * day) rfl rfl hd
  ⟨hd, h.elim (fun db2 hdb2 => ⟨db2, hdb2.1, hdb2.2.1.trans (by decide), hdb2.2.2.2.1⟩)⟩

/-- C24 at its failing input: on the store of scenario S6, whose index agrees with
its tables, SweepMessages(7 days) returns nil and deletes the row of the message
that is 30 days old; afterwards GetMessage of its hash returns nil, and Contains
of its hash is still MSG, not NOTFOUND: the index holds a hash that the backend
no longer has. -/
theorem C24_sweep_leaves_index :
    Contains sweepStore (sampleHash 1) = Kind.MSG
    ∧ sweepStore.dbConn.map (fun b => b.msg.any (fun r => r.hash = (sampleHash 1).bytes))
        = some true
    ∧ (SweepMessages sampleEnv sweepStore (7 * day)).2 = none
    ∧ (SweepMessages sampleEnv sweepStore (7 * day)).1.dbConn.map
        (fun b => b.msg.any (fun r => r.hash = (sampleHash 1).bytes)) = some false
    ∧ (GetMessage sampleEnv (SweepMessages sampleEnv sweepStore (7 * day)).1 (sampleHash 1)
        : Option (Message RawContent)).isNone = true
    ∧ Contains (SweepMessages sampleEnv sweepStore (7 * day)).1 (sampleHash 1) = Kind.MSG := by
  decide!

/-- C25: while the store is uninitialised (the hash list or the connection is
nil), AddPubkey, AddPurge, AddMessage and AddPub return DBError(EUNINIT); the
store, and with it the backend and the index, and the log are as before. -/
theorem C25_uninitialised_adds_fail [ContentCodec C] (s : Store) (log : List String)
    (huninit : s.hashList = none ∨ s.dbConn = none) :
    (∀ pk : EncryptedPubkey, AddPubkey s log pk = (s, log, some DBError.EUNINIT))
    ∧ (∀ p : Purge, AddPurge s log p = (s, log, some DBError.EUNINIT))
    ∧ (∀ m : Message C, AddMessage s log m = (s, log, some DBError.EUNINIT))
    ∧ (∀ m : Message C, AddPub s log m = (s, log, some DBError.EUNINIT)) := by
  obtain ⟨hl, dbc⟩ := s
  simp only at huninit
  refine ⟨?_, ?_, ?_, ?_⟩ <;> intro x
  · unfold AddPubkey
    rcases huninit with h | h
    · subst h
      cases dbc <;> rfl
    · subst h
      cases hl <;> rfl
  · unfold AddPurge
    rcases huninit with h | h
    · subst h
      cases dbc <;> rfl
    · subst h
      cases hl <;> rfl
  · unfold AddMessage
    rcases huninit with h | h
    · subst h
      cases dbc <;> rfl
    · subst h
      cases hl <;> rfl
  · unfold AddPub
    rcases huninit with h | h
    · subst h
      cases dbc <;> rfl
    · subst h
      cases hl <;> rfl

theorem C25_uninitialised_adds_fail_witness :
    ((⟨some [], none⟩ : Store).hashList = none ∨ (⟨some [], none⟩ : Store).dbConn = none)
    ∧ AddPubkey ⟨some [], none⟩ [] samplePubkey = (⟨some [], none⟩, [], some DBError.EUNINIT)
    ∧ AddPurge ⟨some [], none⟩ [] plainPurge = (⟨some [], none⟩, [], some DBError.EUNINIT)
    ∧ AddMessage ⟨some [], none⟩ [] sampleMessage = (⟨some [], none⟩, [], some DBError.EUNINIT)
    ∧ AddPub ⟨some [], none⟩ [] samplePub = (⟨some [], none⟩, [], some DBError.EUNINIT) :=
  have h := C25_uninitialised_adds_fail (⟨some [], none⟩ : Store) [] (Or.inr rfl)
  ⟨Or.inr rfl, h.1 samplePubkey, h.2.1 plainPurge, h.2.2.1 sampleMessage, h.2.2.2 samplePub⟩

end StoreRemoval


/-! ## Outbound frames and failed persistence (C26, C27) -/

section Outbound

variable {C : Type}

theorem SendsOnly.of_append (P : Frame → Prop) (w w2 : World C) (out : List Frame)
    (hq : w2.config.SendQueue = w.config.SendQueue ++ out) (hP : ∀ f ∈ out, P f) :
    SendsOnly P w w2 := by
  have he : enqueued w w2 = out := by
    unfold enqueued
    rw [hq, List.drop_left]
  unfold SendsOnly
  rw [he]
  exact ⟨hq, hP⟩

theorem SendsOnly.same (P : Frame → Prop) (w w2 : World C)
    (hq : w2.config.SendQueue = w.config.SendQueue) : SendsOnly P w w2 :=
  SendsOnly.of_append P w w2 [] (by rw [hq, List.append_nil]) (by simp)

theorem SendsOnly.one (P : Frame → Prop) (w w2 : World C) (f : Frame)
    (hq : w2.config.SendQueue = w.config.SendQueue ++ [f]) (hP : P f) : SendsOnly P w w2 :=
  SendsOnly.of_append P w w2 [f] hq (by simpa using hP)

theorem SendsOnly.trans (P : Frame → Prop) (w w1 w2 : World C)
    (h1 : SendsOnly P w w1) (h2 : SendsOnly P w1 w2) : SendsOnly P w w2 := by
  apply SendsOnly.of_append P w w2 (enqueued w w1 ++ enqueued w1 w2)
  · rw [h2.1, h1.1, List.append_assoc]
  · intro f hf
    rcases List.mem_append.mp hf with h | h
    · exact h1.2 f h
    · exact h2.2 f h

theorem SendsOnly.mono (P Q : Frame → Prop) (w w2 : World C) (hPQ : ∀ f, P f → Q f)
    (h : SendsOnly P w w2) : SendsOnly Q w w2 :=
  ⟨h.1, fun f hf => hPQ f (h.2 f hf)⟩

theorem SendsOnly.foldl {α : Type} (P : Frame → Prop) (step : World C → α → World C)
    (l : List α) (hstep : ∀ w, ∀ e ∈ l, SendsOnly P w (step w e)) (w : World C) :
    SendsOnly P w (l.foldl step w) := by
  induction l generalizing w with
  | nil => exact SendsOnly.same P w w rfl
  | cons e l ih =>
    rw [List.foldl_cons]
    apply SendsOnly.trans P w (step w e)
    · exact hstep w e (List.mem_cons_self e l)
    · exact ih (fun w2 e2 he2 => hstep w2 e2 (List.mem_cons_of_mem e he2)) (step w e)

theorem fVERSION_sends (env : Env) (w : World C) (frame : Frame) (version : Version) :
    SendsOnly (fun f => f.Peer = frame.Peer) w (fVERSION env w frame version) := by
  unfold fVERSION
  split
  · exact SendsOnly.same _ _ _ rfl
  · split
    · exact SendsOnly.same _ _ _ rfl
    · dsimp only
      split
      · exact SendsOnly.same _ _ _ rfl
      · split
        · exact SendsOnly.same _ _ _ rfl
        · split
          · split
            · exact SendsOnly.one _ _ _ _ rfl rfl
            · exact SendsOnly.one _ _ _ _ rfl rfl
          · split
            · exact SendsOnly.one _ _ _ _ rfl rfl
            · exact SendsOnly.one _ _ _ _ rfl rfl

theorem mergeNode_sends (env : Env) (w : World C) (e : String × Node) :
    SendsOnly (fun f => f.Header.Command = VERSION ∧ f.Header.Typ = REQUEST
      ∧ f.Peer = hostPort env e.2.IP e.2.Port) w (mergeNode env w e) := by
  unfold mergeNode
  dsimp only
  split
  · exact SendsOnly.same _ _ _ rfl
  · split
    · exact SendsOnly.same _ _ _ rfl
    · exact SendsOnly.one _ _ _ _ rfl ⟨rfl, rfl, rfl⟩

theorem fPEER_sends (env : Env) (w : World C) (frame : Frame)
    (nodeList : Option (List (String × Node))) :
    SendsOnly (fun f => f.Peer = frame.Peer
      ∨ (f.Header.Command = VERSION ∧ f.Header.Typ = REQUEST
        ∧ ∃ e ∈ nodeList.getD [], f.Peer = hostPort env e.2.IP e.2.Port))
      w (fPEER env w frame nodeList) := by
  unfold fPEER
  split
  · exact SendsOnly.same _ _ _ rfl
  · dsimp only
    have hfirst : SendsOnly (fun f => f.Peer = frame.Peer
        ∨ (f.Header.Command = VERSION ∧ f.Header.Typ = REQUEST
          ∧ ∃ e ∈ nodeList.getD [], f.Peer = hostPort env e.2.IP e.2.Port)) w
        (w.send (if frame.Header.Typ = REQUEST then
            MakeFrame PEER REPLY (NodeListGetBytes w.config.NodeList)
          else MakeFrame OBJ REQUEST (ObjGetBytes (ObjList w.db))) frame.Peer) :=
      SendsOnly.one _ _ _ _ rfl (Or.inl rfl)
    cases nodeList with
    | none => exact hfirst
    | some nodes =>
      apply SendsOnly.trans _ _ _ _ hfirst
      apply SendsOnly.foldl
      intro w2 e he
      apply SendsOnly.mono _ _ _ _ _ (mergeNode_sends env w2 e)
      intro f hf
      exact Or.inr ⟨hf.1, hf.2.1, e, he, hf.2.2⟩

theorem askObject_sends (w : World C) (frame : Frame) (hash : Hash) :
    SendsOnly (fun f => f.Peer = frame.Peer) w (askObject frame w hash) := by
  unfold askObject
  split
  · exact SendsOnly.one _ _ _ _ rfl rfl
  · split
    · exact SendsOnly.one _ _ _ _ rfl rfl
    · exact SendsOnly.same _ _ _ rfl

theorem fOBJ_sends (w : World C) (frame : Frame) (obj : List Hash) :
    SendsOnly (fun f => f.Peer = frame.Peer) w (fOBJ w frame obj) := by
  unfold fOBJ
  split
  · exact SendsOnly.same _ _ _ rfl
  · dsimp only
    have hfirst : SendsOnly (fun f => f.Peer = frame.Peer) w
        (if frame.Header.Typ = REQUEST then
          w.send (MakeFrame OBJ REPLY (ObjGetBytes (ObjList w.db))) frame.Peer
        else w) := by
      split
      · exact SendsOnly.one _ _ _ _ rfl rfl
      · exact SendsOnly.same _ _ _ rfl
    apply SendsOnly.trans _ _ _ _ hfirst
    apply SendsOnly.foldl
    intro w2 e _
    exact askObject_sends w2 frame e

theorem fGETOBJ_sends [ContentCodec C] (env : Env) (w : World C) (frame : Frame) (hash : Hash) :
    SendsOnly (fun f => f.Peer = frame.Peer) w (fGETOBJ env w frame hash) := by
  unfold fGETOBJ
  split
  · exact SendsOnly.same _ _ _ rfl
  · split
    · split
      · exact SendsOnly.one _ _ _ _ rfl rfl
      · exact SendsOnly.one _ _ _ _ rfl rfl
      · split
        · exact SendsOnly.one _ _ _ _ rfl rfl
        · exact SendsOnly.same _ _ _ rfl
      · split
        · exact SendsOnly.one _ _ _ _ rfl rfl
        · exact SendsOnly.same _ _ _ rfl
      · exact SendsOnly.one _ _ _ _ rfl rfl
      · exact SendsOnly.one _ _ _ _ rfl rfl
    · exact SendsOnly.same _ _ _ rfl

theorem fPUBKEY_REQUEST_sends (env : Env) (w : World C) (frame : Frame) (pubHash : Hash) :
    SendsOnly (fun f => f.Peer = frame.Peer) w (fPUBKEY_REQUEST env w frame pubHash) := by
  unfold fPUBKEY_REQUEST
  split
  · dsimp only
    split
    · exact SendsOnly.one _ _ _ _ rfl rfl
    · exact SendsOnly.same _ _ _ rfl
  · exact SendsOnly.one _ _ _ _ rfl rfl
  · exact SendsOnly.same _ _ _ rfl

theorem storePubkey_sends (w : World C) (frame : Frame) (pubkey : EncryptedPubkey) :
    SendsOnly (fun f => f.Peer = frame.Peer) w (storePubkey w frame pubkey) := by
  unfold storePubkey
  split
  · exact SendsOnly.same _ _ _ rfl
  · dsimp only
    split
    · exact SendsOnly.one _ _ _ _ rfl rfl
    · exact SendsOnly.same _ _ _ rfl

theorem fPUBKEY_sends (w : World C) (frame : Frame) (pubkey : EncryptedPubkey) :
    SendsOnly (fun f => f.Peer = frame.Peer) w (fPUBKEY w frame pubkey) := by
  unfold fPUBKEY
  split
  · exact SendsOnly.trans _ w { w with db := Delete w.db pubkey.AddrHash } _
      (SendsOnly.same _ _ _ rfl) (storePubkey_sends _ frame pubkey)
  · exact storePubkey_sends w frame pubkey
  · exact SendsOnly.same _ _ _ rfl

theorem fMSG_sends [ContentCodec C] (env : Env) (w : World C) (frame : Frame)
    (msg : Message C) :
    SendsOnly (fun f => f.Peer = frame.Peer) w (fMSG env w frame msg) := by
  unfold fMSG
  split
  · split
    · exact SendsOnly.same _ _ _ rfl
    · exact SendsOnly.one _ _ _ _ rfl rfl
  · exact SendsOnly.one _ _ _ _ rfl rfl
  · exact SendsOnly.same _ _ _ rfl

theorem fPUB_sends [ContentCodec C] (env : Env) (w : World C) (frame : Frame)
    (msg : Message C) :
    SendsOnly (fun f => f.Peer = frame.Peer) w (fPUB env w frame msg) := by
  unfold fPUB
  split
  · split
    · exact SendsOnly.same _ _ _ rfl
    · exact SendsOnly.one _ _ _ _ rfl rfl
  · exact SendsOnly.one _ _ _ _ rfl rfl
  · exact SendsOnly.same _ _ _ rfl

theorem storePurge_sends (w : World C) (frame : Frame) (purge : Purge) :
    SendsOnly (fun f => f.Peer = frame.Peer) w (storePurge w frame purge) := by
  unfold storePurge
  split
  · exact SendsOnly.same _ _ _ rfl
  · exact SendsOnly.one _ _ _ _ rfl rfl

theorem removeThenStorePurge_sends (w : World C) (frame : Frame) (purge : Purge)
    (txidHash : Hash) :
    SendsOnly (fun f => f.Peer = frame.Peer) w (removeThenStorePurge w frame purge txidHash) := by
  unfold removeThenStorePurge
  split
  · exact SendsOnly.same _ _ _ rfl
  · rename_i db1 log1 _
    exact SendsOnly.trans _ w { w with db := db1, config := { w.config with Log := log1 } } _
      (SendsOnly.same _ _ _ rfl) (storePurge_sends _ frame purge)

theorem fPURGE_sends (w : World C) (frame : Frame) (purge : Purge) :
    SendsOnly (fun f => f.Peer = frame.Peer) w (fPURGE w frame purge) := by
  unfold fPURGE
  dsimp only
  split
  · exact removeThenStorePurge_sends w frame purge _
  · exact removeThenStorePurge_sends w frame purge _
  · exact storePurge_sends w frame purge
  · exact SendsOnly.same _ _ _ rfl

theorem fCHECKTXID_sends (env : Env) (w : World C) (frame : Frame) (hash : Hash) :
    SendsOnly (fun f => f.Peer = frame.Peer) w (fCHECKTXID env w frame hash) := by
  unfold fCHECKTXID
  split
  · exact SendsOnly.same _ _ _ rfl
  · split
    · split
      · exact SendsOnly.one _ _ _ _ rfl rfl
      · exact SendsOnly.one _ _ _ _ rfl rfl
    · exact SendsOnly.same _ _ _ rfl

/-- C27, amended: for every handler of the engine and every inbound frame, the
handler keeps what was on SendQueue and every frame that it adds has its Peer field
equal to frame.Peer of the inbound frame, except the VERSION/REQUEST frames that
fPEER sends for the entries of the incoming node list: each of these is addressed
to the "IP:Port" of its entry. -/
theorem C27_outbound_frames_peer [ContentCodec C] (env : Env) (w : World C) (frame : Frame) :
    (∀ version : Version,
      SendsOnly (fun f => f.Peer = frame.Peer) w (fVERSION env w frame version))
    ∧ (∀ nodeList : Option (List (String × Node)),
      SendsOnly (fun f => f.Peer = frame.Peer
        ∨ (f.Header.Command = VERSION ∧ f.Header.Typ = REQUEST
          ∧ ∃ e ∈ nodeList.getD [], f.Peer = hostPort env e.2.IP e.2.Port))
        w (fPEER env w frame nodeList))
    ∧ (∀ obj : List Hash, SendsOnly (fun f => f.Peer = frame.Peer) w (fOBJ w frame obj))
    ∧ (∀ hash : Hash, SendsOnly (fun f => f.Peer = frame.Peer) w (fGETOBJ env w frame hash))
    ∧ (∀ pubHash : Hash,
      SendsOnly (fun f => f.Peer = frame.Peer) w (fPUBKEY_REQUEST env w frame pubHash))
    ∧ (∀ pubkey : EncryptedPubkey,
      SendsOnly (fun f => f.Peer = frame.Peer) w (fPUBKEY w frame pubkey))
    ∧ (∀ msg : Message C, SendsOnly (fun f => f.Peer = frame.Peer) w (fMSG env w frame msg))
    ∧ (∀ msg : Message C, SendsOnly (fun f => f.Peer = frame.Peer) w (fPUB env w frame msg))
    ∧ (∀ purge : Purge, SendsOnly (fun f => f.Peer = frame.Peer) w (fPURGE w frame purge))
    ∧ (∀ hash : Hash,
      SendsOnly (fun f => f.Peer = frame.Peer) w (fCHECKTXID env w frame hash)) :=
  ⟨fVERSION_sends env w frame, fPEER_sends env w frame, fOBJ_sends w frame,
    fGETOBJ_sends env w frame, fPUBKEY_REQUEST_sends env w frame, fPUBKEY_sends w frame,
    fMSG_sends env w frame, fPUB_sends env w frame, fPURGE_sends w frame,
    fCHECKTXID_sends env w frame⟩

theorem C27_outbound_frames_peer_witness :
    (enqueued lanWorld (fPEER lanEnv lanWorld (sampleFrame PEER REQUEST)
        (some [("10.0.0.2:7000", ⟨[10, 0, 0, 2], 7000, ⟨0, 0⟩⟩)]))).map Frame.Peer
      = ["10.0.0.7:4444", "10.0.0.2:7000"]
    ∧ ∀ f ∈ enqueued lanWorld (fPEER lanEnv lanWorld (sampleFrame PEER REQUEST)
        (some [("10.0.0.2:7000", ⟨[10, 0, 0, 2], 7000, ⟨0, 0⟩⟩)])),
        f.Peer = "10.0.0.7:4444"
        ∨ (f.Header.Command = VERSION ∧ f.Header.Typ = REQUEST
          ∧ ∃ e ∈ [(("10.0.0.2:7000", ⟨[10, 0, 0, 2], 7000, ⟨0, 0⟩⟩) : String × Node)],
              f.Peer = hostPort lanEnv e.2.IP e.2.Port) :=
  ⟨by decide,
   ((C27_outbound_frames_peer lanEnv lanWorld (sampleFrame PEER REQUEST)).2.1
      (some [("10.0.0.2:7000", ⟨[10, 0, 0, 2], 7000, ⟨0, 0⟩⟩)])).2⟩

/-- C27 as stated fails: answering a PEER/REQUEST whose node list names a peer
that is not yet in the table, fPEER enqueues a VERSION/REQUEST whose Peer field is
the address of that new peer, not frame.Peer. -/
theorem C27_counterexample :
    ¬ SendsOnly (fun f => f.Peer = (sampleFrame PEER REQUEST).Peer) lanWorld
        (fPEER lanEnv lanWorld (sampleFrame PEER REQUEST)
          (some [("10.0.0.2:7000", ⟨[10, 0, 0, 2], 7000, ⟨0, 0⟩⟩)])) :=
  fun h => absurd h.2 (by decide)

/-- Contains reads the hash list only. -/
theorem Contains_congr (s1 s2 : Store) (h : Hash) (he : s1.hashList = s2.hashList) :
    Contains s1 h = Contains s2 h := by
  unfold Contains
  rw [he]

/-- An AddPubkey that returns an error leaves the hash list as it was. -/
theorem AddPubkey_error (s s1 : Store) (log log1 : List String) (pk : EncryptedPubkey)
    (err : DBError) (h : AddPubkey s log pk = (s1, log1, some err)) :
    s1.hashList = s.hashList := by
  unfold AddPubkey at h
  split at h
  · split at h
    · simp at h
    · try dsimp only at h
      generalize Backend.Exec _ _ = r at h
      obtain ⟨db1, e⟩ := r
      cases e with
      | some err2 =>
        simp only [Prod.mk.injEq] at h
        rw [← h.1]
      | none => simp at h
  · simp only [Prod.mk.injEq] at h
    rw [← h.1]

/-- An AddMessage that returns an error leaves the hash list as it was. -/
theorem AddMessage_error [ContentCodec C] (s s1 : Store) (log log1 : List String)
    (m : Message C) (err : DBError) (h : AddMessage s log m = (s1, log1, some err)) :
    s1.hashList = s.hashList := by
  unfold AddMessage at h
  split at h
  · split at h
    · simp at h
    · try dsimp only at h
      generalize Backend.Exec _ _ = r at h
      obtain ⟨db1, e⟩ := r
      cases e with
      | some err2 =>
        simp only [Prod.mk.injEq] at h
        rw [← h.1]
      | none => simp at h
  · simp only [Prod.mk.injEq] at h
    rw [← h.1]

/-- An AddPub that returns an error leaves the hash list as it was. -/
theorem AddPub_error [ContentCodec C] (s s1 : Store) (log log1 : List String)
    (m : Message C) (err : DBError) (h : AddPub s log m = (s1, log1, some err)) :
    s1.hashList = s.hashList := by
  unfold AddPub at h
  split at h
  · split at h
    · simp at h
    · try dsimp only at h
      generalize Backend.Exec _ _ = r at h
      obtain ⟨db1, e⟩ := r
      cases e with
      | some err2 =>
        simp only [Prod.mk.injEq] at h
        rw [← h.1]
      | none => simp at h
  · simp only [Prod.mk.injEq] at h
    rw [← h.1]

/-- An AddPurge that returns an error leaves the hash list as it was; on a store
with a connection, the hash of the serialised purge is then not held as PURGE. -/
theorem AddPurge_error (s s1 : Store) (log log1 : List String) (p : Purge)
    (err : DBError) (h : AddPurge s log p = (s1, log1, some err)) :
    s1.hashList = s.hashList
    ∧ (s.dbConn ≠ none → Contains s1 (MakeHash (Purge.GetBytes (some p))) ≠ Kind.PURGE) := by
  unfold AddPurge at h
  simp only [AddPurge_hashObj] at h
  split at h
  · split at h
    · simp at h
    · rename_i hc
      try dsimp only at h
      generalize Backend.Exec _ _ = r at h
      obtain ⟨db1, e⟩ := r
      cases e with
      | some err2 =>
        simp only [Prod.mk.injEq] at h
        have he : s1.hashList = s.hashList := by rw [← h.1]
        refine ⟨he, fun _ => ?_⟩
        rw [Contains_congr s1 s _ he]
        exact hc
      | none => simp at h
  · rename_i hne
    simp only [Prod.mk.injEq] at h
    have he : s1.hashList = s.hashList := by rw [← h.1]
    refine ⟨he, fun hdb => ?_⟩
    rw [Contains_congr s1 s _ he]
    cases hl : s.hashList with
    | none =>
      unfold Contains
      rw [hl]
      intro hc
      cases hc
    | some idx =>
      cases hd : s.dbConn with
      | none => exact absurd hd hdb
      | some db => exact absurd hd (hne idx db hl)

/-- After RemoveHash, a hash is looked up as before or, if it is the removed
hash, as NOTFOUND; the connection is nil as before. -/
theorem RemoveHash_index (s : Store) (log : List String) (h : Hash) :
    (Contains (RemoveHash s log h).1 h = Contains s h
      ∨ Contains (RemoveHash s log h).1 h = Kind.NOTFOUND)
    ∧ ((RemoveHash s log h).1.dbConn = none ↔ s.dbConn = none) := by
  unfold RemoveHash
  split
  · rename_i idx db hidx hdb
    dsimp only
    split
    · exact ⟨Or.inl rfl, Iff.rfl⟩
    · generalize Backend.Exec _ _ = r
      obtain ⟨db1, e⟩ := r
      cases e with
      | some err =>
        refine ⟨Or.inl (Contains_congr _ _ _ rfl), ?_⟩
        simp [hdb]
      | none =>
        refine ⟨Or.inr ?_, ?_⟩
        · simp only [Delete, hidx, Contains, mapGet_mapDelete_self, Option.getD_none]
        · simp [Delete, hidx, hdb]
  · exact ⟨Or.inl rfl, Iff.rfl⟩

theorem storePubkey_failed (w : World C) (frame : Frame) (pk : EncryptedPubkey)
    (s1 : Store) (log1 : List String) (err : DBError)
    (h : AddPubkey w.db w.config.Log pk = (s1, log1, some err)) :
    Silent w (storePubkey w frame pk) ∧ (storePubkey w frame pk).db = s1 := by
  unfold storePubkey
  simp only [h]
  exact ⟨⟨rfl, rfl, rfl, rfl, rfl⟩, rfl⟩

theorem storePurge_failed (w : World C) (frame : Frame) (p : Purge)
    (s1 : Store) (log1 : List String) (err : DBError)
    (h : AddPurge w.db w.config.Log p = (s1, log1, some err)) :
    Silent w (storePurge w frame p) ∧ (storePurge w frame p).db = s1 := by
  unfold storePurge
  simp only [h]
  exact ⟨⟨rfl, rfl, rfl, rfl, rfl⟩, rfl⟩

theorem removeThenStorePurge_failed (w : World C) (frame : Frame) (p : Purge) (txidHash : Hash)
    (s0 s1 : Store) (log0 log1 : List String) (err : DBError)
    (hrem : RemoveHash w.db w.config.Log txidHash = (s0, log0, none))
    (h : AddPurge s0 log0 p = (s1, log1, some err)) :
    Silent w (removeThenStorePurge w frame p txidHash)
    ∧ (removeThenStorePurge w frame p txidHash).db = s1 := by
  unfold removeThenStorePurge
  simp only [hrem]
  exact storePurge_failed { w with db := s0, config := { w.config with Log := log0 } } frame p
    s1 log1 err h

/-- C26: when the store operation by which a handler persists its object returns
an error, the handler puts no frame on SendQueue and nothing on a registrar
channel, and afterwards the hash that the handler looks up is not held under the
kind of the object, but under a kind for which the handler stores again: NOTFOUND
after fPUBKEY, fMSG and fPUB; PUB, MSG or NOTFOUND after fPURGE.  On a store with a
connection the hash of the serialised purge is not held as PURGE either. -/
theorem C26_failed_persist_is_silent [ContentCodec C] (env : Env) (w : World C)
    (frame : Frame) :
    (∀ (pk : EncryptedPubkey) (s1 : Store) (log1 : List String) (err : DBError),
      (Contains w.db pk.AddrHash = Kind.PUBKEYRQ
          ∧ AddPubkey (Delete w.db pk.AddrHash) w.config.Log pk = (s1, log1, some err))
        ∨ (Contains w.db pk.AddrHash = Kind.NOTFOUND
          ∧ AddPubkey w.db w.config.Log pk = (s1, log1, some err)) →
      Silent w (fPUBKEY w frame pk)
      ∧ Contains (fPUBKEY w frame pk).db pk.AddrHash ≠ Kind.PUBKEY
      ∧ Contains (fPUBKEY w frame pk).db pk.AddrHash = Kind.NOTFOUND)
    ∧ (∀ (m : Message C) (s1 : Store) (log1 : List String) (err : DBError),
      Contains w.db m.TxidHash = Kind.NOTFOUND →
      AddMessage w.db w.config.Log m = (s1, log1, some err) →
      Silent w (fMSG env w frame m)
      ∧ Contains (fMSG env w frame m).db m.TxidHash ≠ Kind.MSG
      ∧ Contains (fMSG env w frame m).db m.TxidHash = Kind.NOTFOUND)
    ∧ (∀ (m : Message C) (s1 : Store) (log1 : List String) (err : DBError),
      Contains w.db m.TxidHash = Kind.NOTFOUND →
      AddPub w.db w.config.Log m = (s1, log1, some err) →
      Silent w (fPUB env w frame m)
      ∧ Contains (fPUB env w frame m).db m.TxidHash ≠ Kind.PUB
      ∧ Contains (fPUB env w frame m).db m.TxidHash = Kind.NOTFOUND)
    ∧ (∀ (p : Purge) (s0 s1 : Store) (log0 log1 : List String) (err : DBError),
      ((Contains w.db (MakeHash p.Txid.bytes) = Kind.PUB
            ∨ Contains w.db (MakeHash p.Txid.bytes) = Kind.MSG)
          ∧ RemoveHash w.db w.config.Log (MakeHash p.Txid.bytes) = (s0, log0, none)
          ∧ AddPurge s0 log0 p = (s1, log1, some err))
        ∨ (Contains w.db (MakeHash p.Txid.bytes) = Kind.NOTFOUND
          ∧ AddPurge w.db w.config.Log p = (s1, log1, some err)) →
      Silent w (fPURGE w frame p)
      ∧ Contains (fPURGE w frame p).db (MakeHash p.Txid.bytes) ≠ Kind.PURGE
      ∧ (Contains (fPURGE w frame p).db (MakeHash p.Txid.bytes) = Kind.PUB
        ∨ Contains (fPURGE w frame p).db (MakeHash p.Txid.bytes) = Kind.MSG
        ∨ Contains (fPURGE w frame p).db (MakeHash p.Txid.bytes) = Kind.NOTFOUND)
      ∧ (w.db.dbConn ≠ none →
        Contains (fPURGE w frame p).db (MakeHash (Purge.GetBytes (some p))) ≠ Kind.PURGE)) := by
  refine ⟨?_, ?_, ?_, ?_⟩
  · intro pk s1 log1 err hfail
    have hres : Silent w (fPUBKEY w frame pk) ∧ (fPUBKEY w frame pk).db = s1
        ∧ Contains s1 pk.AddrHash = Kind.NOTFOUND := by
      rcases hfail with ⟨hk, hadd⟩ | ⟨hk, hadd⟩
      · have h1 := storePubkey_failed { w with db := Delete w.db pk.AddrHash } frame pk
          s1 log1 err hadd
        have hidx := AddPubkey_error _ s1 _ log1 pk err hadd
        have hfp : fPUBKEY w frame pk
            = storePubkey { w with db := Delete w.db pk.AddrHash } frame pk := by
          unfold fPUBKEY
          simp only [hk]
        rw [hfp]
        refine ⟨h1.1, h1.2, ?_⟩
        rw [Contains_congr s1 _ _ hidx]
        obtain ⟨idx, hl, _⟩ := hashList_of_Contains w.db pk.AddrHash Kind.PUBKEYRQ hk (by decide)
        simp only [Delete, hl, Contains, mapGet_mapDelete_self, Option.getD_none]
      · have h1 := storePubkey_failed w frame pk s1 log1 err hadd
        have hidx := AddPubkey_error _ s1 _ log1 pk err hadd
        have hfp : fPUBKEY w frame pk = storePubkey w frame pk := by
          unfold fPUBKEY
          simp only [hk]
        rw [hfp]
        refine ⟨h1.1, h1.2, ?_⟩
        rw [Contains_congr s1 _ _ hidx]
        exact hk
    refine ⟨hres.1, ?_, ?_⟩
    · rw [hres.2.1, hres.2.2]
      decide
    · rw [hres.2.1, hres.2.2]
  · intro m s1 log1 err hk hadd
    have hidx := AddMessage_error _ s1 _ log1 m err hadd
    have hres : Silent w (fMSG env w frame m) ∧ (fMSG env w frame m).db = s1 := by
      unfold fMSG
      simp only [hk, hadd]
      exact ⟨⟨rfl, rfl, rfl, rfl, rfl⟩, rfl⟩
    have hc : Contains s1 m.TxidHash = Kind.NOTFOUND := by
      rw [Contains_congr s1 _ _ hidx]
      exact hk
    refine ⟨hres.1, ?_, ?_⟩
    · rw [hres.2, hc]
      decide
    · rw [hres.2, hc]
  · intro m s1 log1 err hk hadd
    have hidx := AddPub_error _ s1 _ log1 m err hadd
    have hres : Silent w (fPUB env w frame m) ∧ (fPUB env w frame m).db = s1 := by
      unfold fPUB
      simp only [hk, hadd]
      exact ⟨⟨rfl, rfl, rfl, rfl, rfl⟩, rfl⟩
    have hc : Contains s1 m.TxidHash = Kind.NOTFOUND := by
      rw [Contains_congr s1 _ _ hidx]
      exact hk
    refine ⟨hres.1, ?_, ?_⟩
    · rw [hres.2, hc]
      decide
    · rw [hres.2, hc]
  · intro p s0 s1 log0 log1 err hfail
    have hres : Silent w (fPURGE w frame p) ∧ (fPURGE w frame p).db = s1
        ∧ (Contains s1 (MakeHash p.Txid.bytes) = Kind.PUB
          ∨ Contains s1 (MakeHash p.Txid.bytes) = Kind.MSG
          ∨ Contains s1 (MakeHash p.Txid.bytes) = Kind.NOTFOUND)
        ∧ (w.db.dbConn ≠ none →
          Contains s1 (MakeHash (Purge.GetBytes (some p))) ≠ Kind.PURGE) := by
      rcases hfail with ⟨hk, hrem, hadd⟩ | ⟨hk, hadd⟩
      · have h1 := removeThenStorePurge_failed w frame p (MakeHash p.Txid.bytes) s0 s1 log0 log1
          err hrem hadd
        have herr := AddPurge_error s0 s1 log0 log1 p err hadd
        have hri := RemoveHash_index w.db w.config.Log (MakeHash p.Txid.bytes)
        rw [hrem] at hri
        have hfp : fPURGE w frame p = removeThenStorePurge w frame p (MakeHash p.Txid.bytes) := by
          unfold fPURGE
          rcases hk with hk | hk <;> simp only [hk]
        rw [hfp]
        refine ⟨h1.1, h1.2, ?_, ?_⟩
        · rw [Contains_congr s1 s0 _ herr.1]
          rcases hri.1 with hsame | hgone
          · have hsame2 : Contains s0 (MakeHash p.Txid.bytes)
                = Contains w.db (MakeHash p.Txid.bytes) := hsame
            rw [hsame2]
            rcases hk with hk | hk
            · exact Or.inl hk
            · exact Or.inr (Or.inl hk)
          · exact Or.inr (Or.inr hgone)
        · intro hdb
          apply herr.2
          intro h0
          exact hdb (hri.2.mp h0)
      · have h1 := storePurge_failed w frame p s1 log1 err hadd
        have herr := AddPurge_error w.db s1 w.config.Log log1 p err hadd
        have hfp : fPURGE w frame p = storePurge w frame p := by
          unfold fPURGE
          simp only [hk]
        rw [hfp]
        refine ⟨h1.1, h1.2, ?_, herr.2⟩
        rw [Contains_congr s1 w.db _ herr.1]
        exact Or.inr (Or.inr hk)
    refine ⟨hres.1, ?_, ?_, ?_⟩
    · rw [hres.2.1]
      rcases hres.2.2.1 with h | h | h <;> rw [h] <;> decide
    · rw [hres.2.1]
      exact hres.2.2.1
    · rw [hres.2.1]
      exact hres.2.2.2

theorem C26_failed_persist_is_silent_witness :
    (Contains brokenWorld.db samplePubkey.AddrHash = Kind.NOTFOUND
      ∧ AddPubkey brokenWorld.db brokenWorld.config.Log samplePubkey
          = (brokenWorld.db, ["Error inserting pubkey into db..."], some DBError.failure))
    ∧ (Silent brokenWorld (fPUBKEY brokenWorld (sampleFrame MSG BROADCAST) samplePubkey)
      ∧ Contains (fPUBKEY brokenWorld (sampleFrame MSG BROADCAST) samplePubkey).db
          samplePubkey.AddrHash = Kind.NOTFOUND)
    ∧ (Silent brokenWorld (fMSG sampleEnv brokenWorld (sampleFrame MSG BROADCAST) sampleMessage)
      ∧ Contains (fMSG sampleEnv brokenWorld (sampleFrame MSG BROADCAST) sampleMessage).db
          sampleMessage.TxidHash = Kind.NOTFOUND)
    ∧ (Silent brokenWorld (fPUB sampleEnv brokenWorld (sampleFrame MSG BROADCAST) samplePub)
      ∧ Contains (fPUB sampleEnv brokenWorld (sampleFrame MSG BROADCAST) samplePub).db
          samplePub.TxidHash = Kind.NOTFOUND)
    ∧ (Silent brokenWorld (fPURGE brokenWorld (sampleFrame MSG BROADCAST) signedPurge)
      ∧ Contains (fPURGE brokenWorld (sampleFrame MSG BROADCAST) signedPurge).db
          (MakeHash signedPurge.Txid.bytes) ≠ Kind.PURGE
      ∧ Contains (fPURGE brokenWorld (sampleFrame MSG BROADCAST) signedPurge).db
          (MakeHash (Purge.GetBytes (some signedPurge))) ≠ Kind.PURGE) :=
  have h := C26_failed_persist_is_silent sampleEnv brokenWorld (sampleFrame MSG BROADCAST)
  have hpk : Contains brokenWorld.db samplePubkey.AddrHash = Kind.NOTFOUND
      ∧ AddPubkey brokenWorld.db brokenWorld.config.Log samplePubkey
          = (brokenWorld.db, ["Error inserting pubkey into db..."], some DBError.failure) := by
    decide
  have h1 := h.1 samplePubkey brokenWorld.db ["Error inserting pubkey into db..."]
    DBError.failure (Or.inr hpk)
  have h2 := h.2.1 sampleMessage brokenWorld.db ["Error inserting message into db..."]
    DBError.failure (by decide) (by decide)
  have h3 := h.2.2.1 samplePub brokenWorld.db ["Error inserting message into db..."]
    DBError.failure (by decide) (by decide)
  have h4 := h.2.2.2 signedPurge brokenWorld.db brokenWorld.db [] ["Error inserting purge into db..."]
    DBError.failure (Or.inr (by decide!))
  ⟨hpk, ⟨h1.1, h1.2.2⟩, ⟨h2.1, h2.2.2⟩, ⟨h3.1, h3.2.2⟩, ⟨h4.1, h4.2.1, h4.2.2.2 (by decide)⟩⟩

end Outbound


/-! ## The pubkey table (C28) -/

section PubkeyStore

/-- Two hashes with the same bytes are the same hash. -/
theorem Hash.eq_of_bytes (h g : Hash) (hb : h.bytes = g.bytes) : h = g := by
  cases h
  cases g
  simp only at hb
  subst hb
  rfl

/-- On a store whose index agrees with the table pubkey, GetPubkey returns nil for
every hash that the index does not hold as PUBKEY, whatever value a map index
yields for an absent key. -/
theorem GetPubkey_other_kind (env : Env) (s : Store) (h : Hash) (hagree : PubkeyAgrees s)
    (hk : Contains s h ≠ Kind.PUBKEY) : GetPubkey env s h = none := by
  unfold GetPubkey
  split
  · rename_i idx db hidx hdb
    have hrow := hagree db hdb h hk
    have hq : db.queryPubkey h.GetBytes = none := by
      unfold Backend.queryPubkey
      split
      · rfl
      · have hfind : db.pubkey.find? (fun r => r.hash = h.GetBytes) = none := by
          rw [List.find?_eq_none]
          intro r hr hp
          have : db.pubkey.any (fun r => r.hash = h.bytes) = true :=
            List.any_eq_true.mpr ⟨r, hr, hp⟩
          rw [hrow] at this
          exact Bool.noConfusion this
        rw [hfind]
        rfl
    dsimp only
    rw [hq]
    split <;> rfl
  · rfl

/-- AddPubkey keeps the index in agreement with the table pubkey. -/
theorem AddPubkey_agrees (idx : List (Hash × Kind)) (db : Backend) (pk : EncryptedPubkey)
    (hagree : PubkeyAgrees ⟨some idx, some db⟩) :
    PubkeyAgrees ⟨some (mapSet idx pk.AddrHash Kind.PUBKEY),
      some { db with pubkey := db.pubkey ++ [⟨pk.AddrHash.bytes, pk.IV.bytes ++ pk.Payload⟩] }⟩ := by
  intro db2 hdb2 h hk
  simp only [Option.some.injEq] at hdb2
  subst hdb2
  have hne : h ≠ pk.AddrHash := by
    intro he
    apply hk
    rw [he]
    simp only [Contains, mapGet_mapSet_self, Option.getD_some]
  have hold : Contains ⟨some idx, some db⟩ h ≠ Kind.PUBKEY := by
    intro hc
    apply hk
    simp only [Contains, mapGet_mapSet_ne idx pk.AddrHash h Kind.PUBKEY hne]
    exact hc
  have hrow := hagree db rfl h hold
  simp only [List.any_append, hrow, Bool.false_or, List.any_cons, List.any_nil, Bool.or_false,
    decide_eq_false_iff_not]
  intro hb
  exact hne (Hash.eq_of_bytes h pk.AddrHash hb.symm)

/-- C28: on an initialised store whose backend answers and whose index agrees
with the table pubkey, for a pubkey pk whose AddrHash is not held as PUBKEY:
AddPubkey returns nil and appends the row (AddrHash bytes, IV ∥ Payload), whose
payload has 16 + len(Payload) bytes; afterwards Contains(AddrHash) is PUBKEY and
GetPubkey(AddrHash) returns pk; before and after the call GetPubkey returns nil
for every hash that the index does not hold as PUBKEY. -/
theorem C28_pubkey_store_roundtrip (env : Env) (idx : List (Hash × Kind)) (db : Backend)
    (log : List String) (pk : EncryptedPubkey)
    (hf : db.failing = false)
    (hagree : PubkeyAgrees ⟨some idx, some db⟩)
    (hk : Contains ⟨some idx, some db⟩ pk.AddrHash ≠ Kind.PUBKEY) :
    AddPubkey ⟨some idx, some db⟩ log pk
      = (⟨some (mapSet idx pk.AddrHash Kind.PUBKEY),
          some { db with pubkey := db.pubkey ++ [⟨pk.AddrHash.bytes, pk.IV.bytes ++ pk.Payload⟩] }⟩,
         log, none)
    ∧ (pk.IV.bytes ++ pk.Payload).length = 16 + pk.Payload.length
    ∧ Contains (AddPubkey ⟨some idx, some db⟩ log pk).1 pk.AddrHash = Kind.PUBKEY
    ∧ GetPubkey env (AddPubkey ⟨some idx, some db⟩ log pk).1 pk.AddrHash = some pk
    ∧ (∀ h : Hash, Contains (AddPubkey ⟨some idx, some db⟩ log pk).1 h ≠ Kind.PUBKEY →
        GetPubkey env (AddPubkey ⟨some idx, some db⟩ log pk).1 h = none)
    ∧ (∀ h : Hash, Contains ⟨some idx, some db⟩ h ≠ Kind.PUBKEY →
        GetPubkey env ⟨some idx, some db⟩ h = none) := by
  have hrow := hagree db rfl pk.AddrHash hk
  have hadd := AddPubkey_fresh idx db log pk hf hk hrow
  rw [hadd]
  refine ⟨rfl, ?_, ?_, ?_, ?_, ?_⟩
  · rw [List.length_append, pk.IV.len]
  · simp only [Contains, mapGet_mapSet_self, Option.getD_some]
  · exact GetPubkey_stored env (mapSet idx pk.AddrHash Kind.PUBKEY)
      { db with pubkey := db.pubkey ++ [⟨pk.AddrHash.bytes, pk.IV.bytes ++ pk.Payload⟩] } pk hf
      (mapGet_mapSet_self idx pk.AddrHash Kind.PUBKEY)
      (find?_append_fresh db.pubkey _ _ hrow (by simp))
  · intro h hh
    exact GetPubkey_other_kind env _ h (AddPubkey_agrees idx db pk hagree) hh
  · intro h hh
    exact GetPubkey_other_kind env _ h hagree hh

theorem C28_pubkey_store_roundtrip_witness :
    emptyStore.dbConn.map Backend.failing = some false
    ∧ PubkeyAgrees emptyStore
    ∧ Contains emptyStore samplePubkey.AddrHash ≠ Kind.PUBKEY
    ∧ (AddPubkey emptyStore [] samplePubkey).1.dbConn.map Backend.pubkey
        = some [⟨Hash.zero.bytes, Bytes16.zero.bytes ++ [9, 9]⟩]
    ∧ GetPubkey { sampleEnv with zeroKind := some Kind.PUBKEY }
        (AddPubkey emptyStore [] samplePubkey).1 samplePubkey.AddrHash = some samplePubkey
    ∧ GetPubkey { sampleEnv with zeroKind := some Kind.PUBKEY }
        (AddPubkey emptyStore [] samplePubkey).1 (sampleHash 1) = none :=
  have hagree : PubkeyAgrees emptyStore := by
    intro db hdb h _
    have hdb2 : db = ⟨[], [], [], [], false⟩ := by
      simp only [emptyStore, Option.some.injEq] at hdb
      exact hdb.symm
    rw [hdb2]
    rfl
  have hk : Contains emptyStore samplePubkey.AddrHash ≠ Kind.PUBKEY := by decide
  have h := C28_pubkey_store_roundtrip { sampleEnv with zeroKind := some Kind.PUBKEY }
    [] ⟨[], [], [], [], false⟩ [] samplePubkey rfl hagree hk
  ⟨rfl, hagree, hk, by decide, h.2.2.2.1, h.2.2.2.2.1 (sampleHash 1) (by decide)⟩

end PubkeyStore

end EMP
